import Mathlib

/-! Expense tracker: limit tracking, categorisation and aggregation.

A shallow embedding of the client-side services of the expense tracker
(`frontend/src/services/expenseLimitService.js`,
`frontend/src/services/profileService.js`,
`frontend/src/services/notificationService.js`, the predicate `isDataEmpty` of
`frontend/src/utils/chartConfig.js`, the auto-close effect of
`frontend/src/components/ProfessionalNotification.jsx` and the display cap of
`frontend/src/components/NotificationContainer.jsx`).

Conventions of the embedding.

* JavaScript numbers are rationals (`ℚ`); `NaN` is `none` where a function can
  receive it.  The arithmetic on them is exact, except in the definitions whose
  name ends in `Double` (`getCurrentMonthExpensesDouble`, `getLimitStatusDouble`):
  these embed the same source functions with every arithmetic operation rounded
  to the nearest IEEE 754 binary64 number (`roundToDouble`), as the engine
  computes it.
* `localStorage` is a record with one optional field per storage key.  A
  stored number is kept as the number itself: `parseFloat (x.toString ())`
  is `x`.
* A `Date` object is the triple of its local calendar fields
  `getFullYear ()`, `getMonth ()` (0..11) and `getDate ()`; the invalid date
  is `none`.
* Wall-clock reads and fresh notification identifiers are explicit arguments.
* An array of numbers that a write can leave with a hole or a `NaN` is a list of
  `Option ℚ`, `none` being an entry that is not a number.
-/

namespace MSD

/-! ## JavaScript primitives -/

/-- Exact `Math.abs`. -/
def mathAbs (x : ℚ) : ℚ := if x < 0 then -x else x

/-- Exact `Math.max` of two numbers. -/
def mathMax (a b : ℚ) : ℚ := if a < b then b else a

/-- Exact `Math.round`: the nearest integer, ties towards positive infinity. -/
def mathRound (x : ℚ) : ℤ := Rat.floor (x + 1 / 2)

/-- Array method `slice (start)` with one argument: a negative `start` counts
from the end of the array, and a start before the beginning is clamped to 0. -/
def jsSlice {α : Type} (l : List α) (start : Int) : List α :=
  if start < 0 then l.drop (l.length - start.natAbs) else l.drop start.toNat

/-- Local calendar fields of a valid `Date` object. -/
structure JsDate where
  /-- Result of `getFullYear ()`. -/
  year : Int
  /-- Result of `getMonth ()`, January is 0. -/
  month : Fin 12
  /-- Result of `getDate ()`, the day of the month. -/
  day : Nat
deriving DecidableEq, Repr

/-- A transaction record as the transaction store returns it.  A field that
the record lacks is `none`; `createdAt` holds the fields of
`new Date (transaction.createdAt)`, which is the invalid date (`none`) when
the field is missing. -/
structure Transaction where
  text : Option String
  amount : Option ℚ
  createdAt : Option JsDate
deriving DecidableEq, Repr

/-- The test `transaction.amount < 0`; a missing amount compares false. -/
def isExpense (t : Transaction) : Bool :=
  match t.amount with
  | some a => decide (a < 0)
  | none => false

/-- The value `Math.abs (transaction.amount)`.  It is only evaluated on records
that passed `isExpense`, whose amount is a number. -/
def absAmount (t : Transaction) : ℚ :=
  match t.amount with
  | some a => mathAbs a
  | none => 0

/-! ## expenseLimitService: persisted state -/

/-- The object `DEFAULT_NOTIFICATION_SETTINGS` and its merged variants. -/
structure NotificationSettings where
  warningThreshold : ℚ
  enableWarningNotifications : Bool
  enableExceededNotifications : Bool
  enableDailyUpdates : Bool
deriving DecidableEq, Repr

/-- The parsed JSON object stored under `limitNotificationSettings`: any subset
of the settings fields. -/
structure StoredSettings where
  warningThreshold : Option ℚ
  enableWarningNotifications : Option Bool
  enableExceededNotifications : Option Bool
  enableDailyUpdates : Option Bool
deriving DecidableEq, Repr

/-- An entry of the limit history: the `limitData` object of the caller spread
into a record with an `id` and a `timestamp`.  Instants are milliseconds since
the epoch. -/
structure HistoryEntry where
  amount : ℚ
  currency : String
  action : Option String
  setDate : Nat
  updatedAt : Nat
  id : Nat
  timestamp : Nat
deriving DecidableEq, Repr

/-- The `limitData` object handed to `saveLimitToHistory`. -/
structure LimitData where
  amount : ℚ
  currency : String
  action : Option String
  setDate : Nat
  updatedAt : Nat
deriving DecidableEq, Repr

/-- The three `localStorage` keys of `STORAGE_KEYS`; `none` is an absent key. -/
structure Storage where
  monthlyExpenseLimit : Option ℚ
  expenseLimitHistory : Option (List HistoryEntry)
  limitNotificationSettings : Option StoredSettings
deriving DecidableEq, Repr

/-- The derived status object returned by `getLimitStatus`. -/
structure LimitStatus where
  hasLimit : Bool
  status : String
  currentExpenses : ℚ
  limitAmount : Option ℚ
  percentage : ℚ
  remainingAmount : ℚ
  exceededAmount : ℚ
deriving DecidableEq, Repr

/-! ## expenseLimitService: operations -/

def DEFAULT_NOTIFICATION_SETTINGS : NotificationSettings :=
  { warningThreshold := 80
    enableWarningNotifications := true
    enableExceededNotifications := true
    enableDailyUpdates := false }

/-- Source: `getExpenseLimit`, `limit ? parseFloat (limit) : null`. -/
def getExpenseLimit (s : Storage) : Option ℚ := s.monthlyExpenseLimit

/-- Source: `getLimitHistory`, the stored array or the empty array. -/
def getLimitHistory (s : Storage) : List HistoryEntry :=
  match s.expenseLimitHistory with
  | some history => history
  | none => []

/-- Source: `saveLimitToHistory`.  Pushes the entry, keeps `slice (-50)` and
writes the result back. -/
def saveLimitToHistory (s : Storage) (limitData : LimitData) (now : Nat) : Storage :=
  let history := getLimitHistory s ++
    [{ amount := limitData.amount
       currency := limitData.currency
       action := limitData.action
       setDate := limitData.setDate
       updatedAt := limitData.updatedAt
       id := now
       timestamp := now }]
  let trimmedHistory := jsSlice history (-50)
  { s with expenseLimitHistory := some trimmedHistory }

/-- Source: `getNotificationSettings`, the defaults overridden by the stored
fields. -/
def getNotificationSettings (s : Storage) : NotificationSettings :=
  match s.limitNotificationSettings with
  | some p =>
    { warningThreshold := p.warningThreshold.getD DEFAULT_NOTIFICATION_SETTINGS.warningThreshold
      enableWarningNotifications :=
        p.enableWarningNotifications.getD DEFAULT_NOTIFICATION_SETTINGS.enableWarningNotifications
      enableExceededNotifications :=
        p.enableExceededNotifications.getD DEFAULT_NOTIFICATION_SETTINGS.enableExceededNotifications
      enableDailyUpdates := p.enableDailyUpdates.getD DEFAULT_NOTIFICATION_SETTINGS.enableDailyUpdates }
  | none => DEFAULT_NOTIFICATION_SETTINGS

/-- Source: `setExpenseLimit`.  The amount is a JavaScript number, `none` being
`NaN`.  Returns the outcome together with the storage after the call; the
validation throws before anything is written. -/
def setExpenseLimit (s : Storage) (amount : Option ℚ) (now : Nat) :
    Except String LimitData × Storage :=
  match amount with
  | none =>
    (.error "Failed to set expense limit: Please enter a valid limit amount greater than 0", s)
  | some a =>
    if a = 0 ∨ a ≤ 0 then
      (.error "Failed to set expense limit: Please enter a valid limit amount greater than 0", s)
    else
      let limitData : LimitData :=
        { amount := a, currency := "INR", action := none, setDate := now, updatedAt := now }
      let s1 : Storage := { s with monthlyExpenseLimit := some a }
      (.ok limitData, saveLimitToHistory s1 limitData now)

/-- Source: `getCurrentMonthExpenses`, over the fetched transactions and the
calendar fields of the wall clock. -/
def getCurrentMonthExpenses (transactions : List Transaction) (currentDate : JsDate) : ℚ :=
  let currentMonth := currentDate.month
  let currentYear := currentDate.year
  (transactions.filter (fun transaction =>
      match transaction.createdAt with
      | some transactionDate =>
        decide (transactionDate.month = currentMonth) &&
        decide (transactionDate.year = currentYear) &&
        isExpense transaction
      | none => false)).foldl
    (fun total transaction => total + absAmount transaction) 0

/-- Source: `getLimitStatus`.  The test `!limit` holds for an absent limit and
for a stored 0. -/
def getLimitStatus (s : Storage) (transactions : List Transaction) (currentDate : JsDate) :
    LimitStatus :=
  let limit := getExpenseLimit s
  let currentExpenses := getCurrentMonthExpenses transactions currentDate
  match limit with
  | none =>
    { hasLimit := false, status := "no_limit", currentExpenses := currentExpenses,
      limitAmount := none, percentage := 0, remainingAmount := 0, exceededAmount := 0 }
  | some l =>
    if l = 0 then
      { hasLimit := false, status := "no_limit", currentExpenses := currentExpenses,
        limitAmount := none, percentage := 0, remainingAmount := 0, exceededAmount := 0 }
    else
      let percentage := (currentExpenses / l) * 100
      let status :=
        if percentage ≥ 100 then "exceeded"
        else if percentage ≥ (getNotificationSettings s).warningThreshold then "warning"
        else "safe"
      { hasLimit := true
        status := status
        currentExpenses := currentExpenses
        limitAmount := some l
        percentage := (mathRound (percentage * 100) : ℚ) / 100
        remainingAmount := mathMax 0 (l - currentExpenses)
        exceededAmount := mathMax 0 (currentExpenses - l) }

/-- Source: `removeExpenseLimit`.  Removes the key, records the removal in the
history and reports success. -/
def removeExpenseLimit (s : Storage) (now : Nat) : (Bool × String) × Storage :=
  let s1 : Storage := { s with monthlyExpenseLimit := none }
  let s2 := saveLimitToHistory s1
    { amount := 0, currency := "INR", action := some "removed", setDate := now, updatedAt := now }
    now
  ((true, "Expense limit removed successfully"), s2)

/-! ## profileService: categorisation and aggregation -/

/-- The table `categoryKeywords`, in the order `Object.entries` enumerates it. -/
def categoryKeywords : List (String × List String) :=
  [("Food", ["restaurant", "food", "grocery", "cafe", "dining", "meal", "lunch", "dinner",
      "breakfast", "snack", "pizza", "burger", "coffee", "tea"]),
   ("Transport", ["uber", "taxi", "bus", "train", "fuel", "petrol", "metro", "auto",
      "rickshaw", "flight", "travel", "parking", "toll"]),
   ("Entertainment", ["movie", "cinema", "game", "music", "streaming", "netflix",
      "amazon prime", "spotify", "concert", "show", "theater"]),
   ("Shopping", ["amazon", "flipkart", "mall", "store", "clothes", "shopping", "dress",
      "shirt", "shoes", "bag", "electronics", "mobile"]),
   ("Bills", ["electricity", "water", "internet", "phone", "rent", "insurance", "gas",
      "maintenance", "wifi", "broadband", "utility"]),
   ("Healthcare", ["doctor", "medicine", "hospital", "pharmacy", "medical", "clinic",
      "health", "dentist", "checkup", "prescription"]),
   ("Education", ["course", "book", "tuition", "school", "college", "training", "workshop",
      "certification", "study", "exam"])]

/-- String method `text.includes (keyword)`: the keyword occurs as a contiguous run
of characters of the text. -/
def jsIncludes (text keyword : String) : Bool := decide (keyword.data <:+: text.data)

/-- Source: `categorizeTransaction`.  The built-in `toLowerCase` is an argument.  Reading
`transaction.text.toLowerCase` on a record without `text` throws a `TypeError`. -/
def categorizeTransaction (toLowerCase : String → String) (transaction : Transaction) :
    Except String String :=
  match transaction.text with
  | none => .error "TypeError: Cannot read properties of undefined (reading 'toLowerCase')"
  | some raw =>
    let text := toLowerCase raw
    match categoryKeywords.find?
        (fun entry => entry.2.any (fun keyword => jsIncludes text keyword)) with
    | some entry => .ok entry.1
    | none => .ok "Other"

/-- Source: `calculateMonthlyData`.  The array `monthlyTotals` is a list of 12 numbers;
`forEach` over the filtered list is a left fold. -/
def calculateMonthlyData (transactions : List Transaction) (year : Int) : List ℚ :=
  (transactions.filter isExpense).foldl
    (fun monthlyTotals transaction =>
      match transaction.createdAt with
      | some date =>
        if date.year = year then
          let month := date.month.val
          monthlyTotals.set month (monthlyTotals.getD month 0 + absAmount transaction)
        else monthlyTotals
      | none => monthlyTotals)
    (List.replicate 12 0)

/-- Specification side of the monthly totals: what one transaction contributes to month
`m` of `year`, namely `|amount|` when the amount is negative and `createdAt` lies in that
month of that year, and nothing otherwise. -/
def monthContribution (year : Int) (m : Nat) (t : Transaction) : ℚ :=
  match t.amount, t.createdAt with
  | some a, some d => if a < 0 ∧ d.year = year ∧ d.month.val = m then |a| else 0
  | _, _ => 0

/-- Specification side of the yearly total: what one transaction contributes to `year`,
namely `|amount|` when the amount is negative and `createdAt` lies in that year, and nothing
otherwise. -/
def yearContribution (year : Int) (t : Transaction) : ℚ :=
  match t.amount, t.createdAt with
  | some a, some d => if a < 0 ∧ d.year = year then |a| else 0
  | _, _ => 0

/-- Leap years of the proleptic Gregorian calendar, as in `DaysInYear` of the language
specification. -/
def isLeapYear (y : Int) : Bool :=
  decide ((y % 4 = 0 ∧ y % 100 ≠ 0) ∨ y % 400 = 0)

/-- Number of days of month `m` (0..11) of the calendar year `y`. -/
def daysInGregorianMonth (y : Int) (m : Fin 12) : Nat :=
  match m.val with
  | 0 => 31
  | 1 => if isLeapYear y then 29 else 28
  | 2 => 31
  | 3 => 30
  | 4 => 31
  | 5 => 30
  | 6 => 31
  | 7 => 31
  | 8 => 30
  | 9 => 31
  | 10 => 30
  | _ => 31

/-- The year a `Date` constructor call `new Date (year, month, day)` uses: a year argument
from 0 to 99 stands for 1900 + year. -/
def makeFullYear (year : Int) : Int :=
  if 0 ≤ year ∧ year ≤ 99 then 1900 + year else year

/-- The expression `new Date (year, month + 1, 0).getDate ()`: the last day of month `month`
of the year the constructor uses.  The range limit of `Date` (about 275760 years either side
of 1970) is not modelled. -/
def daysInMonth (year : Int) (month : Fin 12) : Nat :=
  daysInGregorianMonth (makeFullYear year) month

/-- A date whose day of the month exists in its month and year; every valid `Date` object
has such fields. -/
def JsDate.valid (d : JsDate) : Prop :=
  1 ≤ d.day ∧ d.day ≤ daysInGregorianMonth d.year d.month

instance (d : JsDate) : Decidable d.valid := by
  unfold JsDate.valid
  exact inferInstance

/-- The statement `arr[i] += x` on an array of numbers, `none` being an entry that is not
a number (`NaN` or a hole).  Inside the array it adds to the entry, and `NaN + x` is `NaN`.
At or past the end the array grows to length `i + 1`: the skipped entries are holes and
entry `i` is `undefined + x`, which is `NaN`. -/
def jsAddAt (arr : List (Option ℚ)) (i : Nat) (x : ℚ) : List (Option ℚ) :=
  if i < arr.length then arr.set i ((arr.getD i none).map (fun v => v + x))
  else arr ++ List.replicate (i - arr.length) none ++ [none]

/-- Source: `calculateDailyData`.  The array `dailyTotals` starts as `daysInMonth` zeros;
`getDate ()` is at least 1, so `getDate () - 1` is an array index. -/
def calculateDailyData (transactions : List Transaction) (year : Int) (month : Fin 12) :
    List (Option ℚ) :=
  let daysInMonth := daysInMonth year month
  (transactions.filter isExpense).foldl
    (fun dailyTotals transaction =>
      match transaction.createdAt with
      | some date =>
        if date.year = year ∧ date.month = month then
          let day := date.day - 1
          jsAddAt dailyTotals day (absAmount transaction)
        else dailyTotals
      | none => dailyTotals)
    (List.replicate daysInMonth (some 0))

/-- Specification side of the daily totals: what one transaction contributes to day `day`
(1-based) of month `month` of `year`. -/
def dayContribution (year : Int) (month : Fin 12) (day : Nat) (t : Transaction) : ℚ :=
  match t.amount, t.createdAt with
  | some a, some d =>
    if a < 0 ∧ d.year = year ∧ d.month = month ∧ d.day = day then |a| else 0
  | _, _ => 0

/-- Property read `obj[key]` on an object with numeric values, kept as the list of its
entries in insertion order; `none` is `undefined`. -/
def objGet (obj : List (String × ℚ)) (key : String) : Option ℚ :=
  match obj with
  | [] => none
  | entry :: rest => if entry.1 = key then some entry.2 else objGet rest key

/-- Property write `obj[key] = value`: an existing key keeps its place, a new key is added
at the end. -/
def objSet (obj : List (String × ℚ)) (key : String) (value : ℚ) : List (String × ℚ) :=
  match obj with
  | [] => [(key, value)]
  | entry :: rest =>
    if entry.1 = key then (key, value) :: rest else entry :: objSet rest key value

/-- Source: `getCategoryBreakdown`.  A `TypeError` thrown by `categorizeTransaction` inside
`forEach` ends the call. -/
def getCategoryBreakdown (toLowerCase : String → String) (transactions : List Transaction) :
    Except String (List (String × ℚ)) :=
  (transactions.filter isExpense).foldlM
    (fun categoryTotals transaction =>
      match categorizeTransaction toLowerCase transaction with
      | .error e => .error e
      | .ok category =>
        let amount := absAmount transaction
        .ok (objSet categoryTotals category ((objGet categoryTotals category).getD 0 + amount)))
    []

/-- Specification side of the category totals: what one transaction contributes to
`category`, namely `|amount|` when the amount is negative and the transaction is categorised
to `category`, and nothing otherwise. -/
def categoryContribution (toLowerCase : String → String) (category : String)
    (t : Transaction) : ℚ :=
  match t.amount, categorizeTransaction toLowerCase t with
  | some a, .ok c => if a < 0 ∧ c = category then |a| else 0
  | _, _ => 0

/-! ## chartUtils -/

/-- An entry of a chart data array: a number, `null`, `undefined`, or any other value. -/
inductive JsEntry where
  | number (value : ℚ)
  | null
  | undefined
  | other
deriving DecidableEq, Repr

/-- The argument of `chartUtils.isDataEmpty`: absent (`null` or `undefined`), a value that
is not an array, or an array of entries. -/
inductive ChartData where
  | null
  | undefined
  | notArray
  | array (items : List JsEntry)
deriving DecidableEq, Repr

/-- Source: `chartUtils.isDataEmpty`.  The guard `!data || !Array.isArray (data)` returns
`true` for everything that is not an array. -/
def isDataEmpty (data : ChartData) : Bool :=
  match data with
  | .array items =>
    items.all (fun value =>
      value == JsEntry.number 0 || value == JsEntry.null || value == JsEntry.undefined)
  | _ => true

/-! ## notificationService -/

/-- A notification object, with the option keys the callers of this repository spread into
it; `none` is an absent key. -/
structure Notification where
  id : String
  type : String
  title : String
  message : String
  timestamp : Nat
  autoClose : Bool
  duration : Nat
  dismissed : Bool
  isLimitNotification : Option Bool
  priority : Option String
deriving DecidableEq, Repr

/-- The `options` argument of `addNotification`; `none` is an absent key. -/
structure NotificationOptions where
  autoClose : Option Bool
  duration : Option Nat
  isLimitNotification : Option Bool
  priority : Option String
deriving DecidableEq, Repr

/-- A subscribed callback: `id` stands for the reference of the function object, which is
what `!==` compares, and `throws` tells on which argument the callback throws.  Callbacks
do not call back into the service. -/
structure Listener where
  id : Nat
  throws : List Notification → Bool

/-- The state of `notificationService`, with two observation logs: every listener
invocation (listener reference and argument) and every `console.error` line. -/
structure NotificationService where
  activeNotifications : List Notification
  listeners : List Listener
  calls : List (Nat × List Notification)
  consoleErrors : List String

/-- Source: `getDefaultDuration`, `durations[type] || 5000`. -/
def getDefaultDuration (type : String) : Nat :=
  let durations : List (String × Nat) :=
    [("success", 3000), ("info", 5000), ("warning", 0), ("error", 0)]
  match durations.lookup type with
  | some d => if d = 0 then 5000 else d
  | none => 5000

/-- Source: the callback of `forEach` in `notifyListeners`: the listener is called with a
copy of the current list, and a throw is caught and logged. -/
def callListener (st : NotificationService) (listener : Listener) : NotificationService :=
  let st1 := { st with calls := st.calls ++ [(listener.id, st.activeNotifications)] }
  if listener.throws st.activeNotifications then
    { st1 with consoleErrors := st1.consoleErrors ++ ["Error in notification listener:"] }
  else st1

/-- Source: `notifyListeners`. -/
def notifyListeners (s : NotificationService) : NotificationService :=
  s.listeners.foldl callListener s

/-- Source: `addNotification`.  The identifier (`Date.now ()` and `Math.random ()`) and the
clock are arguments.  The object literal sets `autoClose` and `duration` first and the
spread `...options` then overrides every key that `options` has. -/
def addNotification (s : NotificationService) (type title message : String)
    (options : NotificationOptions) (id : String) (now : Nat) :
    Notification × NotificationService :=
  let autoClose0 : Bool := options.autoClose != some false
  let duration0 : Nat :=
    match options.duration with
    | some d => if d = 0 then getDefaultDuration type else d
    | none => getDefaultDuration type
  let notification : Notification :=
    { id := id
      type := type
      title := title
      message := message
      timestamp := now
      autoClose := options.autoClose.getD autoClose0
      duration := options.duration.getD duration0
      dismissed := false
      isLimitNotification := options.isLimitNotification
      priority := options.priority }
  let s1 := { s with activeNotifications := s.activeNotifications ++ [notification] }
  (notification, notifyListeners s1)

/-- Source: `removeNotification`. -/
def removeNotification (s : NotificationService) (notificationId : String) :
    NotificationService :=
  notifyListeners
    { s with
      activeNotifications :=
        s.activeNotifications.filter (fun notification => notification.id != notificationId) }

/-- Source: `clearAllNotifications`. -/
def clearAllNotifications (s : NotificationService) : NotificationService :=
  notifyListeners { s with activeNotifications := [] }

/-- Source: `subscribe`, the push of the listener. -/
def subscribe (s : NotificationService) (listener : Listener) : NotificationService :=
  { s with listeners := s.listeners ++ [listener] }

/-- Source: the function returned by `subscribe`, which filters the listener list with
`l !== listener`. -/
def unsubscribe (s : NotificationService) (listener : Listener) : NotificationService :=
  { s with listeners := s.listeners.filter (fun l => l.id != listener.id) }

/-- Source: the auto-close effect of `ProfessionalNotification`: the delay after which the
component dismisses the notification, or `none` when no timer is started. -/
def autoCloseDelay (autoClose : Bool) (notification : Notification) : Option Nat :=
  if autoClose && notification.autoClose && decide (notification.duration > 0) then
    some notification.duration
  else none

/-- The number conversions used in notification messages: `String (x)` of a template
literal and `x.toFixed (2)`. -/
structure NumberFormat where
  numberToString : ℚ → String
  toFixed2 : ℚ → String

/-- Source: `profileService.createNotification`. -/
def createNotification (type title message : String) (autoClose : Bool) (duration : Nat)
    (now : Nat) : Notification :=
  { id := toString now
    type := type
    title := title
    message := message
    timestamp := now
    autoClose := autoClose
    duration := duration
    dismissed := false
    isLimitNotification := none
    priority := none }

/-- Source: `expenseLimitService.checkLimitBreachNotifications`. -/
def checkLimitBreachNotifications (fmt : NumberFormat) (s : Storage)
    (transactions : List Transaction) (currentDate : JsDate) (now : Nat) : List Notification :=
  let limitStatus := getLimitStatus s transactions currentDate
  let settings := getNotificationSettings s
  if !limitStatus.hasLimit then []
  else
    let limitText :=
      match limitStatus.limitAmount with
      | some l => fmt.numberToString l
      | none => "null"
    let warning :=
      if limitStatus.status = "warning" ∧ settings.enableWarningNotifications = true then
        [createNotification "warning" "Budget Alert"
          ("You have spent " ++ fmt.numberToString limitStatus.percentage ++
            "% of your monthly limit (₹" ++ fmt.toFixed2 limitStatus.currentExpenses ++
            " of ₹" ++ limitText ++ ")")
          false 0 now]
      else []
    let exceeded :=
      if limitStatus.status = "exceeded" ∧ settings.enableExceededNotifications = true then
        [createNotification "error" "Budget Exceeded"
          ("You have exceeded your monthly limit by ₹" ++
            fmt.toFixed2 limitStatus.exceededAmount)
          false 0 now]
      else []
    warning ++ exceeded

/-- Source: `checkAndNotifyExpenseLimits`, for a check whose transaction fetch succeeds.
The flag test `!notification.isLimitNotification` keeps every notification whose flag is
not `true`. -/
def checkAndNotifyExpenseLimits (fmt : NumberFormat) (svc : NotificationService)
    (storage : Storage) (transactions : List Transaction) (currentDate : JsDate) (now : Nat)
    (freshId : Nat → String) : Bool × NotificationService :=
  let limitNotifications :=
    checkLimitBreachNotifications fmt storage transactions currentDate now
  let svc1 :=
    { svc with
      activeNotifications :=
        svc.activeNotifications.filter
          (fun notification => !(notification.isLimitNotification == some true)) }
  let svc2 :=
    limitNotifications.enum.foldl
      (fun st entry =>
        (addNotification st entry.2.type entry.2.title entry.2.message
          { autoClose := some false, duration := none, isLimitNotification := some true
            priority := some "high" }
          (freshId entry.1) now).2)
      svc1
  (decide (limitNotifications.length > 0), svc2)

/-! ## profileService: second limit status, category chart -/

/-- The object returned by `profileService.checkLimitStatus`; `remainingAmount` is absent
(`none`) when no limit is stored. -/
structure ProfileLimitStatus where
  status : String
  currentExpenses : ℚ
  limitAmount : Option ℚ
  percentage : ℚ
  remainingAmount : Option ℚ
deriving DecidableEq, Repr

/-- Source: `profileService.checkLimitStatus`.  It reads the same storage key as
`expenseLimitService.getExpenseLimit` and sums the current month in the same way; the
warning threshold 80 is a constant here. -/
def checkLimitStatus (s : Storage) (transactions : List Transaction) (currentDate : JsDate) :
    ProfileLimitStatus :=
  let limit := s.monthlyExpenseLimit
  let currentExpenses := getCurrentMonthExpenses transactions currentDate
  match limit with
  | none =>
    { status := "no_limit", currentExpenses := currentExpenses, limitAmount := none
      percentage := 0, remainingAmount := none }
  | some l =>
    if l = 0 then
      { status := "no_limit", currentExpenses := currentExpenses, limitAmount := none
        percentage := 0, remainingAmount := none }
    else
      let percentage := (currentExpenses / l) * 100
      let status :=
        if percentage ≥ 100 then "exceeded"
        else if percentage ≥ 80 then "warning"
        else "safe"
      { status := status
        currentExpenses := currentExpenses
        limitAmount := some l
        percentage := (mathRound percentage : ℚ)
        remainingAmount := some (mathMax 0 (l - currentExpenses)) }

/-- The chart data object of `getCategoryAnalytics`, reduced to the three arrays that are
paired index by index. -/
structure CategoryChartData where
  labels : List String
  data : List ℚ
  backgroundColor : List String
deriving DecidableEq, Repr

/-- The array `colors` of `getCategoryAnalytics`. -/
def categoryColors : List String :=
  ["rgba(239, 68, 68, 0.8)", "rgba(59, 130, 246, 0.8)", "rgba(16, 185, 129, 0.8)",
   "rgba(245, 158, 11, 0.8)", "rgba(139, 92, 246, 0.8)", "rgba(236, 72, 153, 0.8)",
   "rgba(34, 197, 94, 0.8)"]

/-- Source: `getCategoryAnalytics`, over the fetched transactions: `Object.keys`,
`Object.values` and `colors.slice (0, labels.length)`.  An error of
`getCategoryBreakdown` is thrown on with its message. -/
def getCategoryAnalytics (toLowerCase : String → String) (transactions : List Transaction) :
    Except String CategoryChartData :=
  match getCategoryBreakdown toLowerCase transactions with
  | .error e => .error e
  | .ok categoryData =>
    let labels := categoryData.map Prod.fst
    let data := categoryData.map Prod.snd
    .ok { labels := labels, data := data, backgroundColor := categoryColors.take labels.length }

/-! ## expenseLimitService: spending insights -/

/-- The result of a JavaScript division of two finite numbers. -/
inductive JsQuotient where
  | finite (value : ℚ)
  | posInfinity
  | negInfinity
  | nan
deriving DecidableEq, Repr

/-- The operator `/` on finite numbers: a zero divisor gives an infinity, or `NaN` for
`0 / 0`. -/
def jsDivide (a b : ℚ) : JsQuotient :=
  if b = 0 then
    if 0 < a then .posInfinity else if a < 0 then .negInfinity else .nan
  else .finite (a / b)

/-- Source: `getDaysRemainingInMonth`, over the calendar fields of the wall clock. -/
def getDaysRemainingInMonth (currentDate : JsDate) : Int :=
  let lastDayOfMonth : Int := daysInMonth currentDate.year currentDate.month
  lastDayOfMonth - currentDate.day

/-- Source: `getDailySpendingRate`. -/
def getDailySpendingRate (transactions : List Transaction) (currentDate : JsDate) : ℚ :=
  let currentExpenses := getCurrentMonthExpenses transactions currentDate
  let dayOfMonth := currentDate.day
  if dayOfMonth > 0 then currentExpenses / dayOfMonth else 0

/-- Source: `predictMonthEndExpenses`. -/
def predictMonthEndExpenses (transactions : List Transaction) (currentDate : JsDate) : ℚ :=
  let dailyRate := getDailySpendingRate transactions currentDate
  let daysInMonth := daysInMonth currentDate.year currentDate.month
  dailyRate * daysInMonth

/-- The object returned by `getSpendingInsights`; `recommendedDailySpending` is `null`
(`none`) when no limit is stored. -/
structure SpendingInsights where
  dailySpendingRate : ℚ
  predictedMonthTotal : ℚ
  isOnTrack : Bool
  daysRemaining : Int
  recommendedDailySpending : Option JsQuotient
deriving DecidableEq, Repr

/-- Source: `getSpendingInsights`. -/
def getSpendingInsights (s : Storage) (transactions : List Transaction)
    (currentDate : JsDate) : SpendingInsights :=
  let limitStatus := getLimitStatus s transactions currentDate
  let dailyRate := getDailySpendingRate transactions currentDate
  let predictedTotal := predictMonthEndExpenses transactions currentDate
  { dailySpendingRate := dailyRate
    predictedMonthTotal := predictedTotal
    isOnTrack :=
      if limitStatus.hasLimit then
        match limitStatus.limitAmount with
        | some l => decide (predictedTotal ≤ l)
        | none => false
      else true
    daysRemaining := getDaysRemainingInMonth currentDate
    recommendedDailySpending :=
      if limitStatus.hasLimit then
        some (jsDivide limitStatus.remainingAmount (getDaysRemainingInMonth currentDate))
      else none }

/-! ## notificationService: transaction events and display -/

/-- Source: `notifyTransactionAdded`, up to its return.  The second component tells whether
`checkAndNotifyExpenseLimits ()` was started; that call is not awaited.  The built-in
`toLocaleString` is an argument, and `Math.abs` of a missing amount is `NaN`. -/
def notifyTransactionAdded (toLocaleString : ℚ → String) (svc : NotificationService)
    (transaction : Transaction) (id : String) (now : Nat) : NotificationService × Bool :=
  let isExpenseFlag := isExpense transaction
  let amount :=
    match transaction.amount with
    | some a => toLocaleString (mathAbs a)
    | none => "NaN"
  let svc1 :=
    (addNotification svc
      (if isExpenseFlag then "info" else "success")
      (if isExpenseFlag then "Expense Added" else "Income Added")
      (transaction.text.getD "undefined" ++ ": ₹" ++ amount)
      { autoClose := none, duration := some 2000, isLimitNotification := none
        priority := none }
      id now).2
  (svc1, isExpenseFlag)

/-- The state once the limit recheck started by `notifyTransactionAdded`, if any, has
completed without other events in between. -/
def notifyTransactionAddedSettled (toLocaleString : ℚ → String) (fmt : NumberFormat)
    (svc : NotificationService) (transaction : Transaction) (id : String) (now : Nat)
    (storage : Storage) (transactions : List Transaction) (currentDate : JsDate)
    (freshId : Nat → String) : NotificationService :=
  let started := notifyTransactionAdded toLocaleString svc transaction id now
  if started.2 then
    (checkAndNotifyExpenseLimits fmt started.1 storage transactions currentDate now
      freshId).2
  else started.1

/-- Source: the effect of `NotificationContainer` that computes the visible list,
`notifications.slice (-maxNotifications)`. -/
def visibleNotifications (notifications : List Notification) (maxNotifications : Nat) :
    List Notification :=
  jsSlice notifications (-(maxNotifications : Int))

/-- The list most recently delivered to the listener with reference `id`, read off the
invocation log; `none` when the listener was never invoked. -/
def lastDelivered (calls : List (Nat × List Notification)) (id : Nat) :
    Option (List Notification) :=
  ((calls.filter (fun call => call.1 == id)).getLast?).map Prod.snd

/-- The dispatcher invariant of the specification: the list most recently delivered to
every subscribed listener is the current `activeNotifications`. -/
def listenersUpToDate (svc : NotificationService) : Prop :=
  ∀ l ∈ svc.listeners, lastDelivered svc.calls l.id = some svc.activeNotifications

/-! ## IEEE 754 double arithmetic -/

/-- The integer nearest to `q`, a tie going to the even neighbour. -/
def roundHalfEven (q : ℚ) : ℤ :=
  if q - ⌊q⌋ < 1 / 2 then ⌊q⌋
  else if 1 / 2 < q - ⌊q⌋ then ⌊q⌋ + 1
  else if ⌊q⌋ % 2 = 0 then ⌊q⌋ else ⌊q⌋ + 1

/-- Exponent of the binade of `x` in the binary64 format: `⌊log₂ |x|⌋`, and -1022 for
the subnormal numbers below `2 ^ (-1022)`. -/
def doubleExponent (x : ℚ) : ℤ := max (Int.log 2 |x|) (-1022)

/-- The binary64 number nearest to `x`, a tie going to the even significand (the rounding
of every JavaScript arithmetic operation): `x` is rounded to a multiple of the spacing
`2 ^ (e - 52)` of its binade.  A result of magnitude `2 ^ 1024` or more, which is
`Infinity` in JavaScript, is outside the model. -/
def roundToDouble (x : ℚ) : ℚ :=
  roundHalfEven (x / 2 ^ (doubleExponent x - 52)) * 2 ^ (doubleExponent x - 52)

/-- The JavaScript sum `a + b` of two doubles. -/
def doubleAdd (a b : ℚ) : ℚ := roundToDouble (a + b)

/-- The JavaScript difference `a - b` of two doubles. -/
def doubleSub (a b : ℚ) : ℚ := roundToDouble (a - b)

/-- The JavaScript product `a * b` of two doubles. -/
def doubleMul (a b : ℚ) : ℚ := roundToDouble (a * b)

/-- The JavaScript quotient `a / b` of two doubles, for a divisor that is not 0. -/
def doubleDiv (a b : ℚ) : ℚ := roundToDouble (a / b)

/-! ## expenseLimitService: limit status in double arithmetic -/

/-- Source: `getCurrentMonthExpenses`, with the additions of the `reduce` call rounded
as the engine rounds them. -/
def getCurrentMonthExpensesDouble (transactions : List Transaction) (currentDate : JsDate) :
    ℚ :=
  let currentMonth := currentDate.month
  let currentYear := currentDate.year
  (transactions.filter (fun transaction =>
      match transaction.createdAt with
      | some transactionDate =>
        decide (transactionDate.month = currentMonth) &&
        decide (transactionDate.year = currentYear) &&
        isExpense transaction
      | none => false)).foldl
    (fun total transaction => doubleAdd total (absAmount transaction)) 0

/-- Source: `getLimitStatus`, with every arithmetic operation rounded as the engine
rounds it: `(currentExpenses / limit) * 100`, `Math.round (percentage * 100) / 100`,
`limit - currentExpenses` and `currentExpenses - limit`.  `Math.round`, `Math.max` and
the comparisons are exact on doubles. -/
def getLimitStatusDouble (s : Storage) (transactions : List Transaction)
    (currentDate : JsDate) : LimitStatus :=
  let limit := getExpenseLimit s
  let currentExpenses := getCurrentMonthExpensesDouble transactions currentDate
  match limit with
  | none =>
    { hasLimit := false, status := "no_limit", currentExpenses := currentExpenses,
      limitAmount := none, percentage := 0, remainingAmount := 0, exceededAmount := 0 }
  | some l =>
    if l = 0 then
      { hasLimit := false, status := "no_limit", currentExpenses := currentExpenses,
        limitAmount := none, percentage := 0, remainingAmount := 0, exceededAmount := 0 }
    else
      let percentage := doubleMul (doubleDiv currentExpenses l) 100
      let status :=
        if percentage ≥ 100 then "exceeded"
        else if percentage ≥ (getNotificationSettings s).warningThreshold then "warning"
        else "safe"
      { hasLimit := true
        status := status
        currentExpenses := currentExpenses
        limitAmount := some l
        percentage := doubleDiv (mathRound (doubleMul percentage 100) : ℚ) 100
        remainingAmount := mathMax 0 (doubleSub l currentExpenses)
        exceededAmount := mathMax 0 (doubleSub currentExpenses l) }

/-! ## transactionUtils: category colours -/

/-- The object `colorMap` of `transactionUtils.getCategoryColor` (source comment: get
category color for UI consistency), as its list of key and value pairs. -/
def colorMap : List (String × String) :=
  [("Food", "#ef4444"), ("Transport", "#3b82f6"), ("Entertainment", "#10b981"),
   ("Shopping", "#f59e0b"), ("Bills", "#8b5cf6"), ("Healthcare", "#ec4899"),
   ("Education", "#22c55e"), ("Other", "#6b7280")]

/-! ## Limit status: theorems -/

theorem jsSlice_neg_fifty {α : Type} (l : List α) :
    jsSlice l (-50) = l.drop (l.length - 50) := by
  simp [jsSlice]

theorem mathMax_eq_max (a b : ℚ) : mathMax a b = max a b := by
  unfold mathMax
  split_ifs with h
  · exact (max_eq_right h.le).symm
  · exact (max_eq_left (not_lt.mp h)).symm

theorem mathAbs_eq_abs (x : ℚ) : mathAbs x = |x| := by
  unfold mathAbs
  split_ifs with h
  · exact (abs_of_neg h).symm
  · exact (abs_of_nonneg (not_lt.mp h)).symm

theorem getLimitStatus_of_limit (s : Storage) (transactions : List Transaction)
    (currentDate : JsDate) (L : ℚ) (hs : getExpenseLimit s = some L) (hL : L ≠ 0) :
    getLimitStatus s transactions currentDate =
      { hasLimit := true
        status :=
          if getCurrentMonthExpenses transactions currentDate / L * 100 ≥ 100 then "exceeded"
          else if getCurrentMonthExpenses transactions currentDate / L * 100 ≥
              (getNotificationSettings s).warningThreshold then "warning"
          else "safe"
        currentExpenses := getCurrentMonthExpenses transactions currentDate
        limitAmount := some L
        percentage :=
          (mathRound (getCurrentMonthExpenses transactions currentDate / L * 100 * 100) : ℚ) / 100
        remainingAmount := mathMax 0 (L - getCurrentMonthExpenses transactions currentDate)
        exceededAmount := mathMax 0 (getCurrentMonthExpenses transactions currentDate - L) } := by
  unfold getLimitStatus
  rw [hs]
  simp [hL]

theorem getLimitStatus_of_no_limit (s : Storage) (transactions : List Transaction)
    (currentDate : JsDate) (hs : getExpenseLimit s = none) :
    getLimitStatus s transactions currentDate =
      { hasLimit := false, status := "no_limit"
        currentExpenses := getCurrentMonthExpenses transactions currentDate
        limitAmount := none, percentage := 0, remainingAmount := 0, exceededAmount := 0 } := by
  unfold getLimitStatus
  rw [hs]

/-- In exact arithmetic, with a stored limit `L > 0`, a current-month expense total `E ≥ 0`
and the default notification settings, the status is `exceeded` exactly when
`E / L * 100 ≥ 100`, `warning` exactly when `80 ≤ E / L * 100 < 100` and `safe` otherwise.
The engine compares the rounded double instead, see `getLimitStatusDouble`. -/
theorem getLimitStatus_status_thresholds_exact (s : Storage) (transactions : List Transaction)
    (currentDate : JsDate) (L E : ℚ) (hL : 0 < L) (hE : 0 ≤ E)
    (hs : getExpenseLimit s = some L)
    (hcur : getCurrentMonthExpenses transactions currentDate = E)
    (hset : getNotificationSettings s = DEFAULT_NOTIFICATION_SETTINGS) :
    ((getLimitStatus s transactions currentDate).status = "exceeded" ↔ E / L * 100 ≥ 100) ∧
    ((getLimitStatus s transactions currentDate).status = "warning" ↔
      (80 ≤ E / L * 100 ∧ E / L * 100 < 100)) ∧
    ((getLimitStatus s transactions currentDate).status = "safe" ↔
      ¬ (E / L * 100 ≥ 100) ∧ ¬ (80 ≤ E / L * 100 ∧ E / L * 100 < 100)) ∧
    (L = 1000 → E = 800 → (getLimitStatus s transactions currentDate).status = "warning") ∧
    (L = 1000 → E = 999 → (getLimitStatus s transactions currentDate).status = "warning") ∧
    (L = 1000 → E = 1000 → (getLimitStatus s transactions currentDate).status = "exceeded") ∧
    (L = 1000 → E = 79999 / 100 →
      (getLimitStatus s transactions currentDate).status = "safe") := by
  have _hE := hE
  rw [getLimitStatus_of_limit s transactions currentDate L hs hL.ne.symm, hcur, hset]
  have hthr : DEFAULT_NOTIFICATION_SETTINGS.warningThreshold = 80 := rfl
  simp only [hthr]
  refine ⟨?_, ?_, ?_, ?_, ?_, ?_, ?_⟩
  · by_cases h1 : E / L * 100 ≥ 100
    · simp [h1]
    · by_cases h2 : E / L * 100 ≥ 80 <;> simp [h1, h2]
  · by_cases h1 : E / L * 100 ≥ 100
    · have h3 : ¬ (E / L * 100 < 100) := not_lt.mpr h1
      simp [h1, h3]
    · by_cases h2 : E / L * 100 ≥ 80
      · have h3 : E / L * 100 < 100 := not_le.mp h1
        simp [h1, h2, h3]
      · simp [h1, h2]
  · by_cases h1 : E / L * 100 ≥ 100
    · simp [h1]
    · by_cases h2 : E / L * 100 ≥ 80
      · have h3 : E / L * 100 < 100 := not_le.mp h1
        simp [h1, h2, h3]
      · simp [h1, h2]
  · rintro rfl rfl; norm_num
  · rintro rfl rfl; norm_num
  · rintro rfl rfl; norm_num
  · rintro rfl rfl; norm_num

/-- C2, as stated, fails: with limit 1000 and a current-month total of exactly 1000 the
status has `hasLimit = true` while `remainingAmount` and `exceededAmount` are both 0. -/
theorem getLimitStatus_both_zero_at_limit :
    (getLimitStatus ⟨some 1000, none, none⟩
      [⟨some "Rent", some (-1000), some ⟨2026, 10, 4⟩⟩] ⟨2026, 10, 20⟩).hasLimit = true ∧
    (getLimitStatus ⟨some 1000, none, none⟩
      [⟨some "Rent", some (-1000), some ⟨2026, 10, 4⟩⟩] ⟨2026, 10, 20⟩).remainingAmount = 0 ∧
    (getLimitStatus ⟨some 1000, none, none⟩
      [⟨some "Rent", some (-1000), some ⟨2026, 10, 4⟩⟩] ⟨2026, 10, 20⟩).exceededAmount = 0 := by
  rw [getLimitStatus_of_limit ⟨some 1000, none, none⟩
    [⟨some "Rent", some (-1000), some ⟨2026, 10, 4⟩⟩] ⟨2026, 10, 20⟩ 1000 rfl (by norm_num)]
  simp [getCurrentMonthExpenses, isExpense, absAmount, mathAbs, mathMax]

/-- C2, amended: with a stored limit `L > 0` and a current-month total `E ≥ 0`, the status
has `hasLimit = true`, at least one of `remainingAmount` and `exceededAmount` is 0, neither
is negative, `remainingAmount` is nonzero exactly when `E < L` and `exceededAmount` is
nonzero exactly when `E > L`; so exactly one of them is nonzero when `E ≠ L` and both are 0
when `E = L`. -/
theorem getLimitStatus_remaining_exceeded (s : Storage) (transactions : List Transaction)
    (currentDate : JsDate) (L E : ℚ) (hL : 0 < L) (hE : 0 ≤ E)
    (hs : getExpenseLimit s = some L)
    (hcur : getCurrentMonthExpenses transactions currentDate = E) :
    (getLimitStatus s transactions currentDate).hasLimit = true ∧
    ((getLimitStatus s transactions currentDate).remainingAmount = 0 ∨
      (getLimitStatus s transactions currentDate).exceededAmount = 0) ∧
    0 ≤ (getLimitStatus s transactions currentDate).remainingAmount ∧
    0 ≤ (getLimitStatus s transactions currentDate).exceededAmount ∧
    ((getLimitStatus s transactions currentDate).remainingAmount ≠ 0 ↔ E < L) ∧
    ((getLimitStatus s transactions currentDate).exceededAmount ≠ 0 ↔ L < E) ∧
    (E = L → (getLimitStatus s transactions currentDate).remainingAmount = 0 ∧
      (getLimitStatus s transactions currentDate).exceededAmount = 0) := by
  have _hE := hE
  rw [getLimitStatus_of_limit s transactions currentDate L hs hL.ne.symm, hcur]
  simp only [mathMax_eq_max]
  refine ⟨trivial, ?_, le_max_left _ _, le_max_left _ _, ?_, ?_, ?_⟩
  · rcases le_total E L with h | h
    · right; exact max_eq_left (by linarith)
    · left; exact max_eq_left (by linarith)
  · constructor
    · intro h
      by_contra hlt
      exact h (max_eq_left (by linarith [not_lt.mp hlt]))
    · intro h hmax
      have : L - E ≤ 0 := hmax ▸ le_max_right 0 (L - E)
      linarith
  · constructor
    · intro h
      by_contra hlt
      exact h (max_eq_left (by linarith [not_lt.mp hlt]))
    · intro h hmax
      have : E - L ≤ 0 := hmax ▸ le_max_right 0 (E - L)
      linarith
  · rintro rfl
    simp

theorem getLimitStatus_remaining_exceeded_witness :
    (getLimitStatus ⟨some 1000, none, none⟩
      [⟨some "Rent", some (-800), some ⟨2026, 10, 4⟩⟩] ⟨2026, 10, 20⟩).remainingAmount = 0 ∨
    (getLimitStatus ⟨some 1000, none, none⟩
      [⟨some "Rent", some (-800), some ⟨2026, 10, 4⟩⟩] ⟨2026, 10, 20⟩).exceededAmount = 0 :=
  (getLimitStatus_remaining_exceeded ⟨some 1000, none, none⟩
    [⟨some "Rent", some (-800), some ⟨2026, 10, 4⟩⟩] ⟨2026, 10, 20⟩ 1000 800
    (by norm_num) (by norm_num) rfl
    (by simp [getCurrentMonthExpenses, isExpense, absAmount, mathAbs])).2.1

theorem mathRound_eq_floor (x : ℚ) : mathRound x = ⌊x + 1 / 2⌋ := rfl

theorem mathRound_close (x : ℚ) : |(mathRound x : ℚ) - x| ≤ 1 / 2 := by
  rw [mathRound_eq_floor, abs_le]
  have h1 := Int.floor_le (x + 1 / 2)
  have h2 := Int.lt_floor_add_one (x + 1 / 2)
  constructor <;> linarith

/-- C4: with a stored limit `L > 0` and a current-month total `E ≥ 0`, `getLimitStatus`
returns `currentExpenses = E`, `limitAmount = L`, `remainingAmount = max 0 (L - E)` and
`exceededAmount = max 0 (E - L)`, so `remainingAmount - exceededAmount = L - E`; with limit
5000 and current-month expenses of 3000 and 2200 it returns `currentExpenses = 5200`,
`percentage = 104`, status `exceeded` and `exceededAmount = 200`. -/
theorem getLimitStatus_amounts (s : Storage) (currentDate : JsDate) :
    (∀ (transactions : List Transaction) (L E : ℚ), 0 < L → 0 ≤ E →
      getExpenseLimit s = some L →
      getCurrentMonthExpenses transactions currentDate = E →
      (getLimitStatus s transactions currentDate).currentExpenses = E ∧
      (getLimitStatus s transactions currentDate).limitAmount = some L ∧
      (getLimitStatus s transactions currentDate).remainingAmount = max 0 (L - E) ∧
      (getLimitStatus s transactions currentDate).exceededAmount = max 0 (E - L) ∧
      (getLimitStatus s transactions currentDate).remainingAmount -
        (getLimitStatus s transactions currentDate).exceededAmount = L - E) ∧
    (∀ day1 day2 : Nat, getExpenseLimit s = some 5000 →
      (getLimitStatus s
        [⟨some "Grocery shopping", some (-3000),
            some ⟨currentDate.year, currentDate.month, day1⟩⟩,
         ⟨some "Electricity bill", some (-2200),
            some ⟨currentDate.year, currentDate.month, day2⟩⟩]
        currentDate).currentExpenses = 5200 ∧
      (getLimitStatus s
        [⟨some "Grocery shopping", some (-3000),
            some ⟨currentDate.year, currentDate.month, day1⟩⟩,
         ⟨some "Electricity bill", some (-2200),
            some ⟨currentDate.year, currentDate.month, day2⟩⟩]
        currentDate).percentage = 104 ∧
      (getLimitStatus s
        [⟨some "Grocery shopping", some (-3000),
            some ⟨currentDate.year, currentDate.month, day1⟩⟩,
         ⟨some "Electricity bill", some (-2200),
            some ⟨currentDate.year, currentDate.month, day2⟩⟩]
        currentDate).status = "exceeded" ∧
      (getLimitStatus s
        [⟨some "Grocery shopping", some (-3000),
            some ⟨currentDate.year, currentDate.month, day1⟩⟩,
         ⟨some "Electricity bill", some (-2200),
            some ⟨currentDate.year, currentDate.month, day2⟩⟩]
        currentDate).exceededAmount = 200) := by
  constructor
  · intro transactions L E hL _ hs hcur
    rw [getLimitStatus_of_limit s transactions currentDate L hs hL.ne.symm, hcur]
    simp only [mathMax_eq_max]
    refine ⟨trivial, trivial, trivial, trivial, ?_⟩
    rcases le_total E L with h | h
    · rw [max_eq_right (by linarith : (0 : ℚ) ≤ L - E), max_eq_left (by linarith : E - L ≤ 0)]
      ring
    · rw [max_eq_left (by linarith : L - E ≤ 0), max_eq_right (by linarith : (0 : ℚ) ≤ E - L)]
      ring
  · intro day1 day2 hs
    have hcur : getCurrentMonthExpenses
        [⟨some "Grocery shopping", some (-3000),
            some ⟨currentDate.year, currentDate.month, day1⟩⟩,
         ⟨some "Electricity bill", some (-2200),
            some ⟨currentDate.year, currentDate.month, day2⟩⟩] currentDate = 5200 := by
      simp [getCurrentMonthExpenses, isExpense, absAmount, mathAbs]
      norm_num
    have hr : mathRound ((5200 : ℚ) / 5000 * 100 * 100) = 10400 := by
      rw [mathRound_eq_floor, Int.floor_eq_iff]
      norm_num
    rw [getLimitStatus_of_limit s _ currentDate 5000 hs (by norm_num), hcur]
    simp only [hr]
    simp only [mathMax]
    norm_num

theorem getLimitStatus_amounts_witness :
    (getLimitStatus ⟨some 5000, none, none⟩
      [⟨some "Grocery shopping", some (-3000), some ⟨2026, 10, 2⟩⟩,
       ⟨some "Electricity bill", some (-2200), some ⟨2026, 10, 9⟩⟩]
      ⟨2026, 10, 20⟩).exceededAmount = 200 ∧
    (getLimitStatus ⟨some 1000, none, none⟩
      [⟨some "Rent", some (-800), some ⟨2026, 10, 4⟩⟩] ⟨2026, 10, 20⟩).remainingAmount
        = max 0 (1000 - 800) :=
  ⟨((getLimitStatus_amounts ⟨some 5000, none, none⟩ ⟨2026, 10, 20⟩).2 2 9 rfl).2.2.2,
   ((getLimitStatus_amounts ⟨some 1000, none, none⟩ ⟨2026, 10, 20⟩).1
      [⟨some "Rent", some (-800), some ⟨2026, 10, 4⟩⟩] 1000 800
      (by norm_num) (by norm_num) rfl
      (by simp [getCurrentMonthExpenses, isExpense, absAmount, mathAbs])).2.2.1⟩

/-- C5: whenever no limit is stored, and in particular in the state left by
`removeExpenseLimit` applied to any prior state, `getLimitStatus` returns `hasLimit = false`,
status `no_limit`, `percentage = 0`, `remainingAmount = 0`, `exceededAmount = 0` and
`currentExpenses` equal to the current-month expense total, which is 0 for the empty
transaction list. -/
theorem getLimitStatus_no_limit (s : Storage) (transactions : List Transaction)
    (currentDate : JsDate) (now : Nat) :
    (getExpenseLimit s = none →
      getLimitStatus s transactions currentDate =
        { hasLimit := false, status := "no_limit"
          currentExpenses := getCurrentMonthExpenses transactions currentDate
          limitAmount := none, percentage := 0, remainingAmount := 0, exceededAmount := 0 }) ∧
    getLimitStatus (removeExpenseLimit s now).2 transactions currentDate =
      { hasLimit := false, status := "no_limit"
        currentExpenses := getCurrentMonthExpenses transactions currentDate
        limitAmount := none, percentage := 0, remainingAmount := 0, exceededAmount := 0 } ∧
    getCurrentMonthExpenses [] currentDate = 0 ∧
    (getLimitStatus (removeExpenseLimit s now).2 [] currentDate).currentExpenses = 0 := by
  have hrem : getExpenseLimit (removeExpenseLimit s now).2 = none := rfl
  refine ⟨getLimitStatus_of_no_limit s transactions currentDate, ?_, rfl, ?_⟩
  · exact getLimitStatus_of_no_limit _ transactions currentDate hrem
  · rw [getLimitStatus_of_no_limit _ [] currentDate hrem]
    rfl

theorem getLimitStatus_no_limit_witness :
    getLimitStatus ⟨none, none, none⟩ [] ⟨2026, 10, 20⟩ =
      { hasLimit := false, status := "no_limit"
        currentExpenses := getCurrentMonthExpenses [] ⟨2026, 10, 20⟩
        limitAmount := none, percentage := 0, remainingAmount := 0, exceededAmount := 0 } :=
  (getLimitStatus_no_limit ⟨none, none, none⟩ [] ⟨2026, 10, 20⟩ 0).1 rfl

/-! ## Setting and removing the limit: theorems -/

theorem jsSlice_append_singleton {α : Type} (l : List α) (e : α) :
    jsSlice (l ++ [e]) (-50) = l.drop (l.length - 49) ++ [e] := by
  rw [jsSlice_neg_fifty, List.length_append, List.length_singleton]
  have h : l.length + 1 - 50 = l.length - 49 := by omega
  rw [h, List.drop_append_of_le_length (Nat.sub_le _ _)]

theorem getLimitHistory_saveLimitToHistory (s : Storage) (limitData : LimitData) (now : Nat) :
    getLimitHistory (saveLimitToHistory s limitData now) =
      (getLimitHistory s).drop ((getLimitHistory s).length - 49) ++
        [{ amount := limitData.amount, currency := limitData.currency
           action := limitData.action, setDate := limitData.setDate
           updatedAt := limitData.updatedAt, id := now, timestamp := now }] := by
  simp only [saveLimitToHistory, getLimitHistory, jsSlice_append_singleton]

theorem setExpenseLimit_of_pos (s : Storage) (a : ℚ) (now : Nat) (ha : 0 < a) :
    setExpenseLimit s (some a) now =
      (.ok { amount := a, currency := "INR", action := none, setDate := now, updatedAt := now },
       saveLimitToHistory { s with monthlyExpenseLimit := some a }
         { amount := a, currency := "INR", action := none, setDate := now, updatedAt := now }
         now) := by
  have h : ¬ (a = 0 ∨ a ≤ 0) := by
    rintro (h | h) <;> linarith
  simp only [setExpenseLimit, h, if_false]

theorem setExpenseLimit_of_nonpos (s : Storage) (a : ℚ) (now : Nat) (ha : a ≤ 0) :
    setExpenseLimit s (some a) now =
      (.error "Failed to set expense limit: Please enter a valid limit amount greater than 0",
       s) := by
  have h : a = 0 ∨ a ≤ 0 := Or.inr ha
  simp only [setExpenseLimit, h, if_true]

/-- C6: `setExpenseLimit` fails exactly when the amount is `NaN` or at most 0; when it
fails the storage (stored limit and limit history) is unchanged, and when the amount is
positive it succeeds and a following `getExpenseLimit` returns exactly that amount. -/
theorem setExpenseLimit_validation (s : Storage) (amount : Option ℚ) (now : Nat) :
    ((∃ msg, (setExpenseLimit s amount now).1 = .error msg) ↔
      (amount = none ∨ ∃ a, amount = some a ∧ a ≤ 0)) ∧
    ((∃ msg, (setExpenseLimit s amount now).1 = .error msg) →
      (setExpenseLimit s amount now).2 = s ∧
      getExpenseLimit (setExpenseLimit s amount now).2 = getExpenseLimit s ∧
      getLimitHistory (setExpenseLimit s amount now).2 = getLimitHistory s) ∧
    (∀ a, amount = some a → 0 < a →
      (∃ limitData, (setExpenseLimit s amount now).1 = .ok limitData) ∧
      getExpenseLimit (setExpenseLimit s amount now).2 = some a) := by
  cases amount with
  | none =>
    refine ⟨⟨fun _ => Or.inl rfl, fun _ => ⟨_, rfl⟩⟩, fun _ => ⟨rfl, rfl, rfl⟩, ?_⟩
    intro a h
    cases h
  | some a =>
    rcases le_or_lt a 0 with ha | ha
    · rw [setExpenseLimit_of_nonpos s a now ha]
      refine ⟨⟨fun _ => Or.inr ⟨a, rfl, ha⟩, fun _ => ⟨_, rfl⟩⟩, fun _ => ⟨rfl, rfl, rfl⟩, ?_⟩
      intro b hb hpos
      cases hb
      linarith
    · rw [setExpenseLimit_of_pos s a now ha]
      refine ⟨⟨?_, ?_⟩, ?_, ?_⟩
      · rintro ⟨msg, hmsg⟩
        cases hmsg
      · rintro (h | ⟨b, hb, hle⟩)
        · cases h
        · cases hb
          linarith
      · rintro ⟨msg, hmsg⟩
        cases hmsg
      · intro b hb _
        cases hb
        exact ⟨⟨_, rfl⟩, rfl⟩

theorem setExpenseLimit_validation_witness :
    getExpenseLimit (setExpenseLimit ⟨none, none, none⟩ (some 2500) 7).2 = some 2500 ∧
    (setExpenseLimit ⟨some 40, none, none⟩ (some (-3)) 7).2 = ⟨some 40, none, none⟩ :=
  ⟨((setExpenseLimit_validation ⟨none, none, none⟩ (some 2500) 7).2.2 2500 rfl
      (by norm_num)).2,
   ((setExpenseLimit_validation ⟨some 40, none, none⟩ (some (-3)) 7).2.1
      ((setExpenseLimit_validation ⟨some 40, none, none⟩ (some (-3)) 7).1.2
        (Or.inr ⟨-3, rfl, by norm_num⟩))).1⟩

theorem getLimitHistory_removeExpenseLimit (s : Storage) (now : Nat) :
    getLimitHistory (removeExpenseLimit s now).2 =
      (getLimitHistory s).drop ((getLimitHistory s).length - 49) ++
        [{ amount := 0, currency := "INR", action := some "removed", setDate := now
           updatedAt := now, id := now, timestamp := now }] := by
  simp only [removeExpenseLimit, saveLimitToHistory, getLimitHistory, jsSlice_append_singleton]

theorem getLimitHistory_setExpenseLimit (s : Storage) (a : ℚ) (now : Nat) (ha : 0 < a) :
    getLimitHistory (setExpenseLimit s (some a) now).2 =
      (getLimitHistory s).drop ((getLimitHistory s).length - 49) ++
        [{ amount := a, currency := "INR", action := none, setDate := now
           updatedAt := now, id := now, timestamp := now }] := by
  rw [setExpenseLimit_of_pos s a now ha]
  simp only [saveLimitToHistory, getLimitHistory, jsSlice_append_singleton]

/-- C7, as stated, fails: starting from the empty storage, where no limit is stored,
`removeExpenseLimit` changes the persisted state (the history gains an entry), and applying
it twice gives a state different from applying it once. -/
theorem removeExpenseLimit_changes_history :
    (removeExpenseLimit ⟨none, none, none⟩ 0).2 ≠ ⟨none, none, none⟩ ∧
    (removeExpenseLimit (removeExpenseLimit ⟨none, none, none⟩ 0).2 0).2 ≠
      (removeExpenseLimit ⟨none, none, none⟩ 0).2 := by
  constructor
  · intro h
    have h2 := congrArg (fun t => (getLimitHistory t).length) h
    simp only [getLimitHistory_removeExpenseLimit] at h2
    simp [getLimitHistory] at h2
  · intro h
    have h2 := congrArg (fun t => (getLimitHistory t).length) h
    simp only [getLimitHistory_removeExpenseLimit] at h2
    simp [getLimitHistory] at h2

/-- C7, amended: in every persisted state in which no limit is stored, `removeExpenseLimit`
succeeds, leaves the stored limit absent and the notification settings unchanged, so on the
stored limit applying it twice gives the same as applying it once; it is not a no-op on the
limit history, to which it appends a `removed` entry with amount 0 as the last element,
keeping the most recent 50 entries. -/
theorem removeExpenseLimit_no_limit (s : Storage) (now now2 : Nat)
    (hs : getExpenseLimit s = none) :
    (removeExpenseLimit s now).1.1 = true ∧
    getExpenseLimit (removeExpenseLimit s now).2 = getExpenseLimit s ∧
    (removeExpenseLimit s now).2.limitNotificationSettings = s.limitNotificationSettings ∧
    getExpenseLimit (removeExpenseLimit (removeExpenseLimit s now).2 now2).2 =
      getExpenseLimit (removeExpenseLimit s now).2 ∧
    getLimitHistory (removeExpenseLimit s now).2 =
      jsSlice (getLimitHistory s ++
        [{ amount := 0, currency := "INR", action := some "removed", setDate := now
           updatedAt := now, id := now, timestamp := now }]) (-50) ∧
    (getLimitHistory (removeExpenseLimit s now).2).getLast? =
      some { amount := 0, currency := "INR", action := some "removed", setDate := now
             updatedAt := now, id := now, timestamp := now } := by
  refine ⟨rfl, ?_, rfl, rfl, ?_, ?_⟩
  · rw [hs]; rfl
  · simp only [removeExpenseLimit, saveLimitToHistory, getLimitHistory]
  · simp [getLimitHistory_removeExpenseLimit]

theorem removeExpenseLimit_no_limit_witness :
    (getLimitHistory (removeExpenseLimit ⟨none, none, none⟩ 5).2).getLast? =
      some { amount := 0, currency := "INR", action := some "removed", setDate := 5
             updatedAt := 5, id := 5, timestamp := 5 } :=
  (removeExpenseLimit_no_limit ⟨none, none, none⟩ 5 6 rfl).2.2.2.2.2

theorem history_after_push {α : Type} (H : List α) (e : α) (H1 : List α)
    (h : H1 = H.drop (H.length - 49) ++ [e]) :
    H1 = (H ++ [e]).drop ((H ++ [e]).length - min 50 (H.length + 1)) ∧
    H1.length = min 50 (H.length + 1) ∧
    H1.length ≤ 50 ∧
    H1.getLast? = some e ∧
    H1 = H.drop (H.length - 49) ++ [e] ∧
    H1 <:+ H ++ [e] := by
  subst h
  refine ⟨?_, ?_, ?_, ?_, rfl, ?_⟩
  · rw [List.length_append, List.length_singleton]
    have h1 : H.length + 1 - min 50 (H.length + 1) = H.length - 49 := by omega
    rw [h1, List.drop_append_of_le_length (Nat.sub_le _ _)]
  · simp only [List.length_append, List.length_drop, List.length_singleton]
    omega
  · simp only [List.length_append, List.length_drop, List.length_singleton]
    omega
  · simp
  · exact ⟨H.take (H.length - 49), by rw [← List.append_assoc, List.take_append_drop]⟩

/-- C8: for every stored history `H`, after a successful `setExpenseLimit` and after
`removeExpenseLimit` the stored history is the last `min 50 (|H| + 1)` entries of `H`
followed by the new entry, in the original order: its length is `min 50 (|H| + 1)`, never
more than 50, the new entry is its last element, and it is a suffix of `H` followed by the
new entry, so only the oldest entries are evicted. -/
theorem limit_history_capped (s : Storage) (now : Nat) :
    (∀ a : ℚ, 0 < a →
      getLimitHistory (setExpenseLimit s (some a) now).2 =
        (getLimitHistory s ++
          [({ amount := a, currency := "INR", action := none, setDate := now
              updatedAt := now, id := now, timestamp := now } : HistoryEntry)]).drop
          ((getLimitHistory s ++
            [({ amount := a, currency := "INR", action := none, setDate := now
                updatedAt := now, id := now, timestamp := now } : HistoryEntry)]).length -
            min 50 ((getLimitHistory s).length + 1)) ∧
      (getLimitHistory (setExpenseLimit s (some a) now).2).length =
        min 50 ((getLimitHistory s).length + 1) ∧
      (getLimitHistory (setExpenseLimit s (some a) now).2).length ≤ 50 ∧
      (getLimitHistory (setExpenseLimit s (some a) now).2).getLast? =
        some { amount := a, currency := "INR", action := none, setDate := now
               updatedAt := now, id := now, timestamp := now } ∧
      getLimitHistory (setExpenseLimit s (some a) now).2 =
        (getLimitHistory s).drop ((getLimitHistory s).length - 49) ++
          [{ amount := a, currency := "INR", action := none, setDate := now
             updatedAt := now, id := now, timestamp := now }] ∧
      getLimitHistory (setExpenseLimit s (some a) now).2 <:+
        getLimitHistory s ++
          [{ amount := a, currency := "INR", action := none, setDate := now
             updatedAt := now, id := now, timestamp := now }]) ∧
    (getLimitHistory (removeExpenseLimit s now).2 =
        (getLimitHistory s ++
          [({ amount := 0, currency := "INR", action := some "removed", setDate := now
              updatedAt := now, id := now, timestamp := now } : HistoryEntry)]).drop
          ((getLimitHistory s ++
            [({ amount := 0, currency := "INR", action := some "removed", setDate := now
                updatedAt := now, id := now, timestamp := now } : HistoryEntry)]).length -
            min 50 ((getLimitHistory s).length + 1)) ∧
      (getLimitHistory (removeExpenseLimit s now).2).length =
        min 50 ((getLimitHistory s).length + 1) ∧
      (getLimitHistory (removeExpenseLimit s now).2).length ≤ 50 ∧
      (getLimitHistory (removeExpenseLimit s now).2).getLast? =
        some { amount := 0, currency := "INR", action := some "removed", setDate := now
               updatedAt := now, id := now, timestamp := now } ∧
      getLimitHistory (removeExpenseLimit s now).2 =
        (getLimitHistory s).drop ((getLimitHistory s).length - 49) ++
          [{ amount := 0, currency := "INR", action := some "removed", setDate := now
             updatedAt := now, id := now, timestamp := now }] ∧
      getLimitHistory (removeExpenseLimit s now).2 <:+
        getLimitHistory s ++
          [{ amount := 0, currency := "INR", action := some "removed", setDate := now
             updatedAt := now, id := now, timestamp := now }]) := by
  constructor
  · intro a ha
    exact history_after_push _ _ _ (getLimitHistory_setExpenseLimit s a now ha)
  · exact history_after_push _ _ _ (getLimitHistory_removeExpenseLimit s now)

theorem limit_history_capped_witness :
    (getLimitHistory (setExpenseLimit ⟨none, none, none⟩ (some 2500) 7).2).length =
      min 50 ((getLimitHistory ⟨none, none, none⟩).length + 1) :=
  ((limit_history_capped ⟨none, none, none⟩ 7).1 2500 (by norm_num)).2.1

/-! ## Categoriser: theorems -/

theorem categoryKeywords_names :
    categoryKeywords.map Prod.fst =
      ["Food", "Transport", "Entertainment", "Shopping", "Bills", "Healthcare", "Education"] :=
  rfl

theorem entry_matches_iff (text : String) (entry : String × List String) :
    entry.2.any (fun keyword => jsIncludes text keyword) = true ↔
      ∃ keyword ∈ entry.2, keyword.data <:+: text.data := by
  simp [List.any_eq_true, jsIncludes]

theorem find_empty_text :
    categoryKeywords.find? (fun entry => entry.2.any (fun keyword => jsIncludes "" keyword))
      = none := by
  decide

theorem find_grocery_shopping :
    (categoryKeywords.find?
      (fun entry => entry.2.any (fun keyword => jsIncludes "grocery shopping" keyword))).map
        Prod.fst = some "Food" := by
  decide

/-- C9: on a record that has a text, `categorizeTransaction` never fails and returns one of
Food, Transport, Entertainment, Shopping, Bills, Healthcare, Education, Other: the first
category in table order one of whose keywords is a substring of the lower-cased text, and
`Other` exactly when no keyword of any category is a substring; the empty text gives `Other`
and a text matching keywords of several categories gives the earliest one. -/
theorem categorizeTransaction_first_match (toLowerCase : String → String)
    (transaction : Transaction) (raw : String) (ht : transaction.text = some raw) :
    ∃ category, categorizeTransaction toLowerCase transaction = .ok category ∧
      category ∈ ["Food", "Transport", "Entertainment", "Shopping", "Bills", "Healthcare",
        "Education", "Other"] ∧
      (category = "Other" ↔
        ∀ entry ∈ categoryKeywords, ∀ keyword ∈ entry.2,
          ¬ keyword.data <:+: (toLowerCase raw).data) ∧
      (category ≠ "Other" →
        ∃ before keywords after,
          categoryKeywords = before ++ (category, keywords) :: after ∧
          (∃ keyword ∈ keywords, keyword.data <:+: (toLowerCase raw).data) ∧
          ∀ entry ∈ before, ∀ keyword ∈ entry.2,
            ¬ keyword.data <:+: (toLowerCase raw).data) ∧
      (toLowerCase raw = "" → category = "Other") ∧
      (toLowerCase raw = "grocery shopping" → category = "Food") := by
  unfold categorizeTransaction
  rw [ht]
  simp only
  cases hfind : categoryKeywords.find?
      (fun entry => entry.2.any (fun keyword => jsIncludes (toLowerCase raw) keyword)) with
  | none =>
    have hnone := List.find?_eq_none.mp hfind
    have hno : ∀ entry ∈ categoryKeywords, ∀ keyword ∈ entry.2,
        ¬ keyword.data <:+: (toLowerCase raw).data := by
      intro entry hmem keyword hkw hinf
      exact hnone entry hmem ((entry_matches_iff _ entry).mpr ⟨keyword, hkw, hinf⟩)
    refine ⟨"Other", rfl, by decide, ⟨fun _ => hno, fun _ => rfl⟩, fun h => absurd rfl h,
      fun _ => rfl, ?_⟩
    · intro h
      rw [h] at hfind
      have h2 := find_grocery_shopping
      rw [hfind] at h2
      cases h2
  | some entry =>
    have hmem : entry ∈ categoryKeywords := List.mem_of_find?_eq_some hfind
    have hname : entry.1 ∈ ["Food", "Transport", "Entertainment", "Shopping", "Bills",
        "Healthcare", "Education"] := by
      rw [← categoryKeywords_names]
      exact List.mem_map_of_mem Prod.fst hmem
    have hother : entry.1 ≠ "Other" := by
      intro h
      rw [h] at hname
      exact absurd hname (by decide)
    obtain ⟨hp, before, after, hsplit, hbefore⟩ := List.find?_eq_some.mp hfind
    have hfirst : ∀ e ∈ before, ∀ keyword ∈ e.2,
        ¬ keyword.data <:+: (toLowerCase raw).data := by
      intro e he keyword hkw hinf
      have h1 := hbefore e he
      rw [(entry_matches_iff _ e).mpr ⟨keyword, hkw, hinf⟩] at h1
      cases h1
    refine ⟨entry.1, rfl, ?_, ⟨fun h => absurd h hother, ?_⟩, ?_, ?_, ?_⟩
    · simp only [List.mem_cons] at hname ⊢
      tauto
    · intro hno
      obtain ⟨keyword, hkw, hinf⟩ := (entry_matches_iff _ entry).mp hp
      exact absurd hinf (hno entry hmem keyword hkw)
    · intro _
      exact ⟨before, entry.2, after, hsplit, (entry_matches_iff _ entry).mp hp, hfirst⟩
    · intro h
      rw [h, find_empty_text] at hfind
      cases hfind
    · intro h
      rw [h] at hfind
      have h2 := find_grocery_shopping
      rw [hfind] at h2
      exact Option.some.inj h2

theorem categorizeTransaction_first_match_witness :
    ∃ category,
      categorizeTransaction (fun text => text)
        ⟨some "grocery shopping", some (-3000), none⟩ = .ok category ∧
      category = "Food" :=
  (categorizeTransaction_first_match (fun text => text)
      ⟨some "grocery shopping", some (-3000), none⟩ "grocery shopping" rfl).imp
    (fun _ h => ⟨h.1, h.2.2.2.2.2 rfl⟩)

/-! ## Monthly totals: theorems -/

theorem monthly_fold (year : Int) (l : List Transaction) :
    ∀ acc : List ℚ, acc.length = 12 →
      (l.foldl
        (fun monthlyTotals transaction =>
          match transaction.createdAt with
          | some date =>
            if date.year = year then
              let month := date.month.val
              monthlyTotals.set month (monthlyTotals.getD month 0 + absAmount transaction)
            else monthlyTotals
          | none => monthlyTotals) acc).length = 12 ∧
      ∀ m, m < 12 →
        (l.foldl
          (fun monthlyTotals transaction =>
            match transaction.createdAt with
            | some date =>
              if date.year = year then
                let month := date.month.val
                monthlyTotals.set month (monthlyTotals.getD month 0 + absAmount transaction)
              else monthlyTotals
            | none => monthlyTotals) acc)[m]? =
        some (acc.getD m 0 +
          (l.map (fun t =>
            match t.createdAt with
            | some d => if d.year = year ∧ d.month.val = m then absAmount t else 0
            | none => 0)).sum) := by
  induction l with
  | nil =>
    intro acc hacc
    refine ⟨hacc, ?_⟩
    intro m hm
    have hlt : m < acc.length := by omega
    simp [List.getD_eq_getElem?_getD, List.getElem?_eq_getElem hlt]
  | cons t rest ih =>
    intro acc hacc
    rw [List.foldl_cons]
    cases hdate : t.createdAt with
    | none =>
      obtain ⟨hlen, hget⟩ := ih acc hacc
      refine ⟨hlen, ?_⟩
      intro m hm
      rw [hget m hm]
      simp [hdate]
    | some d =>
      by_cases hy : d.year = year
      · simp only [hy, if_true]
        have hacc2 : (acc.set d.month.val
            (acc.getD d.month.val 0 + absAmount t)).length = 12 := by
          rw [List.length_set]; exact hacc
        obtain ⟨hlen, hget⟩ := ih _ hacc2
        refine ⟨hlen, ?_⟩
        intro m hm
        rw [hget m hm]
        have hlt : m < acc.length := by omega
        have hdm : d.month.val < acc.length := by have := d.month.isLt; omega
        by_cases hmm : d.month.val = m
        · subst hmm
          simp [List.getD_eq_getElem?_getD, List.getElem?_set, hdm, hdate, hy]
          ring
        · simp [List.getD_eq_getElem?_getD, List.getElem?_set, hmm, hdate]
      · simp only [hy, if_false]
        obtain ⟨hlen, hget⟩ := ih acc hacc
        refine ⟨hlen, ?_⟩
        intro m hm
        rw [hget m hm]
        simp [hdate, hy]

theorem sum_filter_isExpense (year : Int) (m : Nat) (l : List Transaction) :
    ((l.filter isExpense).map (fun t =>
      match t.createdAt with
      | some d => if d.year = year ∧ d.month.val = m then absAmount t else 0
      | none => 0)).sum = (l.map (monthContribution year m)).sum := by
  induction l with
  | nil => rfl
  | cons t rest ih =>
    rw [List.filter_cons, List.map_cons, List.sum_cons, ← ih]
    cases ha : t.amount with
    | none =>
      simp [isExpense, monthContribution, ha]
    | some a =>
      cases hd : t.createdAt with
      | none =>
        by_cases hneg : a < 0 <;> simp [isExpense, monthContribution, ha, hd, hneg]
      | some d =>
        by_cases hneg : a < 0
        · simp [isExpense, monthContribution, ha, hd, hneg, absAmount, mathAbs_eq_abs]
        · simp [isExpense, monthContribution, ha, hd, hneg]

theorem calculateMonthlyData_getElem (transactions : List Transaction) (year : Int) :
    (calculateMonthlyData transactions year).length = 12 ∧
    ∀ m, m < 12 →
      (calculateMonthlyData transactions year)[m]? =
        some ((transactions.map (monthContribution year m)).sum) := by
  have h := monthly_fold year (transactions.filter isExpense) (List.replicate 12 0)
    (List.length_replicate 12 0)
  refine ⟨h.1, ?_⟩
  intro m hm
  have h2 := h.2 m hm
  rw [sum_filter_isExpense] at h2
  have hz : (List.replicate 12 (0 : ℚ)).getD m 0 = 0 := by
    rw [List.getD_eq_getElem?_getD, List.getElem?_replicate]
    simp only [hm, if_true, Option.getD_some]
  rw [hz, zero_add] at h2
  exact h2

theorem monthContribution_eq_zero_of_income_or_other_year (year : Int) (m : Nat)
    (t : Transaction)
    (h : (∀ a, t.amount = some a → 0 ≤ a) ∨ (∀ d, t.createdAt = some d → d.year ≠ year)) :
    monthContribution year m t = 0 := by
  unfold monthContribution
  cases ha : t.amount with
  | none => rfl
  | some a =>
    cases hd : t.createdAt with
    | none => rfl
    | some d =>
      rcases h with h | h
      · have := h a ha
        simp [not_lt.mpr this]
      · have := h d hd
        simp [this]

/-- C10: for every transaction list and every year, `calculateMonthlyData` returns exactly
12 entries, and entry `m` (0..11) is the sum of `|amount|` over the transactions with
`amount < 0` whose `createdAt` lies in month `m` of that year; a month with no such
transaction has entry 0, and an income transaction or a transaction of another year can be
dropped from the list without changing the result. -/
theorem calculateMonthlyData_spec (transactions : List Transaction) (year : Int) :
    (calculateMonthlyData transactions year).length = 12 ∧
    (∀ m, m < 12 →
      (calculateMonthlyData transactions year)[m]? =
        some ((transactions.map (monthContribution year m)).sum)) ∧
    (∀ m, m < 12 →
      (∀ t ∈ transactions, ∀ a d, t.amount = some a → t.createdAt = some d →
        a < 0 → d.year = year → d.month.val ≠ m) →
      (calculateMonthlyData transactions year)[m]? = some 0) ∧
    (∀ before t after, transactions = before ++ t :: after →
      ((∀ a, t.amount = some a → 0 ≤ a) ∨ (∀ d, t.createdAt = some d → d.year ≠ year)) →
      calculateMonthlyData transactions year = calculateMonthlyData (before ++ after) year) := by
  refine ⟨(calculateMonthlyData_getElem transactions year).1,
    (calculateMonthlyData_getElem transactions year).2, ?_, ?_⟩
  · intro m hm hno
    rw [(calculateMonthlyData_getElem transactions year).2 m hm]
    congr 1
    apply List.sum_eq_zero
    intro x hx
    obtain ⟨t, ht, rfl⟩ := List.mem_map.mp hx
    unfold monthContribution
    cases ha : t.amount with
    | none => rfl
    | some a =>
      cases hd : t.createdAt with
      | none => rfl
      | some d =>
        by_cases hcond : a < 0 ∧ d.year = year ∧ d.month.val = m
        · exact absurd hcond.2.2 (hno t ht a d ha hd hcond.1 hcond.2.1)
        · simp only [hcond, if_false]
  · intro before t after hsplit hskip
    apply List.ext_getElem?
    intro n
    by_cases hn : n < 12
    · rw [(calculateMonthlyData_getElem transactions year).2 n hn,
        (calculateMonthlyData_getElem (before ++ after) year).2 n hn, hsplit]
      simp [monthContribution_eq_zero_of_income_or_other_year year n t hskip]
    · have h1 : (calculateMonthlyData transactions year).length ≤ n := by
        rw [(calculateMonthlyData_getElem transactions year).1]; omega
      have h2 : (calculateMonthlyData (before ++ after) year).length ≤ n := by
        rw [(calculateMonthlyData_getElem (before ++ after) year).1]; omega
      rw [List.getElem?_eq_none h1, List.getElem?_eq_none h2]

theorem calculateMonthlyData_spec_witness :
    (calculateMonthlyData
      [⟨some "Salary credited", some 50000, some ⟨2026, 9, 1⟩⟩,
       ⟨some "Grocery shopping", some (-3200), some ⟨2026, 9, 3⟩⟩,
       ⟨some "Electricity bill", some (-1500), some ⟨2025, 9, 5⟩⟩] 2026)[3]? = some 0 :=
  (calculateMonthlyData_spec
      [⟨some "Salary credited", some 50000, some ⟨2026, 9, 1⟩⟩,
       ⟨some "Grocery shopping", some (-3200), some ⟨2026, 9, 3⟩⟩,
       ⟨some "Electricity bill", some (-1500), some ⟨2025, 9, 5⟩⟩] 2026).2.2.1 3 (by decide)
    (by
      intro t ht a d ha hd _ _
      simp only [List.mem_cons, List.mem_singleton, List.not_mem_nil, or_false] at ht
      rcases ht with rfl | rfl | rfl <;> cases hd <;> decide)

/-! ## Conservation of the monthly totals -/

theorem calculateMonthlyData_eq_map_range (transactions : List Transaction) (year : Int) :
    calculateMonthlyData transactions year =
      (List.range 12).map (fun m => (transactions.map (monthContribution year m)).sum) := by
  apply List.ext_getElem?
  intro n
  by_cases hn : n < 12
  · rw [(calculateMonthlyData_getElem transactions year).2 n hn]
    rw [List.getElem?_map, List.getElem?_range hn]
    rfl
  · have h1 : (calculateMonthlyData transactions year).length ≤ n := by
      rw [(calculateMonthlyData_getElem transactions year).1]; omega
    have h2 : ((List.range 12).map
        (fun m => (transactions.map (monthContribution year m)).sum)).length ≤ n := by
      rw [List.length_map, List.length_range]; omega
    rw [List.getElem?_eq_none h1, List.getElem?_eq_none h2]

theorem sum_monthContribution_over_months (year : Int) (t : Transaction) :
    ((List.range 12).map (fun m => monthContribution year m t)).sum = yearContribution year t := by
  unfold monthContribution yearContribution
  cases ha : t.amount with
  | none => simp
  | some a =>
    cases hd : t.createdAt with
    | none => simp
    | some d =>
      obtain ⟨y, ⟨k, hk⟩, day⟩ := d
      by_cases h : a < 0 ∧ y = year
      · simp only [h, true_and, and_self, if_true]
        interval_cases k <;> simp [List.range, List.range.loop]
      · have h2 : ∀ m : Nat, ¬ (a < 0 ∧ y = year ∧ k = m) := fun m hm => h ⟨hm.1, hm.2.1⟩
        simp [h, h2]

theorem sum_swap_months (year : Int) (transactions : List Transaction) (months : List Nat) :
    (months.map (fun m => (transactions.map (monthContribution year m)).sum)).sum =
      (transactions.map (fun t => (months.map (fun m => monthContribution year m t)).sum)).sum := by
  induction transactions with
  | nil => simp
  | cons t rest ih =>
    simp only [List.map_cons, List.sum_cons]
    rw [List.sum_map_add, ih]

/-- C11: for every transaction list and every year, the 12 entries of `calculateMonthlyData`
sum to the sum of `|amount|` over all transactions with `amount < 0` whose `createdAt` lies
in that year (conservation law, exact arithmetic). -/
theorem calculateMonthlyData_conservation (transactions : List Transaction) (year : Int) :
    (calculateMonthlyData transactions year).length = 12 ∧
    (calculateMonthlyData transactions year).sum =
      (transactions.map (yearContribution year)).sum := by
  refine ⟨(calculateMonthlyData_getElem transactions year).1, ?_⟩
  rw [calculateMonthlyData_eq_map_range, sum_swap_months]
  congr 1
  apply List.map_congr_left
  intro t _
  exact sum_monthContribution_over_months year t

/-! ## Daily totals: theorems -/

theorem jsAddAt_of_lt (arr : List (Option ℚ)) (i : Nat) (x : ℚ) (h : i < arr.length) :
    jsAddAt arr i x = arr.set i ((arr.getD i none).map (fun v => v + x)) := by
  simp only [jsAddAt, h, if_true]

theorem daily_fold (year : Int) (month : Fin 12) (n : Nat) (l : List Transaction) :
    ∀ arr : List (Option ℚ), arr.length = n →
      (∀ t ∈ l, ∀ d, t.createdAt = some d → d.year = year → d.month = month →
        1 ≤ d.day ∧ d.day ≤ n) →
      (l.foldl
        (fun dailyTotals transaction =>
          match transaction.createdAt with
          | some date =>
            if date.year = year ∧ date.month = month then
              let day := date.day - 1
              jsAddAt dailyTotals day (absAmount transaction)
            else dailyTotals
          | none => dailyTotals) arr).length = n ∧
      ∀ k, k < n →
        (l.foldl
          (fun dailyTotals transaction =>
            match transaction.createdAt with
            | some date =>
              if date.year = year ∧ date.month = month then
                let day := date.day - 1
                jsAddAt dailyTotals day (absAmount transaction)
              else dailyTotals
            | none => dailyTotals) arr)[k]? =
        some ((arr.getD k none).map (fun v => v +
          (l.map (fun t =>
            match t.createdAt with
            | some d =>
              if d.year = year ∧ d.month = month ∧ d.day = k + 1 then absAmount t else 0
            | none => 0)).sum)) := by
  induction l with
  | nil =>
    intro arr harr _
    refine ⟨harr, ?_⟩
    intro k hk
    have hlt : k < arr.length := by omega
    simp [List.getD_eq_getElem?_getD, List.getElem?_eq_getElem hlt]
  | cons t rest ih =>
    intro arr harr hb
    have hrest : ∀ t ∈ rest, ∀ d, t.createdAt = some d → d.year = year → d.month = month →
        1 ≤ d.day ∧ d.day ≤ n := fun t ht => hb t (List.mem_cons_of_mem _ ht)
    rw [List.foldl_cons]
    cases hdate : t.createdAt with
    | none =>
      obtain ⟨hlen, hget⟩ := ih arr harr hrest
      refine ⟨hlen, ?_⟩
      intro k hk
      rw [hget k hk]
      simp [hdate]
    | some d =>
      by_cases hy : d.year = year ∧ d.month = month
      · have hday := hb t (List.mem_cons_self _ _) d hdate hy.1 hy.2
        have hidx : d.day - 1 < arr.length := by omega
        simp only [hy, and_self, if_true]
        rw [jsAddAt_of_lt arr (d.day - 1) (absAmount t) hidx]
        have hacc2 : (arr.set (d.day - 1)
            ((arr.getD (d.day - 1) none).map (fun v => v + absAmount t))).length = n := by
          rw [List.length_set]; exact harr
        obtain ⟨hlen, hget⟩ := ih _ hacc2 hrest
        refine ⟨hlen, ?_⟩
        intro k hk
        rw [hget k hk]
        have hlt : k < arr.length := by omega
        by_cases hkk : d.day = k + 1
        · have hk2 : d.day - 1 = k := by omega
          rw [hk2]
          have hcond : d.year = year ∧ d.month = month ∧ d.day = k + 1 := ⟨hy.1, hy.2, hkk⟩
          cases harrk : arr[k]? with
          | none =>
            simp [List.getD_eq_getElem?_getD, List.getElem?_set, hlt, hdate, hcond, harrk]
          | some v =>
            cases v with
            | none =>
              simp [List.getD_eq_getElem?_getD, List.getElem?_set, hlt, hdate, hcond, harrk]
            | some q =>
              simp [List.getD_eq_getElem?_getD, List.getElem?_set, hlt, hdate, hcond, harrk]
              ring
        · have hk2 : d.day - 1 ≠ k := by omega
          simp [List.getD_eq_getElem?_getD, List.getElem?_set, hk2, hdate, hy, hkk]
      · simp only [hy, if_false]
        obtain ⟨hlen, hget⟩ := ih arr harr hrest
        refine ⟨hlen, ?_⟩
        intro k hk
        rw [hget k hk]
        have hy2 : ¬ (d.year = year ∧ d.month = month ∧ d.day = k + 1) :=
          fun h => hy ⟨h.1, h.2.1⟩
        simp [hdate, hy2]

theorem sum_map_sum_swap {α : Type} (f : Nat → α → ℚ) (items : List α) (idx : List Nat) :
    (idx.map (fun k => (items.map (f k)).sum)).sum =
      (items.map (fun t => (idx.map (fun k => f k t)).sum)).sum := by
  induction items with
  | nil => simp
  | cons t rest ih =>
    simp only [List.map_cons, List.sum_cons]
    rw [List.sum_map_add, ih]

theorem sum_range_indicator (n day : Nat) (x : ℚ) :
    ((List.range n).map (fun k => if day = k + 1 then x else 0)).sum =
      if 1 ≤ day ∧ day ≤ n then x else 0 := by
  induction n with
  | zero =>
    have h : ¬ (1 ≤ day ∧ day ≤ 0) := by omega
    rw [if_neg h]
    rfl
  | succ n ih =>
    rw [List.sum_range_succ, ih]
    by_cases h1 : 1 ≤ day ∧ day ≤ n
    · have h2 : ¬ (day = n + 1) := by omega
      have h3 : 1 ≤ day ∧ day ≤ n + 1 := by omega
      simp [h1, h2, h3]
    · by_cases h2 : day = n + 1
      · have h3 : 1 ≤ day ∧ day ≤ n + 1 := by omega
        simp [h1, h2, h3]
      · have h3 : ¬ (1 ≤ day ∧ day ≤ n + 1) := by omega
        simp [h1, h2, h3]

theorem sum_filter_isExpense_daily (year : Int) (month : Fin 12) (k : Nat)
    (l : List Transaction) :
    ((l.filter isExpense).map (fun t =>
      match t.createdAt with
      | some d => if d.year = year ∧ d.month = month ∧ d.day = k + 1 then absAmount t else 0
      | none => 0)).sum = (l.map (dayContribution year month (k + 1))).sum := by
  induction l with
  | nil => rfl
  | cons t rest ih =>
    rw [List.filter_cons, List.map_cons, List.sum_cons, ← ih]
    cases ha : t.amount with
    | none =>
      simp [isExpense, dayContribution, ha]
    | some a =>
      cases hd : t.createdAt with
      | none =>
        by_cases hneg : a < 0 <;> simp [isExpense, dayContribution, ha, hd, hneg]
      | some d =>
        by_cases hneg : a < 0
        · simp [isExpense, dayContribution, ha, hd, hneg, absAmount, mathAbs_eq_abs]
        · simp [isExpense, dayContribution, ha, hd, hneg]

theorem isLeapYear_makeFullYear (year : Int) (h : year ≠ 0) :
    isLeapYear (makeFullYear year) = isLeapYear year := by
  unfold makeFullYear isLeapYear
  by_cases hr : 0 ≤ year ∧ year ≤ 99
  · simp only [hr, and_self, if_true]
    have hiff : (((1900 + year) % 4 = 0 ∧ (1900 + year) % 100 ≠ 0) ∨ (1900 + year) % 400 = 0) ↔
        ((year % 4 = 0 ∧ year % 100 ≠ 0) ∨ year % 400 = 0) := by
      omega
    simp only [hiff]
  · simp only [hr, if_false]

theorem daysInMonth_eq_gregorian (year : Int) (month : Fin 12)
    (h : ¬ (year = 0 ∧ month.val = 1)) :
    daysInMonth year month = daysInGregorianMonth year month := by
  unfold daysInMonth daysInGregorianMonth
  obtain ⟨k, hk⟩ := month
  by_cases hk1 : k = 1
  · subst hk1
    have hy : year ≠ 0 := fun hy => h ⟨hy, rfl⟩
    simp only [isLeapYear_makeFullYear year hy]
  · interval_cases k <;> first | rfl | exact absurd rfl hk1

theorem sum_dayContribution_over_days (year : Int) (month : Fin 12) (n : Nat) (t : Transaction)
    (h : ∀ d, t.createdAt = some d → d.year = year → d.month = month → 1 ≤ d.day ∧ d.day ≤ n) :
    ((List.range n).map (fun k => dayContribution year month (k + 1) t)).sum =
      monthContribution year month.val t := by
  unfold dayContribution monthContribution
  cases ha : t.amount with
  | none => simp
  | some a =>
    cases hd : t.createdAt with
    | none => simp
    | some d =>
      by_cases hc : a < 0 ∧ d.year = year ∧ d.month = month
      · have hday := h d hd hc.2.1 hc.2.2
        have hm : d.month.val = month.val := by rw [hc.2.2]
        have hsum := sum_range_indicator n d.day |a|
        simp only [hday, and_self, if_true] at hsum
        simp only [hc, hm, true_and, and_self, if_true]
        exact hsum
      · have h1 : ∀ k : Nat, ¬ (a < 0 ∧ d.year = year ∧ d.month = month ∧ d.day = k + 1) :=
          fun k hk => hc ⟨hk.1, hk.2.1, hk.2.2.1⟩
        have h2 : ¬ (a < 0 ∧ d.year = year ∧ d.month.val = month.val) :=
          fun hk => hc ⟨hk.1, hk.2.1, Fin.ext hk.2.2⟩
        simp [h1, h2]

theorem calculateDailyData_of_bounded (transactions : List Transaction) (year : Int)
    (month : Fin 12)
    (hb : ∀ t ∈ transactions, ∀ d, t.createdAt = some d → d.year = year → d.month = month →
      1 ≤ d.day ∧ d.day ≤ daysInMonth year month) :
    calculateDailyData transactions year month =
      (List.range (daysInMonth year month)).map
        (fun k => some ((transactions.map (dayContribution year month (k + 1))).sum)) := by
  have hb2 : ∀ t ∈ transactions.filter isExpense, ∀ d, t.createdAt = some d → d.year = year →
      d.month = month → 1 ≤ d.day ∧ d.day ≤ daysInMonth year month :=
    fun t ht => hb t (List.mem_of_mem_filter ht)
  have h := daily_fold year month (daysInMonth year month) (transactions.filter isExpense)
    (List.replicate (daysInMonth year month) (some 0)) (List.length_replicate _ _) hb2
  apply List.ext_getElem?
  intro k
  by_cases hk : k < daysInMonth year month
  · have h2 := h.2 k hk
    rw [sum_filter_isExpense_daily] at h2
    have hz : (List.replicate (daysInMonth year month) (some (0 : ℚ))).getD k none = some 0 := by
      rw [List.getD_eq_getElem?_getD, List.getElem?_replicate]
      simp only [hk, if_true, Option.getD_some]
    rw [hz] at h2
    unfold calculateDailyData
    rw [h2, List.getElem?_map, List.getElem?_range hk]
    simp
  · have h1 : (calculateDailyData transactions year month).length ≤ k := by
      unfold calculateDailyData
      rw [h.1]; omega
    have h2 : ((List.range (daysInMonth year month)).map
        (fun k => some ((transactions.map (dayContribution year month (k + 1))).sum))).length
          ≤ k := by
      rw [List.length_map, List.length_range]; omega
    rw [List.getElem?_eq_none h1, List.getElem?_eq_none h2]

theorem calculateDailyData_of_valid (transactions : List Transaction) (year : Int)
    (month : Fin 12)
    (hvalid : ∀ t ∈ transactions, ∀ d, t.createdAt = some d → d.valid)
    (hne : ¬ (year = 0 ∧ month.val = 1)) :
    (calculateDailyData transactions year month).length = daysInGregorianMonth year month ∧
    (∀ day, 1 ≤ day → day ≤ daysInGregorianMonth year month →
      (calculateDailyData transactions year month)[day - 1]? =
        some (some ((transactions.map (dayContribution year month day)).sum))) ∧
    (∀ t ∈ transactions, ∀ d, isExpense t = true → t.createdAt = some d → d.year = year →
      d.month = month → d.day - 1 < (calculateDailyData transactions year month).length) ∧
    (∀ v ∈ calculateDailyData transactions year month, v ≠ none) ∧
    ((calculateDailyData transactions year month).map (fun v => v.getD 0)).sum =
      (transactions.map (monthContribution year month.val)).sum ∧
    (calculateMonthlyData transactions year)[month.val]? =
      some (((calculateDailyData transactions year month).map (fun v => v.getD 0)).sum) := by
  have hdays := daysInMonth_eq_gregorian year month hne
  have hb : ∀ t ∈ transactions, ∀ d, t.createdAt = some d → d.year = year → d.month = month →
      1 ≤ d.day ∧ d.day ≤ daysInMonth year month := by
    intro t ht d hd hy hm
    have hv := hvalid t ht d hd
    unfold JsDate.valid at hv
    rw [hy, hm] at hv
    rw [hdays]
    exact hv
  have heq := calculateDailyData_of_bounded transactions year month hb
  have hlen : (calculateDailyData transactions year month).length =
      daysInGregorianMonth year month := by
    rw [heq, List.length_map, List.length_range, hdays]
  have hsum : ((calculateDailyData transactions year month).map (fun v => v.getD 0)).sum =
      (transactions.map (monthContribution year month.val)).sum := by
    rw [heq, List.map_map]
    have hfun : ((fun v : Option ℚ => v.getD 0) ∘
        (fun k => some ((transactions.map (dayContribution year month (k + 1))).sum))) =
        (fun k => (transactions.map
          ((fun k t => dayContribution year month (k + 1) t) k)).sum) := by
      funext k
      rfl
    rw [hfun, sum_map_sum_swap (fun k t => dayContribution year month (k + 1) t)]
    congr 1
    apply List.map_congr_left
    intro t ht
    exact sum_dayContribution_over_days year month _ t (hb t ht)
  refine ⟨hlen, ?_, ?_, ?_, hsum, ?_⟩
  · intro day h1 h2
    have hk : day - 1 < daysInMonth year month := by rw [hdays]; omega
    rw [heq, List.getElem?_map, List.getElem?_range hk]
    have hd : day - 1 + 1 = day := by omega
    simp [hd]
  · intro t ht d _ hd hy hm
    have := hb t ht d hd hy hm
    rw [hlen, ← hdays]
    omega
  · intro v hv
    rw [heq] at hv
    obtain ⟨k, _, rfl⟩ := List.mem_map.mp hv
    simp
  · rw [hsum]
    exact (calculateMonthlyData_getElem transactions year).2 month.val month.isLt

/-- C12 fails for February of year 0: the constructor call `new Date (0, 2, 0)` reads the year
0 as 1900, so the array has 28 entries, while 29 February of year 0 is a valid date; an
expense dated on it writes index 28, outside the array, which grows to length 29 with a
`NaN` last entry, and the entries no longer sum to the monthly total 5. -/
theorem calculateDailyData_february_year_zero :
    (⟨0, 1, 29⟩ : JsDate).valid ∧
    daysInGregorianMonth 0 1 = 29 ∧
    daysInMonth 0 1 = 28 ∧
    (calculateDailyData [⟨some "Tea", some (-5), some ⟨0, 1, 29⟩⟩] 0 1).length = 29 ∧
    (calculateDailyData [⟨some "Tea", some (-5), some ⟨0, 1, 29⟩⟩] 0 1)[28]? = some none ∧
    (calculateMonthlyData [⟨some "Tea", some (-5), some ⟨0, 1, 29⟩⟩] 0)[1]? = some 5 := by
  have hexp : isExpense ⟨some "Tea", some (-5), some ⟨0, 1, 29⟩⟩ = true := by
    simp [isExpense]
  have hdaily : calculateDailyData [⟨some "Tea", some (-5), some ⟨0, 1, 29⟩⟩] 0 1 =
      List.replicate 28 (some 0) ++ [none] := by
    have hd : daysInMonth 0 1 = 28 := by decide
    simp only [calculateDailyData, List.filter_cons, hexp, if_true, List.filter_nil,
      List.foldl_cons, List.foldl_nil, hd]
    simp [jsAddAt]
  refine ⟨by decide, by decide, by decide, ?_, ?_, ?_⟩
  · rw [hdaily]; rfl
  · rw [hdaily]; rfl
  · rw [(calculateMonthlyData_getElem _ 0).2 1 (by decide)]
    simp [monthContribution]

/-! ## Category breakdown: theorems -/

theorem objGet_objSet (obj : List (String × ℚ)) (key : String) (value : ℚ) (c : String) :
    objGet (objSet obj key value) c = if c = key then some value else objGet obj c := by
  induction obj with
  | nil =>
    by_cases h : c = key
    · simp [objSet, objGet, h]
    · have h2 : ¬ key = c := fun h3 => h h3.symm
      simp [objSet, objGet, h, h2]
  | cons entry rest ih =>
    by_cases he : entry.1 = key
    · by_cases h : c = key
      · simp [objSet, objGet, he, h]
      · have h2 : ¬ key = c := fun h3 => h h3.symm
        simp [objSet, objGet, he, h, h2]
    · by_cases h : c = key
      · subst h
        rw [if_pos rfl] at ih
        simp [objSet, objGet, he, ih]
      · simp [objSet, objGet, he, ih, h]

theorem mem_keys_objSet (obj : List (String × ℚ)) (key : String) (value : ℚ) (c : String) :
    c ∈ (objSet obj key value).map Prod.fst ↔ c = key ∨ c ∈ obj.map Prod.fst := by
  induction obj with
  | nil => simp [objSet]
  | cons entry rest ih =>
    by_cases he : entry.1 = key
    · simp [objSet, he]
    · simp only [objSet, he, if_false, List.map_cons, List.mem_cons, ih]
      tauto

theorem nodup_keys_objSet (obj : List (String × ℚ)) (key : String) (value : ℚ)
    (h : (obj.map Prod.fst).Nodup) : ((objSet obj key value).map Prod.fst).Nodup := by
  induction obj with
  | nil => simp [objSet]
  | cons entry rest ih =>
    rw [List.map_cons, List.nodup_cons] at h
    by_cases he : entry.1 = key
    · simp only [objSet, he, if_true, List.map_cons, List.nodup_cons]
      exact ⟨he ▸ h.1, h.2⟩
    · simp only [objSet, he, if_false, List.map_cons, List.nodup_cons]
      refine ⟨?_, ih h.2⟩
      rw [mem_keys_objSet]
      rintro (h1 | h1)
      · exact he h1
      · exact h.1 h1

theorem objGet_eq_none_iff (obj : List (String × ℚ)) (c : String) :
    objGet obj c = none ↔ c ∉ obj.map Prod.fst := by
  induction obj with
  | nil => simp [objGet]
  | cons entry rest ih =>
    by_cases he : entry.1 = c
    · simp [objGet, he]
    · have h2 : ¬ c = entry.1 := fun h3 => he h3.symm
      simp [objGet, he, ih, h2]

theorem categorizeTransaction_ok (toLowerCase : String → String) (t : Transaction)
    (raw : String) (h : t.text = some raw) :
    ∃ c, categorizeTransaction toLowerCase t = .ok c := by
  unfold categorizeTransaction
  rw [h]
  simp only
  cases categoryKeywords.find?
      (fun entry => entry.2.any (fun keyword => jsIncludes (toLowerCase raw) keyword)) with
  | none => exact ⟨_, rfl⟩
  | some entry => exact ⟨_, rfl⟩

theorem breakdown_fold (toLowerCase : String → String) (l : List Transaction) :
    ∀ acc : List (String × ℚ), (∀ t ∈ l, ∃ raw, t.text = some raw) →
      ∃ m,
        l.foldlM
          (fun categoryTotals transaction =>
            match categorizeTransaction toLowerCase transaction with
            | .error e => .error e
            | .ok category =>
              let amount := absAmount transaction
              Except.ok (objSet categoryTotals category
                ((objGet categoryTotals category).getD 0 + amount))) acc = Except.ok m ∧
        (∀ c, (objGet m c).getD 0 = (objGet acc c).getD 0 +
          (l.map (fun t =>
            match categorizeTransaction toLowerCase t with
            | .ok k => if k = c then absAmount t else 0
            | .error _ => 0)).sum) ∧
        (∀ c, c ∈ m.map Prod.fst ↔
          c ∈ acc.map Prod.fst ∨ ∃ t ∈ l, categorizeTransaction toLowerCase t = .ok c) ∧
        ((acc.map Prod.fst).Nodup → (m.map Prod.fst).Nodup) := by
  induction l with
  | nil =>
    intro acc _
    exact ⟨acc, rfl, by simp, by simp, fun h => h⟩
  | cons t rest ih =>
    intro acc htext
    obtain ⟨raw, hraw⟩ := htext t (List.mem_cons_self _ _)
    obtain ⟨k, hk⟩ := categorizeTransaction_ok toLowerCase t raw hraw
    have hrest : ∀ t ∈ rest, ∃ raw, t.text = some raw :=
      fun t ht => htext t (List.mem_cons_of_mem _ ht)
    obtain ⟨m, hm, hsum, hkeys, hnodup⟩ :=
      ih (objSet acc k ((objGet acc k).getD 0 + absAmount t)) hrest
    refine ⟨m, ?_, ?_, ?_, ?_⟩
    · rw [List.foldlM_cons, hk]
      exact hm
    · intro c
      rw [hsum c, objGet_objSet, List.map_cons, List.sum_cons, hk]
      by_cases hc : c = k
      · subst hc
        simp
        ring
      · have hc2 : ¬ k = c := fun h => hc h.symm
        simp [hc, hc2]
    · intro c
      rw [hkeys c, mem_keys_objSet]
      constructor
      · rintro ((h | h) | ⟨t2, ht2, hcat⟩)
        · exact Or.inr ⟨t, List.mem_cons_self _ _, h ▸ hk⟩
        · exact Or.inl h
        · exact Or.inr ⟨t2, List.mem_cons_of_mem _ ht2, hcat⟩
      · rintro (h | ⟨t2, ht2, hcat⟩)
        · exact Or.inl (Or.inr h)
        · rcases List.mem_cons.mp ht2 with rfl | ht2
          · rw [hk] at hcat
            exact Or.inl (Or.inl (Except.ok.inj hcat).symm)
          · exact Or.inr ⟨t2, ht2, hcat⟩
    · intro h
      exact hnodup (nodup_keys_objSet acc k _ h)

theorem sum_filter_isExpense_category (toLowerCase : String → String) (c : String)
    (l : List Transaction) :
    ((l.filter isExpense).map (fun t =>
      match categorizeTransaction toLowerCase t with
      | .ok k => if k = c then absAmount t else 0
      | .error _ => 0)).sum = (l.map (categoryContribution toLowerCase c)).sum := by
  induction l with
  | nil => rfl
  | cons t rest ih =>
    rw [List.filter_cons, List.map_cons, List.sum_cons, ← ih]
    cases ha : t.amount with
    | none =>
      simp [isExpense, categoryContribution, ha]
    | some a =>
      by_cases hneg : a < 0
      · cases hcat : categorizeTransaction toLowerCase t with
        | error e => simp [isExpense, categoryContribution, ha, hneg, hcat]
        | ok k =>
          simp [isExpense, categoryContribution, ha, hneg, hcat, absAmount, mathAbs_eq_abs]
      · cases hcat : categorizeTransaction toLowerCase t <;>
          simp [isExpense, categoryContribution, ha, hneg, hcat]

theorem categoryContribution_nonneg (toLowerCase : String → String) (c : String)
    (t : Transaction) : 0 ≤ categoryContribution toLowerCase c t := by
  unfold categoryContribution
  cases t.amount with
  | none => exact le_refl 0
  | some a =>
    cases categorizeTransaction toLowerCase t with
    | error e => exact le_refl 0
    | ok k =>
      by_cases h : a < 0 ∧ k = c
      · simp only [h, and_self, if_true]
        exact abs_nonneg a
      · simp only [h, if_false]
        exact le_refl 0

theorem categoryContribution_pos (toLowerCase : String → String) (c : String)
    (t : Transaction) (he : isExpense t = true)
    (hc : categorizeTransaction toLowerCase t = .ok c) :
    0 < categoryContribution toLowerCase c t := by
  unfold categoryContribution
  unfold isExpense at he
  cases ha : t.amount with
  | none => rw [ha] at he; cases he
  | some a =>
    rw [ha] at he
    have hneg : a < 0 := of_decide_eq_true he
    rw [hc]
    simp only [hneg, true_and, if_true]
    exact abs_pos.mpr hneg.ne

theorem getCategoryBreakdown_ok (toLowerCase : String → String)
    (transactions : List Transaction)
    (htext : ∀ t ∈ transactions, isExpense t = true → ∃ raw, t.text = some raw) :
    ∃ m, getCategoryBreakdown toLowerCase transactions = .ok m ∧
      (m.map Prod.fst).Nodup ∧
      (∀ c, c ∈ m.map Prod.fst ↔
        ∃ t ∈ transactions, isExpense t = true ∧ categorizeTransaction toLowerCase t = .ok c) ∧
      (∀ c, (objGet m c).getD 0 =
        (transactions.map (categoryContribution toLowerCase c)).sum) := by
  have h2 : ∀ t ∈ transactions.filter isExpense, ∃ raw, t.text = some raw := by
    intro t ht
    exact htext t (List.mem_of_mem_filter ht) (List.of_mem_filter ht)
  obtain ⟨m, hm, hsum, hkeys, hnodup⟩ :=
    breakdown_fold toLowerCase (transactions.filter isExpense) [] h2
  refine ⟨m, hm, hnodup List.nodup_nil, ?_, ?_⟩
  · intro c
    rw [hkeys c]
    constructor
    · rintro (h | ⟨t, ht, hcat⟩)
      · simp at h
      · exact ⟨t, List.mem_of_mem_filter ht, List.of_mem_filter ht, hcat⟩
    · rintro ⟨t, ht, he, hcat⟩
      exact Or.inr ⟨t, List.mem_filter.mpr ⟨ht, he⟩, hcat⟩
  · intro c
    rw [hsum c, sum_filter_isExpense_category]
    simp [objGet]

/-- C13: on a transaction list whose expense records all have a text, `getCategoryBreakdown`
returns a map (distinct keys) in which a category is a key exactly when at least one
transaction with `amount < 0` is categorised to it; the value of a present key is the sum of
`|amount|` of those transactions and is strictly positive, so no key has value 0, and the map
is empty exactly when the list has no expense transaction. -/
theorem getCategoryBreakdown_spec (toLowerCase : String → String)
    (transactions : List Transaction)
    (htext : ∀ t ∈ transactions, isExpense t = true → ∃ raw, t.text = some raw) :
    ∃ m, getCategoryBreakdown toLowerCase transactions = .ok m ∧
      (m.map Prod.fst).Nodup ∧
      (∀ c, c ∈ m.map Prod.fst ↔
        ∃ t ∈ transactions, isExpense t = true ∧ categorizeTransaction toLowerCase t = .ok c) ∧
      (∀ c, c ∈ m.map Prod.fst →
        objGet m c = some ((transactions.map (categoryContribution toLowerCase c)).sum) ∧
        0 < (transactions.map (categoryContribution toLowerCase c)).sum) ∧
      (∀ c, c ∉ m.map Prod.fst → objGet m c = none) ∧
      (∀ c v, objGet m c = some v → v ≠ 0) ∧
      (m = [] ↔ ∀ t ∈ transactions, isExpense t = false) := by
  obtain ⟨m, hm, hnodup, hkeys, hsum⟩ :=
    getCategoryBreakdown_ok toLowerCase transactions htext
  have hpos : ∀ c, c ∈ m.map Prod.fst →
      0 < (transactions.map (categoryContribution toLowerCase c)).sum := by
    intro c hc
    obtain ⟨t, ht, he, hcat⟩ := (hkeys c).mp hc
    have h1 := categoryContribution_pos toLowerCase c t he hcat
    have h2 : categoryContribution toLowerCase c t ≤
        (transactions.map (categoryContribution toLowerCase c)).sum := by
      apply List.single_le_sum
      · intro x hx
        obtain ⟨t2, _, rfl⟩ := List.mem_map.mp hx
        exact categoryContribution_nonneg toLowerCase c t2
      · exact List.mem_map_of_mem _ ht
    linarith
  have hval : ∀ c, c ∈ m.map Prod.fst →
      objGet m c = some ((transactions.map (categoryContribution toLowerCase c)).sum) := by
    intro c hc
    have h1 := hsum c
    cases hget : objGet m c with
    | none => exact absurd hc ((objGet_eq_none_iff m c).mp hget)
    | some v =>
      rw [hget] at h1
      simp only [Option.getD_some] at h1
      rw [h1]
  refine ⟨m, hm, hnodup, hkeys, fun c hc => ⟨hval c hc, hpos c hc⟩, ?_, ?_, ?_⟩
  · intro c hc
    exact (objGet_eq_none_iff m c).mpr hc
  · intro c v hget
    have hc : c ∈ m.map Prod.fst := by
      by_contra hcon
      rw [(objGet_eq_none_iff m c).mpr hcon] at hget
      cases hget
    rw [hval c hc] at hget
    have := hpos c hc
    rw [← Option.some.inj hget]
    exact this.ne'
  · constructor
    · intro hnil t ht
      by_contra he
      have he2 : isExpense t = true := by simpa using he
      obtain ⟨raw, hraw⟩ := htext t ht he2
      obtain ⟨c, hc⟩ := categorizeTransaction_ok toLowerCase t raw hraw
      have := (hkeys c).mpr ⟨t, ht, he2, hc⟩
      rw [hnil] at this
      simp at this
    · intro hno
      cases m with
      | nil => rfl
      | cons entry rest =>
        obtain ⟨t, ht, he, _⟩ := (hkeys entry.1).mp (by simp)
        rw [hno t ht] at he
        cases he

theorem getCategoryBreakdown_spec_witness :
    ∃ m, getCategoryBreakdown (fun text => text)
        [⟨some "grocery shopping", some (-3000), none⟩, ⟨none, some 40, none⟩] = .ok m ∧
      (m.map Prod.fst).Nodup :=
  (getCategoryBreakdown_spec (fun text => text)
      [⟨some "grocery shopping", some (-3000), none⟩, ⟨none, some 40, none⟩]
      (by
        intro t ht he
        simp only [List.mem_cons, List.mem_singleton, List.not_mem_nil, or_false] at ht
        rcases ht with rfl | rfl
        · exact ⟨_, rfl⟩
        · simp only [isExpense, decide_eq_true_eq] at he
          exact absurd he (by norm_num))).imp
    (fun _ h => ⟨h.1, h.2.1⟩)

/-! ## Independence of the input order -/

theorem jsAddAt_length (arr : List (Option ℚ)) (i : Nat) (x : ℚ) :
    (jsAddAt arr i x).length = max arr.length (i + 1) := by
  unfold jsAddAt
  split_ifs with h
  · rw [List.length_set]; omega
  · simp only [List.length_append, List.length_replicate, List.length_singleton]; omega

theorem jsAddAt_getElem? (arr : List (Option ℚ)) (i : Nat) (x : ℚ) (k : Nat) :
    (jsAddAt arr i x)[k]? =
      if k = i then some ((arr[i]?.getD none).map (fun v => v + x))
      else if k < arr.length then arr[k]?
      else if k < i then some none else none := by
  unfold jsAddAt
  by_cases h : i < arr.length
  · simp only [h, if_true, List.getD_eq_getElem?_getD, List.getElem?_set]
    by_cases hk : k = i
    · subst hk
      simp
    · have hk2 : ¬ i = k := fun h3 => hk h3.symm
      simp only [hk, hk2, if_false]
      by_cases hlt : k < arr.length
      · simp [hlt]
      · have hlt2 : ¬ k < i := by omega
        simp only [hlt, hlt2, if_false]
        exact List.getElem?_eq_none (by omega)
  · simp only [h, if_false]
    have hnone : arr[i]? = none := List.getElem?_eq_none (by omega)
    by_cases hk : k = i
    · subst hk
      rw [hnone]
      simp only [if_true, Option.getD_none, Option.map_none']
      rw [List.getElem?_append_right (by simp; omega)]
      have hz : k - (arr ++ List.replicate (k - arr.length) none).length = 0 := by
        simp only [List.length_append, List.length_replicate]; omega
      rw [hz]
      rfl
    · simp only [hk, if_false]
      by_cases hlt : k < arr.length
      · simp only [hlt, if_true]
        rw [List.append_assoc, List.getElem?_append_left hlt]
      · simp only [hlt, if_false]
        by_cases hki : k < i
        · simp only [hki, if_true]
          rw [List.getElem?_append_left (by simp; omega),
            List.getElem?_append_right (by omega), List.getElem?_replicate]
          have : k - arr.length < i - arr.length := by omega
          simp [this]
        · simp only [hki, if_false]
          exact List.getElem?_eq_none (by simp; omega)

theorem jsAddAt_comm (arr : List (Option ℚ)) (i j : Nat) (x y : ℚ) :
    jsAddAt (jsAddAt arr i x) j y = jsAddAt (jsAddAt arr j y) i x := by
  apply List.ext_getElem?
  intro k
  simp only [jsAddAt_getElem?, jsAddAt_length]
  by_cases hij : i = j
  · subst hij
    by_cases hk : k = i
    · subst hk
      simp only [if_true]
      cases arr[k]?.getD none with
      | none => rfl
      | some v => simp [add_right_comm]
    · simp only [hk, if_false]
  · have hji : ¬ j = i := fun h => hij h.symm
    by_cases hkj : k = j
    · subst hkj
      have hki : ¬ k = i := hji
      simp only [if_true, hki, hij, if_false]
      by_cases h1 : k < arr.length
      · have h2 : k < max arr.length (i + 1) := by omega
        simp [h1, h2]
      · by_cases h3 : k < i
        · have h2 : k < max arr.length (i + 1) := by omega
          have h4 : arr[k]? = none := List.getElem?_eq_none (by omega)
          simp [h1, h2, h3, h4]
        · have h2 : ¬ k < max arr.length (i + 1) := by omega
          have h4 : arr[k]? = none := List.getElem?_eq_none (by omega)
          simp [h1, h2, h3, h4]
    · by_cases hki : k = i
      · subst hki
        simp only [if_true, hkj, hji, if_false]
        by_cases h1 : k < arr.length
        · have h2 : k < max arr.length (j + 1) := by omega
          simp [h1, h2]
        · by_cases h3 : k < j
          · have h2 : k < max arr.length (j + 1) := by omega
            have h4 : arr[k]? = none := List.getElem?_eq_none (by omega)
            simp [h1, h2, h3, h4]
          · have h2 : ¬ k < max arr.length (j + 1) := by omega
            have h4 : arr[k]? = none := List.getElem?_eq_none (by omega)
            simp [h1, h2, h3, h4]
      · simp only [hkj, hki, if_false]
        by_cases h1 : k < arr.length
        · have h2 : k < max arr.length (i + 1) := by omega
          have h3 : k < max arr.length (j + 1) := by omega
          simp [h1, h2, h3]
        · simp only [h1, if_false]
          by_cases h3 : k < i <;> by_cases h4 : k < j
          · have h5 : k < max arr.length (i + 1) := by omega
            have h6 : k < max arr.length (j + 1) := by omega
            simp [h3, h4, h5, h6]
          · have h5 : k < max arr.length (i + 1) := by omega
            have h6 : ¬ k < max arr.length (j + 1) := by omega
            simp [h3, h4, h5, h6]
          · have h5 : ¬ k < max arr.length (i + 1) := by omega
            have h6 : k < max arr.length (j + 1) := by omega
            simp [h3, h4, h5, h6]
          · have h5 : ¬ k < max arr.length (i + 1) := by omega
            have h6 : ¬ k < max arr.length (j + 1) := by omega
            simp [h3, h4, h5, h6]

theorem calculateMonthlyData_perm (l1 l2 : List Transaction) (year : Int) (h : l1.Perm l2) :
    calculateMonthlyData l1 year = calculateMonthlyData l2 year := by
  rw [calculateMonthlyData_eq_map_range, calculateMonthlyData_eq_map_range]
  apply List.map_congr_left
  intro m _
  exact (h.map _).sum_eq

theorem calculateDailyData_perm (l1 l2 : List Transaction) (year : Int) (month : Fin 12)
    (h : l1.Perm l2) :
    calculateDailyData l1 year month = calculateDailyData l2 year month := by
  unfold calculateDailyData
  have hcomm : RightCommutative
      (fun (dailyTotals : List (Option ℚ)) (transaction : Transaction) =>
        match transaction.createdAt with
        | some date =>
          if date.year = year ∧ date.month = month then
            let day := date.day - 1
            jsAddAt dailyTotals day (absAmount transaction)
          else dailyTotals
        | none => dailyTotals) := by
    constructor
    intro arr t1 t2
    cases h1 : t1.createdAt with
    | none => rfl
    | some d1 =>
      cases h2 : t2.createdAt with
      | none => rfl
      | some d2 =>
        by_cases c1 : d1.year = year ∧ d1.month = month
        · by_cases c2 : d2.year = year ∧ d2.month = month
          · simp only [c1, c2, and_self, if_true]
            exact jsAddAt_comm arr _ _ _ _
          · simp only [c1, c2, and_self, if_true, if_false]
        · by_cases c2 : d2.year = year ∧ d2.month = month
          · simp only [c1, c2, and_self, if_true, if_false]
          · simp only [c1, c2, if_false]
  exact @List.Perm.foldl_eq _ _ _ _ _ hcomm (h.filter isExpense) _

theorem categorizeTransaction_error (toLowerCase : String → String) (t : Transaction)
    (h : t.text = none) :
    categorizeTransaction toLowerCase t =
      .error "TypeError: Cannot read properties of undefined (reading 'toLowerCase')" := by
  unfold categorizeTransaction
  rw [h]

theorem breakdown_fold_error (toLowerCase : String → String) (l : List Transaction) :
    ∀ acc : List (String × ℚ), (∃ t ∈ l, t.text = none) →
      l.foldlM
        (fun categoryTotals transaction =>
          match categorizeTransaction toLowerCase transaction with
          | .error e => .error e
          | .ok category =>
            let amount := absAmount transaction
            Except.ok (objSet categoryTotals category
              ((objGet categoryTotals category).getD 0 + amount))) acc =
        Except.error "TypeError: Cannot read properties of undefined (reading 'toLowerCase')" := by
  induction l with
  | nil =>
    rintro acc ⟨t, ht, _⟩
    cases ht
  | cons t rest ih =>
    rintro acc ⟨t2, ht2, htext⟩
    rw [List.foldlM_cons]
    cases ht : t.text with
    | none =>
      rw [categorizeTransaction_error toLowerCase t ht]
      rfl
    | some raw =>
      obtain ⟨k, hk⟩ := categorizeTransaction_ok toLowerCase t raw ht
      rw [hk]
      apply ih
      rcases List.mem_cons.mp ht2 with rfl | hmem
      · rw [ht] at htext
        cases htext
      · exact ⟨t2, hmem, htext⟩

theorem getCategoryBreakdown_error (toLowerCase : String → String)
    (transactions : List Transaction)
    (h : ∃ t ∈ transactions, isExpense t = true ∧ t.text = none) :
    getCategoryBreakdown toLowerCase transactions =
      .error "TypeError: Cannot read properties of undefined (reading 'toLowerCase')" := by
  obtain ⟨t, ht, he, htext⟩ := h
  exact breakdown_fold_error toLowerCase _ []
    ⟨t, List.mem_filter.mpr ⟨ht, he⟩, htext⟩

theorem getCategoryBreakdown_perm (toLowerCase : String → String)
    (l1 l2 : List Transaction) (h : l1.Perm l2) (c : String) :
    (getCategoryBreakdown toLowerCase l1).map (fun m => objGet m c) =
      (getCategoryBreakdown toLowerCase l2).map (fun m => objGet m c) := by
  by_cases htext : ∀ t ∈ l1, isExpense t = true → ∃ raw, t.text = some raw
  · have htext2 : ∀ t ∈ l2, isExpense t = true → ∃ raw, t.text = some raw :=
      fun t ht => htext t (h.mem_iff.mpr ht)
    obtain ⟨m1, hm1, _, hk1, hs1⟩ := getCategoryBreakdown_ok toLowerCase l1 htext
    obtain ⟨m2, hm2, _, hk2, hs2⟩ := getCategoryBreakdown_ok toLowerCase l2 htext2
    rw [hm1, hm2]
    have hsum : (objGet m1 c).getD 0 = (objGet m2 c).getD 0 := by
      rw [hs1 c, hs2 c]
      exact (h.map _).sum_eq
    have hkeys : c ∈ m1.map Prod.fst ↔ c ∈ m2.map Prod.fst := by
      rw [hk1 c, hk2 c]
      constructor
      · rintro ⟨t, ht, hrest⟩
        exact ⟨t, h.mem_iff.mp ht, hrest⟩
      · rintro ⟨t, ht, hrest⟩
        exact ⟨t, h.mem_iff.mpr ht, hrest⟩
    have hget : objGet m1 c = objGet m2 c := by
      cases h1 : objGet m1 c with
      | none =>
        have hc := (objGet_eq_none_iff m1 c).mp h1
        exact ((objGet_eq_none_iff m2 c).mpr (fun h2 => hc (hkeys.mpr h2))).symm
      | some v1 =>
        cases h2 : objGet m2 c with
        | none =>
          have hc := (objGet_eq_none_iff m2 c).mp h2
          have hc1 := (objGet_eq_none_iff m1 c).mpr (fun h3 => hc (hkeys.mp h3))
          rw [hc1] at h1
          cases h1
        | some v2 =>
          rw [h1, h2] at hsum
          simp only [Option.getD_some] at hsum
          rw [hsum]
    show Except.ok (objGet m1 c) = Except.ok (objGet m2 c)
    rw [hget]
  · have hex : ∃ t ∈ l1, isExpense t = true ∧ t.text = none := by
      by_contra hcon
      apply htext
      intro t ht he
      cases htx : t.text with
      | none => exact absurd ⟨t, ht, he, htx⟩ hcon
      | some raw => exact ⟨raw, rfl⟩
    have hex2 : ∃ t ∈ l2, isExpense t = true ∧ t.text = none := by
      obtain ⟨t, ht, hrest⟩ := hex
      exact ⟨t, h.mem_iff.mp ht, hrest⟩
    rw [getCategoryBreakdown_error toLowerCase l1 hex,
      getCategoryBreakdown_error toLowerCase l2 hex2]

/-- C14: for every transaction list and every permutation of it, `calculateMonthlyData`
(fixed year), `calculateDailyData` (fixed year and month) and `getCategoryBreakdown` give
the same result for every bucket: the month and day arrays are equal entry by entry, and
every category has the same total (exact arithmetic). -/
theorem aggregation_order_independent (toLowerCase : String → String)
    (l1 l2 : List Transaction) (year : Int) (month : Fin 12) (h : l1.Perm l2) :
    calculateMonthlyData l1 year = calculateMonthlyData l2 year ∧
    (∀ m : Nat, (calculateMonthlyData l1 year)[m]? = (calculateMonthlyData l2 year)[m]?) ∧
    calculateDailyData l1 year month = calculateDailyData l2 year month ∧
    (∀ k : Nat,
      (calculateDailyData l1 year month)[k]? = (calculateDailyData l2 year month)[k]?) ∧
    (∀ c, (getCategoryBreakdown toLowerCase l1).map (fun m => objGet m c) =
      (getCategoryBreakdown toLowerCase l2).map (fun m => objGet m c)) := by
  refine ⟨calculateMonthlyData_perm l1 l2 year h, ?_, calculateDailyData_perm l1 l2 year month h,
    ?_, getCategoryBreakdown_perm toLowerCase l1 l2 h⟩
  · intro m
    rw [calculateMonthlyData_perm l1 l2 year h]
  · intro k
    rw [calculateDailyData_perm l1 l2 year month h]

theorem aggregation_order_independent_witness :
    calculateMonthlyData
        [⟨some "Grocery shopping", some (-3200), some ⟨2026, 9, 3⟩⟩,
         ⟨some "Electricity bill", some (-1500), some ⟨2026, 9, 5⟩⟩] 2026 =
      calculateMonthlyData
        [⟨some "Electricity bill", some (-1500), some ⟨2026, 9, 5⟩⟩,
         ⟨some "Grocery shopping", some (-3200), some ⟨2026, 9, 3⟩⟩] 2026 :=
  (aggregation_order_independent (fun text => text)
    [⟨some "Grocery shopping", some (-3200), some ⟨2026, 9, 3⟩⟩,
     ⟨some "Electricity bill", some (-1500), some ⟨2026, 9, 5⟩⟩]
    [⟨some "Electricity bill", some (-1500), some ⟨2026, 9, 5⟩⟩,
     ⟨some "Grocery shopping", some (-3200), some ⟨2026, 9, 3⟩⟩] 2026 9
    (List.Perm.swap _ _ _)).1

/-! ## Emptiness predicate: theorems -/

/-- C15, as stated, fails: `isDataEmpty` gives the same answer `true` for the 12 zeros that
`calculateMonthlyData` returns on the empty list, for `null` and for `undefined`. -/
theorem isDataEmpty_same_for_zeros_and_absent :
    isDataEmpty (.array ((calculateMonthlyData [] 2026).map JsEntry.number)) = true ∧
    isDataEmpty .null = true ∧
    isDataEmpty .undefined = true := by
  refine ⟨?_, rfl, rfl⟩
  have h : calculateMonthlyData [] 2026 = List.replicate 12 0 := rfl
  rw [h]
  simp [isDataEmpty]

/-- C15, amended: `isDataEmpty` does not distinguish an empty result from absent data.  It
returns `true` for `null`, for `undefined`, for every value that is not an array and for
every array all of whose entries are 0, `null` or `undefined`, in particular for the 12 zeros
of `calculateMonthlyData` on the empty list; it returns `false` exactly for an array with at
least one other entry. -/
theorem isDataEmpty_spec (data : ChartData) (year : Int) :
    (isDataEmpty data = true ↔
      ∀ items, data = .array items →
        ∀ v ∈ items, v = JsEntry.number 0 ∨ v = JsEntry.null ∨ v = JsEntry.undefined) ∧
    (isDataEmpty data = false ↔
      ∃ items, data = .array items ∧
        ∃ v ∈ items, v ≠ JsEntry.number 0 ∧ v ≠ JsEntry.null ∧ v ≠ JsEntry.undefined) ∧
    isDataEmpty .null = true ∧
    isDataEmpty .undefined = true ∧
    isDataEmpty .notArray = true ∧
    isDataEmpty (.array ((calculateMonthlyData [] year).map JsEntry.number)) =
      isDataEmpty .null := by
  have hiff : isDataEmpty data = true ↔
      ∀ items, data = .array items →
        ∀ v ∈ items, v = JsEntry.number 0 ∨ v = JsEntry.null ∨ v = JsEntry.undefined := by
    cases data with
    | null => exact ⟨fun _ items h => (by cases h), fun _ => rfl⟩
    | undefined => exact ⟨fun _ items h => (by cases h), fun _ => rfl⟩
    | notArray => exact ⟨fun _ items h => (by cases h), fun _ => rfl⟩
    | array items =>
      simp only [isDataEmpty, List.all_eq_true, Bool.or_eq_true, beq_iff_eq]
      constructor
      · intro h items2 heq v hv
        cases heq
        rcases h v hv with (h1 | h1) | h1
        · exact Or.inl h1
        · exact Or.inr (Or.inl h1)
        · exact Or.inr (Or.inr h1)
      · intro h v hv
        rcases h items rfl v hv with h1 | h1 | h1
        · exact Or.inl (Or.inl h1)
        · exact Or.inl (Or.inr h1)
        · exact Or.inr h1
  refine ⟨hiff, ?_, rfl, rfl, rfl, ?_⟩
  · rw [← Bool.not_eq_true, hiff]
    constructor
    · intro h
      push_neg at h
      obtain ⟨items, heq, v, hv, h1, h2, h3⟩ := h
      exact ⟨items, heq, v, hv, h1, h2, h3⟩
    · rintro ⟨items, heq, v, hv, h1, h2, h3⟩ hall
      rcases hall items heq v hv with h4 | h4 | h4
      · exact h1 h4
      · exact h2 h4
      · exact h3 h4
  · have h : calculateMonthlyData [] year = List.replicate 12 0 := rfl
    rw [h]
    simp [isDataEmpty]

theorem isDataEmpty_spec_witness :
    isDataEmpty (.array [JsEntry.number 0, JsEntry.null]) = true :=
  (isDataEmpty_spec (.array [JsEntry.number 0, JsEntry.null]) 2026).1.mpr
    (by
      intro items h v hv
      cases h
      simp only [List.mem_cons, List.mem_singleton, List.not_mem_nil, or_false] at hv
      rcases hv with rfl | rfl
      · exact Or.inl rfl
      · exact Or.inr (Or.inl rfl))

/-! ## Notification dispatcher: theorems -/

theorem callListener_fields (st : NotificationService) (l : Listener) :
    (callListener st l).activeNotifications = st.activeNotifications ∧
    (callListener st l).listeners = st.listeners ∧
    (callListener st l).calls = st.calls ++ [(l.id, st.activeNotifications)] := by
  unfold callListener
  by_cases ht : l.throws st.activeNotifications = true
  · simp only [ht, if_true, and_self]
  · simp only [ht, if_false, and_self]
    trivial

theorem notify_fold (ls : List Listener) :
    ∀ st : NotificationService,
      (ls.foldl callListener st).activeNotifications = st.activeNotifications ∧
      (ls.foldl callListener st).listeners = st.listeners ∧
      (ls.foldl callListener st).calls =
        st.calls ++ ls.map (fun l => (l.id, st.activeNotifications)) := by
  induction ls with
  | nil =>
    intro st
    simp
  | cons l rest ih =>
    intro st
    rw [List.foldl_cons]
    obtain ⟨h1, h2, h3⟩ := ih (callListener st l)
    obtain ⟨c1, c2, c3⟩ := callListener_fields st l
    refine ⟨h1.trans c1, h2.trans c2, ?_⟩
    rw [h3, c1, c3]
    simp

theorem notifyListeners_spec (s : NotificationService) :
    (notifyListeners s).activeNotifications = s.activeNotifications ∧
    (notifyListeners s).listeners = s.listeners ∧
    (notifyListeners s).calls =
      s.calls ++ s.listeners.map (fun l => (l.id, s.activeNotifications)) :=
  notify_fold s.listeners s

/-- C16: for every notification list `A`, every listener list and every `addNotification`
call, the active list afterwards is `A` followed by exactly the new notification, the
listener list is unchanged, and every subscribed listener is invoked once, in subscription
order, with the full resulting list, whether or not any listener throws. -/
theorem addNotification_publishes (s : NotificationService) (type title message : String)
    (options : NotificationOptions) (id : String) (now : Nat) :
    (addNotification s type title message options id now).2.activeNotifications =
      s.activeNotifications ++ [(addNotification s type title message options id now).1] ∧
    (addNotification s type title message options id now).2.listeners = s.listeners ∧
    (addNotification s type title message options id now).2.calls =
      s.calls ++ s.listeners.map (fun l =>
        (l.id, s.activeNotifications ++
          [(addNotification s type title message options id now).1])) ∧
    (addNotification s type title message options id now).2.calls.length =
      s.calls.length + s.listeners.length ∧
    (∀ l ∈ s.listeners,
      (l.id, s.activeNotifications ++
          [(addNotification s type title message options id now).1]) ∈
        (addNotification s type title message options id now).2.calls) ∧
    (addNotification s type title message options id now).1.id = id ∧
    (addNotification s type title message options id now).1.type = type ∧
    (addNotification s type title message options id now).1.title = title ∧
    (addNotification s type title message options id now).1.message = message := by
  have h := notifyListeners_spec
    { s with
      activeNotifications := s.activeNotifications ++
        [(addNotification s type title message options id now).1] }
  have hcalls : (addNotification s type title message options id now).2.calls =
      s.calls ++ s.listeners.map (fun l =>
        (l.id, s.activeNotifications ++
          [(addNotification s type title message options id now).1])) := h.2.2
  refine ⟨h.1, h.2.1, hcalls, ?_, ?_, rfl, rfl, rfl, rfl⟩
  · rw [hcalls]
    simp
  · intro l hl
    rw [hcalls]
    exact List.mem_append_right _ (List.mem_map_of_mem _ hl)

theorem addNotification_publishes_witness :
    (1, [(addNotification ⟨[], [⟨1, fun _ => true⟩, ⟨2, fun _ => false⟩], [], []⟩
          "success" "Limit Updated" "Monthly expense limit set"
          ⟨none, some 3000, none, none⟩ "n1" 7).1]) ∈
      (addNotification ⟨[], [⟨1, fun _ => true⟩, ⟨2, fun _ => false⟩], [], []⟩
        "success" "Limit Updated" "Monthly expense limit set"
        ⟨none, some 3000, none, none⟩ "n1" 7).2.calls :=
  (addNotification_publishes ⟨[], [⟨1, fun _ => true⟩, ⟨2, fun _ => false⟩], [], []⟩
    "success" "Limit Updated" "Monthly expense limit set"
    ⟨none, some 3000, none, none⟩ "n1" 7).2.2.2.2.1 ⟨1, fun _ => true⟩
    (List.mem_cons_self _ _)

/-- C17: for every notification list `A` and every id, `removeNotification` leaves `A`
without the notifications whose id equals the given id, the others in their original order
(`A` itself when the id is not present), and then invokes every subscribed listener with the
resulting list. -/
theorem removeNotification_republishes (s : NotificationService) (notificationId : String) :
    (removeNotification s notificationId).activeNotifications =
      s.activeNotifications.filter (fun n => n.id != notificationId) ∧
    (∀ n, n ∈ (removeNotification s notificationId).activeNotifications ↔
      n ∈ s.activeNotifications ∧ n.id ≠ notificationId) ∧
    ((removeNotification s notificationId).activeNotifications).Sublist
      s.activeNotifications ∧
    ((∀ n ∈ s.activeNotifications, n.id ≠ notificationId) →
      (removeNotification s notificationId).activeNotifications = s.activeNotifications) ∧
    (removeNotification s notificationId).listeners = s.listeners ∧
    (removeNotification s notificationId).calls =
      s.calls ++ s.listeners.map (fun l =>
        (l.id, s.activeNotifications.filter (fun n => n.id != notificationId))) := by
  have h := notifyListeners_spec
    { s with
      activeNotifications :=
        s.activeNotifications.filter (fun n => n.id != notificationId) }
  have hact : (removeNotification s notificationId).activeNotifications =
      s.activeNotifications.filter (fun n => n.id != notificationId) := h.1
  refine ⟨hact, ?_, ?_, ?_, h.2.1, h.2.2⟩
  · intro n
    rw [hact, List.mem_filter]
    simp
  · rw [hact]
    exact List.filter_sublist _
  · intro hall
    rw [hact, List.filter_eq_self]
    intro n hn
    simpa using hall n hn

theorem removeNotification_republishes_witness :
    (removeNotification
      ⟨[createNotification "info" "Expense Added" "Tea" true 2000 7], [], [], []⟩
      "8").activeNotifications =
      [createNotification "info" "Expense Added" "Tea" true 2000 7] :=
  (removeNotification_republishes
    ⟨[createNotification "info" "Expense Added" "Tea" true 2000 7], [], [], []⟩ "8").2.2.2.1
    (by
      intro n hn
      simp only [List.mem_singleton] at hn
      subst hn
      decide)

/-- C18, as stated, fails: when the callback is already subscribed, `subscribe` followed by
the returned unsubscribe function removes the earlier subscription too, so the listener list
is empty instead of equal to the list before. -/
theorem unsubscribe_removes_earlier_subscription :
    (unsubscribe (subscribe ⟨[], [⟨1, fun _ => false⟩], [], []⟩ ⟨1, fun _ => false⟩)
      ⟨1, fun _ => false⟩).listeners = [] ∧
    (⟨[], [⟨1, fun _ => false⟩], [], []⟩ : NotificationService).listeners.length = 1 := by
  constructor
  · simp [unsubscribe, subscribe]
  · rfl

/-- C18, amended: for every listener list `L` and every callback `f`, `subscribe (f)`
followed by the unsubscribe function it returned leaves `L` with every subscription of `f`
removed: `f` is no longer in the list and receives no further publications, every
subscription of another callback is kept in its order, and the list equals `L` exactly when
`f` was not subscribed before; an earlier subscription of the same callback is removed as
well. -/
theorem subscribe_unsubscribe (s : NotificationService) (f : Listener) :
    (unsubscribe (subscribe s f) f).listeners =
      s.listeners.filter (fun l => l.id != f.id) ∧
    (∀ l ∈ (unsubscribe (subscribe s f) f).listeners, l.id ≠ f.id) ∧
    (∀ l ∈ s.listeners, l.id ≠ f.id → l ∈ (unsubscribe (subscribe s f) f).listeners) ∧
    ((unsubscribe (subscribe s f) f).listeners).Sublist s.listeners ∧
    ((unsubscribe (subscribe s f) f).listeners = s.listeners ↔
      ∀ l ∈ s.listeners, l.id ≠ f.id) ∧
    (∀ call ∈ (s.listeners.filter (fun l => l.id != f.id)).map
        (fun l => (l.id, s.activeNotifications)), call.1 ≠ f.id) ∧
    (notifyListeners (unsubscribe (subscribe s f) f)).calls =
      s.calls ++ (s.listeners.filter (fun l => l.id != f.id)).map
        (fun l => (l.id, s.activeNotifications)) ∧
    (unsubscribe (subscribe s f) f).activeNotifications = s.activeNotifications := by
  have hl : (unsubscribe (subscribe s f) f).listeners =
      s.listeners.filter (fun l => l.id != f.id) := by
    simp [unsubscribe, subscribe, List.filter_append]
  refine ⟨hl, ?_, ?_, ?_, ?_, ?_, ?_, rfl⟩
  · intro l hmem
    rw [hl, List.mem_filter] at hmem
    simpa using hmem.2
  · intro l hmem hne
    rw [hl, List.mem_filter]
    exact ⟨hmem, by simpa using hne⟩
  · rw [hl]
    exact List.filter_sublist _
  · rw [hl, List.filter_eq_self]
    constructor
    · intro h l hmem
      simpa using h l hmem
    · intro h l hmem
      simpa using h l hmem
  · intro call hcall
    obtain ⟨l, hmem, rfl⟩ := List.mem_map.mp hcall
    rw [List.mem_filter] at hmem
    simpa using hmem.2
  · have h := (notifyListeners_spec (unsubscribe (subscribe s f) f)).2.2
    rw [h, hl]
    rfl

theorem subscribe_unsubscribe_witness :
    (unsubscribe (subscribe ⟨[], [⟨2, fun _ => false⟩], [], []⟩ ⟨1, fun _ => false⟩)
      ⟨1, fun _ => false⟩).listeners =
      (⟨[], [⟨2, fun _ => false⟩], [], []⟩ : NotificationService).listeners :=
  (subscribe_unsubscribe ⟨[], [⟨2, fun _ => false⟩], [], []⟩ ⟨1, fun _ => false⟩).2.2.2.2.1.mpr
    (by
      intro l hl
      simp only [List.mem_singleton] at hl
      subst hl
      decide)

/-- C19 fails on the code: `durations[type] || 5000` turns the table value 0 of `warning`
and `error` into 5000, so a warning created without options has duration 5000 and
`autoClose = true`, and the notification component closes it after 5000 ms.  The values for
`success` and `info` are as stated, and an explicit `options.duration`, even 0, is kept. -/
theorem getDefaultDuration_warning_error :
    getDefaultDuration "warning" = 5000 ∧
    getDefaultDuration "error" = 5000 ∧
    getDefaultDuration "success" = 3000 ∧
    getDefaultDuration "info" = 5000 ∧
    (addNotification ⟨[], [], [], []⟩ "warning" "Low balance" "Check your account"
      ⟨none, none, none, none⟩ "n1" 7).1.duration = 5000 ∧
    (addNotification ⟨[], [], [], []⟩ "warning" "Low balance" "Check your account"
      ⟨none, none, none, none⟩ "n1" 7).1.autoClose = true ∧
    autoCloseDelay true
      (addNotification ⟨[], [], [], []⟩ "warning" "Low balance" "Check your account"
        ⟨none, none, none, none⟩ "n1" 7).1 = some 5000 ∧
    autoCloseDelay true
      (addNotification ⟨[], [], [], []⟩ "error" "Failed" "Could not save"
        ⟨none, none, none, none⟩ "n2" 7).1 = some 5000 ∧
    (∀ (s : NotificationService) (type title message : String) (d : Nat) (id : String)
      (now : Nat),
      (addNotification s type title message ⟨none, some d, none, none⟩ id now).1.duration
        = d) := by
  refine ⟨by decide, by decide, by decide, by decide, by decide, by decide, by decide,
    by decide, ?_⟩
  intro s type title message d id now
  rfl

/-! ## Limit notifications: theorems -/

theorem getLimitStatus_hasLimit_of_exceeded (s : Storage) (transactions : List Transaction)
    (currentDate : JsDate)
    (h : (getLimitStatus s transactions currentDate).status = "exceeded") :
    (getLimitStatus s transactions currentDate).hasLimit = true := by
  cases hl : getExpenseLimit s with
  | none =>
    rw [getLimitStatus_of_no_limit s transactions currentDate hl] at h
    have h2 : ("no_limit" : String) = "exceeded" := h
    exact absurd h2 (by decide)
  | some l =>
    by_cases h0 : l = 0
    · unfold getLimitStatus at h
      rw [hl] at h
      simp only [h0, if_true] at h
      have h2 : ("no_limit" : String) = "exceeded" := h
      exact absurd h2 (by decide)
    · rw [getLimitStatus_of_limit s transactions currentDate l hl h0]

theorem checkLimitBreachNotifications_length_le (fmt : NumberFormat) (s : Storage)
    (transactions : List Transaction) (currentDate : JsDate) (now : Nat) :
    (checkLimitBreachNotifications fmt s transactions currentDate now).length ≤ 1 := by
  unfold checkLimitBreachNotifications
  by_cases hh : (getLimitStatus s transactions currentDate).hasLimit = true
  · by_cases hw : (getLimitStatus s transactions currentDate).status = "warning"
    · have he : ¬ (getLimitStatus s transactions currentDate).status = "exceeded" := by
        rw [hw]; decide
      by_cases hen : (getNotificationSettings s).enableWarningNotifications = true <;>
        simp [hh, hw, he, hen]
    · by_cases he : (getLimitStatus s transactions currentDate).status = "exceeded"
      · by_cases hen : (getNotificationSettings s).enableExceededNotifications = true <;>
          simp [hh, hw, he, hen]
      · simp [hh, hw, he]
  · simp [hh]

theorem checkLimitBreachNotifications_length_exceeded (fmt : NumberFormat) (s : Storage)
    (transactions : List Transaction) (currentDate : JsDate) (now : Nat)
    (he : (getLimitStatus s transactions currentDate).status = "exceeded")
    (hen : (getNotificationSettings s).enableExceededNotifications = true) :
    (checkLimitBreachNotifications fmt s transactions currentDate now).length = 1 := by
  have hh := getLimitStatus_hasLimit_of_exceeded s transactions currentDate he
  have hw : ¬ (getLimitStatus s transactions currentDate).status = "warning" := by
    rw [he]; decide
  unfold checkLimitBreachNotifications
  simp [hh, hw, he, hen]

theorem addNotification_activeNotifications (s : NotificationService)
    (type title message : String) (options : NotificationOptions) (id : String) (now : Nat) :
    (addNotification s type title message options id now).2.activeNotifications =
      s.activeNotifications ++ [(addNotification s type title message options id now).1] :=
  (notifyListeners_spec
    { s with
      activeNotifications := s.activeNotifications ++
        [(addNotification s type title message options id now).1] }).1

theorem limit_fold_count (now : Nat) (freshId : Nat → String)
    (items : List (Nat × Notification)) :
    ∀ st : NotificationService,
      List.countP (fun n => n.isLimitNotification == some true)
        (items.foldl
          (fun st entry =>
            (addNotification st entry.2.type entry.2.title entry.2.message
              { autoClose := some false, duration := none, isLimitNotification := some true
                priority := some "high" }
              (freshId entry.1) now).2)
          st).activeNotifications =
        List.countP (fun n => n.isLimitNotification == some true) st.activeNotifications +
          items.length := by
  induction items with
  | nil =>
    intro st
    simp
  | cons e rest ih =>
    intro st
    rw [List.foldl_cons, ih, addNotification_activeNotifications, List.countP_append]
    have h1 : List.countP (fun n => n.isLimitNotification == some true)
        [(addNotification st e.2.type e.2.title e.2.message
          { autoClose := some false, duration := none, isLimitNotification := some true
            priority := some "high" }
          (freshId e.1) now).1] = 1 := rfl
    rw [h1, List.length_cons]
    omega

theorem checkAndNotifyExpenseLimits_count (fmt : NumberFormat) (svc : NotificationService)
    (storage : Storage) (transactions : List Transaction) (currentDate : JsDate) (now : Nat)
    (freshId : Nat → String) :
    List.countP (fun n => n.isLimitNotification == some true)
      (checkAndNotifyExpenseLimits fmt svc storage transactions currentDate now
        freshId).2.activeNotifications =
      (checkLimitBreachNotifications fmt storage transactions currentDate now).length := by
  unfold checkAndNotifyExpenseLimits
  simp only
  rw [limit_fold_count, List.enum_length]
  have h0 : List.countP (fun n => n.isLimitNotification == some true)
      (svc.activeNotifications.filter
        (fun notification => !(notification.isLimitNotification == some true))) = 0 := by
    rw [List.countP_eq_zero]
    intro n hn
    have := (List.mem_filter.mp hn).2
    simpa using this
  rw [h0, zero_add]

/-- C20: for every notification list, when the limit status is `exceeded` under the default
settings, the list after `checkAndNotifyExpenseLimits` contains exactly one notification
flagged `isLimitNotification`, however many it contained before, and running the check
again with unchanged limit status again leaves exactly one; for any status and settings the
list never contains more than one flagged notification after the check. -/
theorem checkAndNotifyExpenseLimits_single_flag (fmt : NumberFormat)
    (svc : NotificationService) (storage : Storage) (transactions : List Transaction)
    (currentDate : JsDate) (now now2 : Nat) (freshId freshId2 : Nat → String) :
    ((getLimitStatus storage transactions currentDate).status = "exceeded" →
      getNotificationSettings storage = DEFAULT_NOTIFICATION_SETTINGS →
      List.countP (fun n => n.isLimitNotification == some true)
        (checkAndNotifyExpenseLimits fmt svc storage transactions currentDate now
          freshId).2.activeNotifications = 1 ∧
      (checkAndNotifyExpenseLimits fmt svc storage transactions currentDate now
        freshId).1 = true ∧
      List.countP (fun n => n.isLimitNotification == some true)
        (checkAndNotifyExpenseLimits fmt
          (checkAndNotifyExpenseLimits fmt svc storage transactions currentDate now
            freshId).2
          storage transactions currentDate now2 freshId2).2.activeNotifications = 1) ∧
    List.countP (fun n => n.isLimitNotification == some true)
      (checkAndNotifyExpenseLimits fmt svc storage transactions currentDate now
        freshId).2.activeNotifications ≤ 1 ∧
    List.countP (fun n => n.isLimitNotification == some true)
      (checkAndNotifyExpenseLimits fmt
        (checkAndNotifyExpenseLimits fmt svc storage transactions currentDate now
          freshId).2
        storage transactions currentDate now2 freshId2).2.activeNotifications ≤ 1 := by
  refine ⟨?_, ?_, ?_⟩
  · intro he hset
    have hen : (getNotificationSettings storage).enableExceededNotifications = true := by
      rw [hset]; rfl
    refine ⟨?_, ?_, ?_⟩
    · rw [checkAndNotifyExpenseLimits_count]
      exact checkLimitBreachNotifications_length_exceeded fmt storage transactions
        currentDate now he hen
    · have hlen := checkLimitBreachNotifications_length_exceeded fmt storage transactions
        currentDate now he hen
      unfold checkAndNotifyExpenseLimits
      simp only [hlen]
      decide
    · rw [checkAndNotifyExpenseLimits_count]
      exact checkLimitBreachNotifications_length_exceeded fmt storage transactions
        currentDate now2 he hen
  · rw [checkAndNotifyExpenseLimits_count]
    exact checkLimitBreachNotifications_length_le fmt storage transactions currentDate now
  · rw [checkAndNotifyExpenseLimits_count]
    exact checkLimitBreachNotifications_length_le fmt storage transactions currentDate now2

theorem checkAndNotifyExpenseLimits_single_flag_witness :
    List.countP (fun n => n.isLimitNotification == some true)
      (checkAndNotifyExpenseLimits ⟨fun _ => "", fun _ => ""⟩
        ⟨[createNotification "info" "Expense Added" "Rent" true 2000 5], [], [], []⟩
        ⟨some 1000, none, none⟩
        [⟨some "Rent", some (-1800), some ⟨2026, 10, 4⟩⟩] ⟨2026, 10, 20⟩ 7
        (fun _ => "a")).2.activeNotifications = 1 :=
  ((checkAndNotifyExpenseLimits_single_flag ⟨fun _ => "", fun _ => ""⟩
      ⟨[createNotification "info" "Expense Added" "Rent" true 2000 5], [], [], []⟩
      ⟨some 1000, none, none⟩
      [⟨some "Rent", some (-1800), some ⟨2026, 10, 4⟩⟩] ⟨2026, 10, 20⟩ 7 8
      (fun _ => "a") (fun _ => "b")).1
    (by
      rw [getLimitStatus_of_limit ⟨some 1000, none, none⟩
        [⟨some "Rent", some (-1800), some ⟨2026, 10, 4⟩⟩] ⟨2026, 10, 20⟩ 1000 rfl
        (by norm_num)]
      have hcur : getCurrentMonthExpenses
          [⟨some "Rent", some (-1800), some ⟨2026, 10, 4⟩⟩] ⟨2026, 10, 20⟩ = 1800 := by
        simp [getCurrentMonthExpenses, isExpense, absAmount, mathAbs]
      rw [hcur]
      norm_num)
    rfl).1

/-! ## Breach notifications: theorems -/

theorem getLimitStatus_status_cases (s : Storage) (transactions : List Transaction)
    (currentDate : JsDate) :
    ((getLimitStatus s transactions currentDate).hasLimit = false ∧
      (getLimitStatus s transactions currentDate).status = "no_limit") ∨
    ((getLimitStatus s transactions currentDate).hasLimit = true ∧
      ((getLimitStatus s transactions currentDate).status = "exceeded" ∨
       (getLimitStatus s transactions currentDate).status = "warning" ∨
       (getLimitStatus s transactions currentDate).status = "safe")) := by
  cases hl : getExpenseLimit s with
  | none =>
    rw [getLimitStatus_of_no_limit s transactions currentDate hl]
    exact Or.inl ⟨rfl, rfl⟩
  | some l =>
    by_cases h0 : l = 0
    · left
      unfold getLimitStatus
      rw [hl]
      simp only [h0, if_true, and_self]
    · right
      rw [getLimitStatus_of_limit s transactions currentDate l hl h0]
      refine ⟨rfl, ?_⟩
      simp only
      split_ifs
      · exact Or.inl rfl
      · exact Or.inr (Or.inl rfl)
      · exact Or.inr (Or.inr rfl)

theorem checkLimitBreachNotifications_eq (fmt : NumberFormat) (s : Storage)
    (transactions : List Transaction) (currentDate : JsDate) (now : Nat)
    (hh : (getLimitStatus s transactions currentDate).hasLimit = true) :
    checkLimitBreachNotifications fmt s transactions currentDate now =
      (if (getLimitStatus s transactions currentDate).status = "warning" ∧
          (getNotificationSettings s).enableWarningNotifications = true then
        [createNotification "warning" "Budget Alert"
          ("You have spent " ++
            fmt.numberToString (getLimitStatus s transactions currentDate).percentage ++
            "% of your monthly limit (₹" ++
            fmt.toFixed2 (getLimitStatus s transactions currentDate).currentExpenses ++
            " of ₹" ++
            (match (getLimitStatus s transactions currentDate).limitAmount with
              | some l => fmt.numberToString l
              | none => "null") ++ ")")
          false 0 now]
      else []) ++
      (if (getLimitStatus s transactions currentDate).status = "exceeded" ∧
          (getNotificationSettings s).enableExceededNotifications = true then
        [createNotification "error" "Budget Exceeded"
          ("You have exceeded your monthly limit by ₹" ++
            fmt.toFixed2 (getLimitStatus s transactions currentDate).exceededAmount)
          false 0 now]
      else []) := by
  unfold checkLimitBreachNotifications
  simp only [hh, Bool.not_true, Bool.false_eq_true, if_false]

theorem checkLimitBreachNotifications_no_limit (fmt : NumberFormat) (s : Storage)
    (transactions : List Transaction) (currentDate : JsDate) (now : Nat)
    (hh : (getLimitStatus s transactions currentDate).hasLimit = false) :
    checkLimitBreachNotifications fmt s transactions currentDate now = [] := by
  unfold checkLimitBreachNotifications
  simp only [hh, Bool.not_false, if_true]

/-- C21, as stated, fails: with `enableExceededNotifications` stored as `false`, a limit of
1000 and current-month expenses of 1800, the status is `exceeded` and
`checkLimitBreachNotifications` emits nothing. -/
theorem checkLimitBreachNotifications_disabled_example :
    (getLimitStatus ⟨some 1000, none, some ⟨none, none, some false, none⟩⟩
      [⟨some "Rent", some (-1800), some ⟨2026, 10, 4⟩⟩] ⟨2026, 10, 20⟩).status = "exceeded" ∧
    checkLimitBreachNotifications ⟨fun _ => "", fun _ => ""⟩
      ⟨some 1000, none, some ⟨none, none, some false, none⟩⟩
      [⟨some "Rent", some (-1800), some ⟨2026, 10, 4⟩⟩] ⟨2026, 10, 20⟩ 7 = [] := by
  have hcur : getCurrentMonthExpenses
      [⟨some "Rent", some (-1800), some ⟨2026, 10, 4⟩⟩] ⟨2026, 10, 20⟩ = 1800 := by
    simp [getCurrentMonthExpenses, isExpense, absAmount, mathAbs]
  have hst : (getLimitStatus ⟨some 1000, none, some ⟨none, none, some false, none⟩⟩
      [⟨some "Rent", some (-1800), some ⟨2026, 10, 4⟩⟩] ⟨2026, 10, 20⟩).status
        = "exceeded" := by
    rw [getLimitStatus_of_limit ⟨some 1000, none, some ⟨none, none, some false, none⟩⟩
      [⟨some "Rent", some (-1800), some ⟨2026, 10, 4⟩⟩] ⟨2026, 10, 20⟩ 1000 rfl
      (by norm_num), hcur]
    norm_num
  refine ⟨hst, ?_⟩
  have hh := getLimitStatus_hasLimit_of_exceeded _ _ _ hst
  rw [checkLimitBreachNotifications_eq _ _ _ _ _ hh, hst]
  simp [getNotificationSettings]

/-- C21, amended: `checkLimitBreachNotifications` emits exactly one notification of type
`warning` titled `Budget Alert` when the status is `warning` and the persisted settings
have `enableWarningNotifications` on, exactly one of type `error` titled `Budget Exceeded`
when the status is `exceeded` and `enableExceededNotifications` is on, and none in every
other case: status `safe` or `no_limit`, or the matching setting switched off.  Under the
default settings it emits a notification exactly when the status is `warning` or
`exceeded`. -/
theorem checkLimitBreachNotifications_spec (fmt : NumberFormat) (s : Storage)
    (transactions : List Transaction) (currentDate : JsDate) (now : Nat) :
    ((getLimitStatus s transactions currentDate).status = "warning" →
      (getNotificationSettings s).enableWarningNotifications = true →
      ∃ n, checkLimitBreachNotifications fmt s transactions currentDate now = [n] ∧
        n.type = "warning" ∧ n.title = "Budget Alert" ∧ n.autoClose = false ∧
        n.duration = 0) ∧
    ((getLimitStatus s transactions currentDate).status = "exceeded" →
      (getNotificationSettings s).enableExceededNotifications = true →
      ∃ n, checkLimitBreachNotifications fmt s transactions currentDate now = [n] ∧
        n.type = "error" ∧ n.title = "Budget Exceeded" ∧ n.autoClose = false ∧
        n.duration = 0) ∧
    ((getLimitStatus s transactions currentDate).status = "warning" →
      (getNotificationSettings s).enableWarningNotifications = false →
      checkLimitBreachNotifications fmt s transactions currentDate now = []) ∧
    ((getLimitStatus s transactions currentDate).status = "exceeded" →
      (getNotificationSettings s).enableExceededNotifications = false →
      checkLimitBreachNotifications fmt s transactions currentDate now = []) ∧
    ((getLimitStatus s transactions currentDate).status = "safe" ∨
      (getLimitStatus s transactions currentDate).status = "no_limit" →
      checkLimitBreachNotifications fmt s transactions currentDate now = []) ∧
    (getNotificationSettings s = DEFAULT_NOTIFICATION_SETTINGS →
      (checkLimitBreachNotifications fmt s transactions currentDate now ≠ [] ↔
        (getLimitStatus s transactions currentDate).status = "warning" ∨
        (getLimitStatus s transactions currentDate).status = "exceeded")) := by
  rcases getLimitStatus_status_cases s transactions currentDate with ⟨hh, hst⟩ | ⟨hh, hst⟩
  · have hnil := checkLimitBreachNotifications_no_limit fmt s transactions currentDate now hh
    have hw : ¬ (getLimitStatus s transactions currentDate).status = "warning" := by
      rw [hst]; decide
    have he : ¬ (getLimitStatus s transactions currentDate).status = "exceeded" := by
      rw [hst]; decide
    refine ⟨fun h => absurd h hw, fun h => absurd h he, fun _ _ => hnil, fun _ _ => hnil,
      fun _ => hnil, fun _ => ?_⟩
    rw [hnil]
    simp [hw, he]
  · rw [checkLimitBreachNotifications_eq fmt s transactions currentDate now hh]
    rcases hst with hst | hst | hst
    · have hw : ¬ (getLimitStatus s transactions currentDate).status = "warning" := by
        rw [hst]; decide
      have hs : ¬ (getLimitStatus s transactions currentDate).status = "safe" := by
        rw [hst]; decide
      have hn : ¬ (getLimitStatus s transactions currentDate).status = "no_limit" := by
        rw [hst]; decide
      refine ⟨fun h => absurd h hw, ?_, fun h => absurd h hw, ?_, ?_, ?_⟩
      · intro _ hen
        simp only [hw, false_and, if_false, hst, hen, and_self, if_true, List.nil_append]
        exact ⟨_, rfl, rfl, rfl, rfl, rfl⟩
      · intro _ hen
        simp [hw, hen]
      · rintro (h | h)
        · exact absurd h hs
        · exact absurd h hn
      · intro hset
        have hen : (getNotificationSettings s).enableExceededNotifications = true := by
          rw [hset]; rfl
        simp [hw, hst, hen]
    · have he : ¬ (getLimitStatus s transactions currentDate).status = "exceeded" := by
        rw [hst]; decide
      have hs : ¬ (getLimitStatus s transactions currentDate).status = "safe" := by
        rw [hst]; decide
      have hn : ¬ (getLimitStatus s transactions currentDate).status = "no_limit" := by
        rw [hst]; decide
      refine ⟨?_, fun h => absurd h he, ?_, fun h => absurd h he, ?_, ?_⟩
      · intro _ hen
        simp only [he, false_and, if_false, hst, hen, and_self, if_true, List.append_nil]
        exact ⟨_, rfl, rfl, rfl, rfl, rfl⟩
      · intro _ hen
        simp [he, hen]
      · rintro (h | h)
        · exact absurd h hs
        · exact absurd h hn
      · intro hset
        have hen : (getNotificationSettings s).enableWarningNotifications = true := by
          rw [hset]; rfl
        simp [he, hst, hen]
    · have he : ¬ (getLimitStatus s transactions currentDate).status = "exceeded" := by
        rw [hst]; decide
      have hw : ¬ (getLimitStatus s transactions currentDate).status = "warning" := by
        rw [hst]; decide
      refine ⟨fun h => absurd h hw, fun h => absurd h he, fun h => absurd h hw,
        fun h => absurd h he, ?_, ?_⟩
      · intro _
        simp [he, hw]
      · intro _
        simp [he, hw]

theorem checkLimitBreachNotifications_spec_witness :
    ∃ n, checkLimitBreachNotifications ⟨fun _ => "", fun _ => ""⟩ ⟨some 1000, none, none⟩
        [⟨some "Rent", some (-1800), some ⟨2026, 10, 4⟩⟩] ⟨2026, 10, 20⟩ 7 = [n] ∧
      n.type = "error" ∧ n.title = "Budget Exceeded" ∧ n.autoClose = false ∧
      n.duration = 0 :=
  (checkLimitBreachNotifications_spec ⟨fun _ => "", fun _ => ""⟩ ⟨some 1000, none, none⟩
      [⟨some "Rent", some (-1800), some ⟨2026, 10, 4⟩⟩] ⟨2026, 10, 20⟩ 7).2.1
    (by
      rw [getLimitStatus_of_limit ⟨some 1000, none, none⟩
        [⟨some "Rent", some (-1800), some ⟨2026, 10, 4⟩⟩] ⟨2026, 10, 20⟩ 1000 rfl
        (by norm_num)]
      have hcur : getCurrentMonthExpenses
          [⟨some "Rent", some (-1800), some ⟨2026, 10, 4⟩⟩] ⟨2026, 10, 20⟩ = 1800 := by
        simp [getCurrentMonthExpenses, isExpense, absAmount, mathAbs]
      rw [hcur]
      norm_num)
    rfl

/-! ## Transaction events and display cap: theorems -/

/-- C22: for every transaction, `notifyTransactionAdded` appends exactly one notification,
with `autoClose = true` and `duration = 2000`, of type `info` titled `Expense Added` when
`amount < 0` and of type `success` titled `Income Added` when `amount ≥ 0` (amount 0 counts
as income), and it starts the limit recheck `checkAndNotifyExpenseLimits` exactly when
`amount < 0`. -/
theorem notifyTransactionAdded_spec (toLocaleString : ℚ → String) (fmt : NumberFormat)
    (svc : NotificationService) (transaction : Transaction) (id : String) (now : Nat)
    (storage : Storage) (transactions : List Transaction) (currentDate : JsDate)
    (freshId : Nat → String) :
    ∃ n,
      (notifyTransactionAdded toLocaleString svc transaction id now).1.activeNotifications =
        svc.activeNotifications ++ [n] ∧
      n.autoClose = true ∧ n.duration = 2000 ∧ autoCloseDelay true n = some 2000 ∧
      n.isLimitNotification = none ∧
      (∀ a, transaction.amount = some a → a < 0 →
        n.type = "info" ∧ n.title = "Expense Added" ∧
        (notifyTransactionAdded toLocaleString svc transaction id now).2 = true ∧
        notifyTransactionAddedSettled toLocaleString fmt svc transaction id now storage
            transactions currentDate freshId =
          (checkAndNotifyExpenseLimits fmt
            (notifyTransactionAdded toLocaleString svc transaction id now).1
            storage transactions currentDate now freshId).2) ∧
      (∀ a, transaction.amount = some a → 0 ≤ a →
        n.type = "success" ∧ n.title = "Income Added" ∧
        (notifyTransactionAdded toLocaleString svc transaction id now).2 = false ∧
        notifyTransactionAddedSettled toLocaleString fmt svc transaction id now storage
            transactions currentDate freshId =
          (notifyTransactionAdded toLocaleString svc transaction id now).1) ∧
      (∀ a, transaction.amount = some a →
        ((notifyTransactionAdded toLocaleString svc transaction id now).2 = true ↔ a < 0)) := by
  refine ⟨_, addNotification_activeNotifications svc _ _ _ _ id now, rfl, rfl, rfl, rfl,
    ?_, ?_, ?_⟩
  · intro a ha hneg
    have he : isExpense transaction = true := by
      simp only [isExpense, ha, decide_eq_true_eq]
      exact hneg
    refine ⟨?_, ?_, ?_, ?_⟩
    · simp only [addNotification, he, if_true]
    · simp only [addNotification, he, if_true]
    · simp only [notifyTransactionAdded, he]
    · have h2 : (notifyTransactionAdded toLocaleString svc transaction id now).2 = true := by
        simp only [notifyTransactionAdded, he]
      simp only [notifyTransactionAddedSettled, h2, if_true]
  · intro a ha hpos
    have he : isExpense transaction = false := by
      simp only [isExpense, ha, decide_eq_false_iff_not, not_lt]
      exact hpos
    refine ⟨?_, ?_, ?_, ?_⟩
    · simp [addNotification, he]
    · simp [addNotification, he]
    · simp only [notifyTransactionAdded, he]
    · have h2 : (notifyTransactionAdded toLocaleString svc transaction id now).2 = false := by
        simp only [notifyTransactionAdded, he]
      simp [notifyTransactionAddedSettled, h2]
  · intro a ha
    simp only [notifyTransactionAdded, isExpense, ha, decide_eq_true_eq]

theorem notifyTransactionAdded_spec_witness :
    ∃ n,
      (notifyTransactionAdded (fun _ => "0") ⟨[], [], [], []⟩
        ⟨some "Refund", some 0, some ⟨2026, 10, 4⟩⟩ "n1" 7).1.activeNotifications = [n] ∧
      n.type = "success" ∧ n.title = "Income Added" :=
  (notifyTransactionAdded_spec (fun _ => "0") ⟨fun _ => "", fun _ => ""⟩ ⟨[], [], [], []⟩
      ⟨some "Refund", some 0, some ⟨2026, 10, 4⟩⟩ "n1" 7 ⟨none, none, none⟩ []
      ⟨2026, 10, 20⟩ (fun _ => "a")).imp
    (fun _ h => ⟨h.1, (h.2.2.2.2.2.2.1 0 rfl (le_refl 0)).1, (h.2.2.2.2.2.2.1 0 rfl (le_refl 0)).2.1⟩)

theorem visibleNotifications_of_pos (notifications : List Notification)
    (maxNotifications : Nat) (h : 1 ≤ maxNotifications) :
    visibleNotifications notifications maxNotifications =
      notifications.drop (notifications.length - maxNotifications) ∧
    (visibleNotifications notifications maxNotifications).length =
      min maxNotifications notifications.length ∧
    (visibleNotifications notifications maxNotifications).length ≤ maxNotifications := by
  have hneg : (-(maxNotifications : Int)) < 0 := by omega
  have heq : visibleNotifications notifications maxNotifications =
      notifications.drop (notifications.length - maxNotifications) := by
    simp [visibleNotifications, jsSlice, hneg]
  refine ⟨heq, ?_, ?_⟩
  · rw [heq, List.length_drop]; omega
  · rw [heq, List.length_drop]; omega

/-- C23 fails for the display cap 0: `notifications.slice (-0)` is `notifications.slice (0)`,
the whole list, so with one notification and `maxNotifications = 0` the visible list has one
entry instead of none. -/
theorem visibleNotifications_cap_zero :
    visibleNotifications [createNotification "info" "Expense Added" "Tea" true 2000 7] 0 =
      [createNotification "info" "Expense Added" "Tea" true 2000 7] ∧
    (visibleNotifications [createNotification "info" "Expense Added" "Tea" true 2000 7]
      0).length = 1 ∧
    ∀ notifications : List Notification, visibleNotifications notifications 0 = notifications := by
  refine ⟨rfl, rfl, ?_⟩
  intro notifications
  simp [visibleNotifications, jsSlice]

/-! ## Records with missing fields: theorems -/

theorem foldl_filter_noop {α β : Type} (f : β → α → β) (p : α → Bool)
    (h : ∀ b a, p a = false → f b a = b) (l : List α) :
    ∀ b, l.foldl f b = (l.filter p).foldl f b := by
  induction l with
  | nil => intro b; rfl
  | cons a rest ih =>
    intro b
    rw [List.foldl_cons, List.filter_cons]
    by_cases hp : p a = true
    · simp only [hp, if_true, List.foldl_cons]
      exact ih _
    · have hp2 : p a = false := by simpa using hp
      simp only [hp2, Bool.false_eq_true, if_false]
      rw [h b a hp2]
      exact ih _

theorem filter_isExpense_filter_complete (l : List Transaction) :
    (l.filter (fun t => t.amount.isSome && t.createdAt.isSome)).filter isExpense =
      (l.filter isExpense).filter (fun t => t.createdAt.isSome) := by
  rw [List.filter_filter, List.filter_filter]
  apply List.filter_congr
  intro t _
  cases ha : t.amount <;> cases hd : t.createdAt <;> simp [isExpense, ha]

theorem filter_isExpense_filter_amount (l : List Transaction) :
    (l.filter (fun t => t.amount.isSome)).filter isExpense = l.filter isExpense := by
  rw [List.filter_filter]
  apply List.filter_congr
  intro t _
  cases ha : t.amount <;> simp [isExpense, ha]

theorem calculateMonthlyData_filter_complete (transactions : List Transaction) (year : Int) :
    calculateMonthlyData transactions year =
      calculateMonthlyData
        (transactions.filter (fun t => t.amount.isSome && t.createdAt.isSome)) year := by
  unfold calculateMonthlyData
  rw [filter_isExpense_filter_complete]
  apply foldl_filter_noop
  intro b t ht
  cases hd : t.createdAt with
  | none => rfl
  | some d => rw [hd] at ht; cases ht

theorem calculateDailyData_filter_complete (transactions : List Transaction) (year : Int)
    (month : Fin 12) :
    calculateDailyData transactions year month =
      calculateDailyData
        (transactions.filter (fun t => t.amount.isSome && t.createdAt.isSome)) year month := by
  unfold calculateDailyData
  rw [filter_isExpense_filter_complete]
  apply foldl_filter_noop
  intro b t ht
  cases hd : t.createdAt with
  | none => rfl
  | some d => rw [hd] at ht; cases ht

theorem getCategoryBreakdown_filter_amount (toLowerCase : String → String)
    (transactions : List Transaction) :
    getCategoryBreakdown toLowerCase transactions =
      getCategoryBreakdown toLowerCase (transactions.filter (fun t => t.amount.isSome)) := by
  unfold getCategoryBreakdown
  rw [filter_isExpense_filter_amount]

/-- C24, as stated, fails: on a single expense record without `text`,
`getCategoryBreakdown` throws a `TypeError` instead of skipping the record, and
`calculateMonthlyData` counts the record (entry 5 for January) although it is malformed. -/
theorem malformed_record_without_text :
    getCategoryBreakdown (fun text => text) [⟨none, some (-5), some ⟨2026, 0, 3⟩⟩] =
      .error "TypeError: Cannot read properties of undefined (reading 'toLowerCase')" ∧
    (calculateMonthlyData [⟨none, some (-5), some ⟨2026, 0, 3⟩⟩] 2026)[0]? = some 5 ∧
    (calculateMonthlyData [] 2026)[0]? = some 0 := by
  refine ⟨rfl, ?_, rfl⟩
  rw [(calculateMonthlyData_getElem _ 2026).2 0 (by decide)]
  simp [monthContribution]

/-- C24, amended: `calculateMonthlyData` and `calculateDailyData` never fail and return the
same arrays as on the list without the records that lack `amount` or `createdAt`; a record
that lacks only `text` is counted by them.  `getCategoryBreakdown` returns the same result
as on the list without the records that lack `amount`, does not look at `createdAt`,
returns normally when every expense record has a `text`, and throws a `TypeError` when
some record with a negative amount lacks `text`. -/
theorem malformed_records_spec (toLowerCase : String → String)
    (transactions : List Transaction) (year : Int) (month : Fin 12) :
    calculateMonthlyData transactions year =
      calculateMonthlyData
        (transactions.filter (fun t => t.amount.isSome && t.createdAt.isSome)) year ∧
    calculateDailyData transactions year month =
      calculateDailyData
        (transactions.filter (fun t => t.amount.isSome && t.createdAt.isSome)) year month ∧
    getCategoryBreakdown toLowerCase transactions =
      getCategoryBreakdown toLowerCase (transactions.filter (fun t => t.amount.isSome)) ∧
    ((∀ t ∈ transactions, isExpense t = true → ∃ raw, t.text = some raw) →
      ∃ m, getCategoryBreakdown toLowerCase transactions = .ok m) ∧
    ((∃ t ∈ transactions, isExpense t = true ∧ t.text = none) →
      getCategoryBreakdown toLowerCase transactions =
        .error "TypeError: Cannot read properties of undefined (reading 'toLowerCase')") ∧
    (∀ a d, a < 0 → d.year = year →
      (calculateMonthlyData (⟨none, some a, some d⟩ :: transactions) year)[d.month.val]? =
        some (|a| + (transactions.map (monthContribution year d.month.val)).sum)) := by
  refine ⟨calculateMonthlyData_filter_complete transactions year,
    calculateDailyData_filter_complete transactions year month,
    getCategoryBreakdown_filter_amount toLowerCase transactions, ?_,
    getCategoryBreakdown_error toLowerCase transactions, ?_⟩
  · intro h
    obtain ⟨m, hm, _⟩ := getCategoryBreakdown_ok toLowerCase transactions h
    exact ⟨m, hm⟩
  · intro a d ha hy
    rw [(calculateMonthlyData_getElem _ year).2 d.month.val d.month.isLt]
    simp [monthContribution, ha, hy]

theorem malformed_records_spec_witness :
    getCategoryBreakdown (fun text => text) [⟨none, some (-5), some ⟨2026, 0, 3⟩⟩] =
      .error "TypeError: Cannot read properties of undefined (reading 'toLowerCase')" :=
  (malformed_records_spec (fun text => text) [⟨none, some (-5), some ⟨2026, 0, 3⟩⟩] 2026
    0).2.2.2.2.1
    ⟨⟨none, some (-5), some ⟨2026, 0, 3⟩⟩, List.mem_cons_self _ _,
      by simp [isExpense], rfl⟩

/-! ## Current-month expenses: theorems -/

theorem foldl_add_absAmount (l : List Transaction) :
    ∀ init : ℚ, l.foldl (fun total transaction => total + absAmount transaction) init =
      init + (l.map absAmount).sum := by
  induction l with
  | nil => intro init; simp
  | cons t rest ih =>
    intro init
    rw [List.foldl_cons, ih, List.map_cons, List.sum_cons]
    ring

theorem getCurrentMonthExpenses_eq_sum (transactions : List Transaction)
    (currentDate : JsDate) :
    getCurrentMonthExpenses transactions currentDate =
      (transactions.map
        (monthContribution currentDate.year currentDate.month.val)).sum := by
  unfold getCurrentMonthExpenses
  simp only
  rw [foldl_add_absAmount, zero_add]
  induction transactions with
  | nil => rfl
  | cons t rest ih =>
    rw [List.filter_cons, List.map_cons, List.sum_cons, ← ih]
    cases hd : t.createdAt with
    | none =>
      cases ha : t.amount <;> simp [monthContribution, hd, ha]
    | some d =>
      cases ha : t.amount with
      | none => simp [monthContribution, hd, ha, isExpense]
      | some a =>
        by_cases hc : a < 0 ∧ d.year = currentDate.year ∧ d.month.val = currentDate.month.val
        · have hm : d.month = currentDate.month := Fin.ext hc.2.2
          simp [monthContribution, hd, ha, isExpense, hc.1, hc.2.1, hm, absAmount,
            mathAbs_eq_abs]
        · have hf : (decide (d.month = currentDate.month) &&
              decide (d.year = currentDate.year) && isExpense t) = false := by
            simp only [isExpense, ha, Bool.and_eq_false_iff, decide_eq_false_iff_not,
              Bool.and_eq_false_imp, decide_eq_true_eq]
            by_contra hcon
            push_neg at hcon
            exact hc ⟨hcon.2, hcon.1.2, by rw [hcon.1.1]⟩
          simp only [hf, Bool.false_eq_true, if_false]
          simp [monthContribution, hd, ha, hc]

/-- C25: for every transaction list and every clock value with calendar year `y` and month
`m`, `getCurrentMonthExpenses` is the sum of `|amount|` over the transactions with
`amount < 0` whose `createdAt` lies in month `m` of year `y`, which is entry `m` of
`calculateMonthlyData (transactions, y)`; an income transaction or an expense of another
month or year can be dropped from the list without changing it. -/
theorem getCurrentMonthExpenses_spec (transactions : List Transaction)
    (currentDate : JsDate) :
    getCurrentMonthExpenses transactions currentDate =
      (transactions.map
        (monthContribution currentDate.year currentDate.month.val)).sum ∧
    (calculateMonthlyData transactions currentDate.year)[currentDate.month.val]? =
      some (getCurrentMonthExpenses transactions currentDate) ∧
    (∀ before t after, transactions = before ++ t :: after →
      ((∀ a, t.amount = some a → 0 ≤ a) ∨
       (∀ d, t.createdAt = some d →
          d.year ≠ currentDate.year ∨ d.month ≠ currentDate.month)) →
      getCurrentMonthExpenses transactions currentDate =
        getCurrentMonthExpenses (before ++ after) currentDate) := by
  refine ⟨getCurrentMonthExpenses_eq_sum transactions currentDate, ?_, ?_⟩
  · rw [getCurrentMonthExpenses_eq_sum]
    exact (calculateMonthlyData_getElem transactions currentDate.year).2
      currentDate.month.val currentDate.month.isLt
  · intro before t after hsplit hskip
    rw [getCurrentMonthExpenses_eq_sum, getCurrentMonthExpenses_eq_sum, hsplit]
    have hz : monthContribution currentDate.year currentDate.month.val t = 0 := by
      unfold monthContribution
      cases ha : t.amount with
      | none => rfl
      | some a =>
        cases hd : t.createdAt with
        | none => rfl
        | some d =>
          rcases hskip with h | h
          · have := h a ha
            simp [not_lt.mpr this]
          · rcases h d hd with h1 | h1
            · simp [h1]
            · have h2 : ¬ d.month.val = currentDate.month.val := fun h3 => h1 (Fin.ext h3)
              simp [h2]
    simp [hz]

theorem getCurrentMonthExpenses_spec_witness :
    getCurrentMonthExpenses
        [⟨some "Salary credited", some 50000, some ⟨2026, 9, 1⟩⟩,
         ⟨some "Grocery shopping", some (-3200), some ⟨2026, 9, 3⟩⟩] ⟨2026, 9, 20⟩ =
      getCurrentMonthExpenses
        ([] ++ [⟨some "Grocery shopping", some (-3200), some ⟨2026, 9, 3⟩⟩]) ⟨2026, 9, 20⟩ :=
  (getCurrentMonthExpenses_spec
      [⟨some "Salary credited", some 50000, some ⟨2026, 9, 1⟩⟩,
       ⟨some "Grocery shopping", some (-3200), some ⟨2026, 9, 3⟩⟩] ⟨2026, 9, 20⟩).2.2
    [] ⟨some "Salary credited", some 50000, some ⟨2026, 9, 1⟩⟩
    [⟨some "Grocery shopping", some (-3200), some ⟨2026, 9, 3⟩⟩] rfl
    (Or.inl (by
      intro a ha
      cases ha
      norm_num))

/-! ## Category chart labels: theorems -/

theorem zip_fst_snd {α β : Type} (l : List (α × β)) :
    (l.map Prod.fst).zip (l.map Prod.snd) = l := by
  induction l with
  | nil => rfl
  | cons a rest ih => simp [ih]

theorem getCategoryAnalytics_of_ok (toLowerCase : String → String)
    (transactions : List Transaction) (m : List (String × ℚ))
    (h : getCategoryBreakdown toLowerCase transactions = .ok m) :
    getCategoryAnalytics toLowerCase transactions =
      .ok { labels := m.map Prod.fst, data := m.map Prod.snd
            backgroundColor := categoryColors.take (m.map Prod.fst).length } := by
  unfold getCategoryAnalytics
  rw [h]

/-- C26 fails on the code: the labels of `getCategoryAnalytics` follow the input order, and
the colours are paired with them by index.  A Food expense followed by a Transport expense
gives the labels Food, Transport, with Food drawn in `rgba(239, 68, 68, 0.8)` and Transport
in `rgba(59, 130, 246, 0.8)`, the colours `#ef4444` and `#3b82f6` that `colorMap` gives to
Food and to Transport; the same two records in the other order give the labels Transport,
Food, with Transport drawn in the colour of Food and Food in the colour of Transport. -/
theorem getCategoryAnalytics_labels_follow_input_order :
    (getCategoryAnalytics (fun text => text)
      [⟨some "tea", some (-5), some ⟨2026, 0, 3⟩⟩,
       ⟨some "bus", some (-7), some ⟨2026, 0, 4⟩⟩]).map (fun c => c.labels) =
      .ok ["Food", "Transport"] ∧
    (getCategoryAnalytics (fun text => text)
      [⟨some "bus", some (-7), some ⟨2026, 0, 4⟩⟩,
       ⟨some "tea", some (-5), some ⟨2026, 0, 3⟩⟩]).map (fun c => c.labels) =
      .ok ["Transport", "Food"] ∧
    (getCategoryAnalytics (fun text => text)
      [⟨some "tea", some (-5), some ⟨2026, 0, 3⟩⟩,
       ⟨some "bus", some (-7), some ⟨2026, 0, 4⟩⟩]).map
        (fun c => c.labels.zip c.backgroundColor) =
      .ok [("Food", "rgba(239, 68, 68, 0.8)"), ("Transport", "rgba(59, 130, 246, 0.8)")] ∧
    (getCategoryAnalytics (fun text => text)
      [⟨some "bus", some (-7), some ⟨2026, 0, 4⟩⟩,
       ⟨some "tea", some (-5), some ⟨2026, 0, 3⟩⟩]).map
        (fun c => c.labels.zip c.backgroundColor) =
      .ok [("Transport", "rgba(239, 68, 68, 0.8)"), ("Food", "rgba(59, 130, 246, 0.8)")] ∧
    colorMap.lookup "Food" = some "#ef4444" ∧
    colorMap.lookup "Transport" = some "#3b82f6" := by
  refine ⟨?_, ?_, ?_, ?_, ?_, ?_⟩ <;> rfl

/-- In exact arithmetic, for a transaction list whose expense records have a text and a
permutation of it, the labels of `getCategoryAnalytics` for the two lists are permutations
of each other, without repetition, and a label is paired with the same total in both. -/
theorem getCategoryAnalytics_labels_perm (toLowerCase : String → String)
    (l1 l2 : List Transaction) (h : l1.Perm l2)
    (htext : ∀ t ∈ l1, isExpense t = true → ∃ raw, t.text = some raw) :
    ∃ c1 c2,
      getCategoryAnalytics toLowerCase l1 = .ok c1 ∧
      getCategoryAnalytics toLowerCase l2 = .ok c2 ∧
      c1.labels.Perm c2.labels ∧
      c1.labels.Nodup ∧ c2.labels.Nodup ∧
      c1.labels.length = c1.data.length ∧ c2.labels.length = c2.data.length ∧
      (∀ label, objGet (c1.labels.zip c1.data) label =
        objGet (c2.labels.zip c2.data) label) := by
  have htext2 : ∀ t ∈ l2, isExpense t = true → ∃ raw, t.text = some raw :=
    fun t ht => htext t (h.mem_iff.mpr ht)
  obtain ⟨m1, hm1, hn1, hk1, _⟩ := getCategoryBreakdown_ok toLowerCase l1 htext
  obtain ⟨m2, hm2, hn2, hk2, _⟩ := getCategoryBreakdown_ok toLowerCase l2 htext2
  refine ⟨_, _, getCategoryAnalytics_of_ok toLowerCase l1 m1 hm1,
    getCategoryAnalytics_of_ok toLowerCase l2 m2 hm2, ?_, hn1, hn2, ?_, ?_, ?_⟩
  · rw [List.perm_ext_iff_of_nodup hn1 hn2]
    intro c
    rw [hk1 c, hk2 c]
    constructor
    · rintro ⟨t, ht, hrest⟩
      exact ⟨t, h.mem_iff.mp ht, hrest⟩
    · rintro ⟨t, ht, hrest⟩
      exact ⟨t, h.mem_iff.mpr ht, hrest⟩
  · simp
  · simp
  · intro label
    simp only [zip_fst_snd]
    have hp := getCategoryBreakdown_perm toLowerCase l1 l2 h label
    rw [hm1, hm2] at hp
    exact Except.ok.inj hp

/-! ## Dispatcher invariant: theorems -/

theorem lastDelivered_notifyListeners (svc : NotificationService) :
    listenersUpToDate (notifyListeners svc) := by
  intro l hl
  obtain ⟨hact, hlis, hcalls⟩ := notifyListeners_spec svc
  rw [hlis] at hl
  rw [hcalls, hact]
  unfold lastDelivered
  rw [List.filter_append]
  have hmem : (l.id, svc.activeNotifications) ∈
      (svc.listeners.map (fun l => (l.id, svc.activeNotifications))).filter
        (fun call => call.1 == l.id) := by
    rw [List.mem_filter]
    exact ⟨List.mem_map_of_mem _ hl, by simp⟩
  have hne : (svc.listeners.map (fun l => (l.id, svc.activeNotifications))).filter
      (fun call => call.1 == l.id) ≠ [] := List.ne_nil_of_mem hmem
  rw [List.getLast?_append_of_ne_nil _ hne]
  cases hlast : ((svc.listeners.map (fun l => (l.id, svc.activeNotifications))).filter
      (fun call => call.1 == l.id)).getLast? with
  | none => exact absurd (List.getLast?_eq_none_iff.mp hlast) hne
  | some x =>
    obtain ⟨ys, hys⟩ := List.getLast?_eq_some_iff.mp hlast
    have hx : x ∈ (svc.listeners.map (fun l => (l.id, svc.activeNotifications))).filter
        (fun call => call.1 == l.id) := by
      rw [hys]; simp
    obtain ⟨l2, _, rfl⟩ := List.mem_map.mp (List.mem_of_mem_filter hx)
    rfl

theorem listenersUpToDate_after_publishing (svc : NotificationService)
    (type title message : String) (options : NotificationOptions) (id : String) (now : Nat)
    (notificationId : String) :
    listenersUpToDate (addNotification svc type title message options id now).2 ∧
    listenersUpToDate (removeNotification svc notificationId) ∧
    listenersUpToDate (clearAllNotifications svc) :=
  ⟨lastDelivered_notifyListeners _, lastDelivered_notifyListeners _,
    lastDelivered_notifyListeners _⟩

/-- C27 fails for `checkAndNotifyExpenseLimits`: with one subscribed listener that was last
given the list holding a limit notification, and no limit stored any more (status
`no_limit`), the check removes the limit notification from `activeNotifications` without
calling `notifyListeners`, so the list last delivered to the listener still holds it. -/
theorem checkAndNotifyExpenseLimits_leaves_listeners_stale :
    listenersUpToDate
      ⟨[⟨"n1", "error", "Budget Exceeded", "over", 5, false, 5000, false, some true,
          some "high"⟩],
        [⟨1, fun _ => false⟩],
        [(1, [⟨"n1", "error", "Budget Exceeded", "over", 5, false, 5000, false, some true,
          some "high"⟩])], []⟩ ∧
    (getLimitStatus ⟨none, none, none⟩ [] ⟨2026, 10, 20⟩).status = "no_limit" ∧
    (checkAndNotifyExpenseLimits ⟨fun _ => "", fun _ => ""⟩
      ⟨[⟨"n1", "error", "Budget Exceeded", "over", 5, false, 5000, false, some true,
          some "high"⟩],
        [⟨1, fun _ => false⟩],
        [(1, [⟨"n1", "error", "Budget Exceeded", "over", 5, false, 5000, false, some true,
          some "high"⟩])], []⟩
      ⟨none, none, none⟩ [] ⟨2026, 10, 20⟩ 9 (fun _ => "n2")).2.activeNotifications = [] ∧
    lastDelivered
      (checkAndNotifyExpenseLimits ⟨fun _ => "", fun _ => ""⟩
        ⟨[⟨"n1", "error", "Budget Exceeded", "over", 5, false, 5000, false, some true,
            some "high"⟩],
          [⟨1, fun _ => false⟩],
          [(1, [⟨"n1", "error", "Budget Exceeded", "over", 5, false, 5000, false, some true,
            some "high"⟩])], []⟩
        ⟨none, none, none⟩ [] ⟨2026, 10, 20⟩ 9 (fun _ => "n2")).2.calls 1 =
      some [⟨"n1", "error", "Budget Exceeded", "over", 5, false, 5000, false, some true,
        some "high"⟩] ∧
    ¬ listenersUpToDate
      (checkAndNotifyExpenseLimits ⟨fun _ => "", fun _ => ""⟩
        ⟨[⟨"n1", "error", "Budget Exceeded", "over", 5, false, 5000, false, some true,
            some "high"⟩],
          [⟨1, fun _ => false⟩],
          [(1, [⟨"n1", "error", "Budget Exceeded", "over", 5, false, 5000, false, some true,
            some "high"⟩])], []⟩
        ⟨none, none, none⟩ [] ⟨2026, 10, 20⟩ 9 (fun _ => "n2")).2 := by
  refine ⟨?_, rfl, rfl, rfl, ?_⟩
  · intro l hl
    simp only [List.mem_singleton] at hl
    subst hl
    rfl
  · intro h
    have h1 := h ⟨1, fun _ => false⟩ (List.mem_singleton.mpr rfl)
    have h2 : lastDelivered
        (checkAndNotifyExpenseLimits ⟨fun _ => "", fun _ => ""⟩
          ⟨[⟨"n1", "error", "Budget Exceeded", "over", 5, false, 5000, false, some true,
              some "high"⟩],
            [⟨1, fun _ => false⟩],
            [(1, [⟨"n1", "error", "Budget Exceeded", "over", 5, false, 5000, false,
              some true, some "high"⟩])], []⟩
          ⟨none, none, none⟩ [] ⟨2026, 10, 20⟩ 9 (fun _ => "n2")).2.calls 1 =
        some [⟨"n1", "error", "Budget Exceeded", "over", 5, false, 5000, false, some true,
          some "high"⟩] := rfl
    rw [h2] at h1
    have h3 := Option.some.inj h1
    have h4 := congrArg List.length h3
    exact absurd h4 (by decide)

/-! ## The two limit-status implementations: theorems -/

/-- C28: with the warning threshold 80 in force, `profileService.checkLimitStatus` and
`expenseLimitService.getLimitStatus` return, for every stored limit and every transaction
list, the same status, the same `currentExpenses` and the same `limitAmount`, and the same
`remainingAmount` whenever a limit is in force (`hasLimit`). -/
theorem checkLimitStatus_agrees (s : Storage) (transactions : List Transaction)
    (currentDate : JsDate) (hthr : (getNotificationSettings s).warningThreshold = 80) :
    (checkLimitStatus s transactions currentDate).status =
      (getLimitStatus s transactions currentDate).status ∧
    (checkLimitStatus s transactions currentDate).currentExpenses =
      (getLimitStatus s transactions currentDate).currentExpenses ∧
    (checkLimitStatus s transactions currentDate).limitAmount =
      (getLimitStatus s transactions currentDate).limitAmount ∧
    ((getLimitStatus s transactions currentDate).hasLimit = true →
      (checkLimitStatus s transactions currentDate).remainingAmount =
        some (getLimitStatus s transactions currentDate).remainingAmount) ∧
    (∀ L, s.monthlyExpenseLimit = some L → 0 < L →
      (getLimitStatus s transactions currentDate).hasLimit = true ∧
      (checkLimitStatus s transactions currentDate).remainingAmount =
        some (getLimitStatus s transactions currentDate).remainingAmount) := by
  have hmain :
      (checkLimitStatus s transactions currentDate).status =
        (getLimitStatus s transactions currentDate).status ∧
      (checkLimitStatus s transactions currentDate).currentExpenses =
        (getLimitStatus s transactions currentDate).currentExpenses ∧
      (checkLimitStatus s transactions currentDate).limitAmount =
        (getLimitStatus s transactions currentDate).limitAmount ∧
      ((getLimitStatus s transactions currentDate).hasLimit = true →
        (checkLimitStatus s transactions currentDate).remainingAmount =
          some (getLimitStatus s transactions currentDate).remainingAmount) := by
    cases hl : s.monthlyExpenseLimit with
    | none =>
      have hg : getExpenseLimit s = none := hl
      rw [getLimitStatus_of_no_limit s transactions currentDate hg]
      unfold checkLimitStatus
      rw [hl]
      exact ⟨rfl, rfl, rfl, fun h => by cases h⟩
    | some l =>
      by_cases h0 : l = 0
      · subst h0
        simp [checkLimitStatus, getLimitStatus, getExpenseLimit, hl]
      · have hg : getExpenseLimit s = some l := hl
        rw [getLimitStatus_of_limit s transactions currentDate l hg h0]
        unfold checkLimitStatus
        rw [hl]
        simp only [h0, if_false, hthr]
        exact ⟨trivial, trivial, trivial, fun _ => trivial⟩
  refine ⟨hmain.1, hmain.2.1, hmain.2.2.1, hmain.2.2.2, ?_⟩
  intro L hL hpos
  have hg : getExpenseLimit s = some L := hL
  have hh : (getLimitStatus s transactions currentDate).hasLimit = true := by
    rw [getLimitStatus_of_limit s transactions currentDate L hg hpos.ne']
  exact ⟨hh, hmain.2.2.2 hh⟩

theorem checkLimitStatus_agrees_witness :
    (checkLimitStatus ⟨some 1000, none, none⟩
      [⟨some "Rent", some (-850), some ⟨2026, 10, 4⟩⟩] ⟨2026, 10, 20⟩).status =
    (getLimitStatus ⟨some 1000, none, none⟩
      [⟨some "Rent", some (-850), some ⟨2026, 10, 4⟩⟩] ⟨2026, 10, 20⟩).status :=
  (checkLimitStatus_agrees ⟨some 1000, none, none⟩
    [⟨some "Rent", some (-850), some ⟨2026, 10, 4⟩⟩] ⟨2026, 10, 20⟩ rfl).1

/-! ## Spending insights and chart colours: theorems -/

theorem getDaysRemainingInMonth_pos_iff (currentDate : JsDate)
    (hne : ¬ (currentDate.year = 0 ∧ currentDate.month.val = 1)) :
    (1 ≤ getDaysRemainingInMonth currentDate ↔
      currentDate.day < daysInGregorianMonth currentDate.year currentDate.month) := by
  unfold getDaysRemainingInMonth
  simp only
  rw [daysInMonth_eq_gregorian currentDate.year currentDate.month hne]
  omega

/-- C29 fails on the last day of a month: on 31 January 2026 `getDaysRemainingInMonth` is
`31 - 31 = 0`, so with a stored limit `recommendedDailySpending` is a division by zero:
`Infinity` when some of the limit remains and `NaN` when nothing remains. -/
theorem getSpendingInsights_last_day_of_month :
    (⟨2026, 0, 31⟩ : JsDate).valid ∧
    getDaysRemainingInMonth ⟨2026, 0, 31⟩ = 0 ∧
    (getSpendingInsights ⟨some 1000, none, none⟩ [] ⟨2026, 0, 31⟩).daysRemaining = 0 ∧
    (getLimitStatus ⟨some 1000, none, none⟩ [] ⟨2026, 0, 31⟩).hasLimit = true ∧
    (getSpendingInsights ⟨some 1000, none, none⟩ []
      ⟨2026, 0, 31⟩).recommendedDailySpending = some JsQuotient.posInfinity ∧
    (getSpendingInsights ⟨some 1000, none, none⟩
      [⟨some "Rent", some (-1200), some ⟨2026, 0, 3⟩⟩]
      ⟨2026, 0, 31⟩).recommendedDailySpending = some JsQuotient.nan := by
  have hdays : getDaysRemainingInMonth ⟨2026, 0, 31⟩ = 0 := by decide
  have hs1 := getLimitStatus_of_limit ⟨some 1000, none, none⟩ [] ⟨2026, 0, 31⟩ 1000 rfl
    (by norm_num)
  have hs2 := getLimitStatus_of_limit ⟨some 1000, none, none⟩
    [⟨some "Rent", some (-1200), some ⟨2026, 0, 3⟩⟩] ⟨2026, 0, 31⟩ 1000 rfl (by norm_num)
  have hc1 : getCurrentMonthExpenses [] ⟨2026, 0, 31⟩ = 0 := rfl
  have hc2 : getCurrentMonthExpenses
      [⟨some "Rent", some (-1200), some ⟨2026, 0, 3⟩⟩] ⟨2026, 0, 31⟩ = 1200 := by
    simp [getCurrentMonthExpenses, isExpense, absAmount, mathAbs]
  refine ⟨by decide, hdays, hdays, ?_, ?_, ?_⟩
  · simp [hs1]
  · unfold getSpendingInsights
    simp only [hs1, hc1, hdays, if_true]
    simp [jsDivide, mathMax]
  · unfold getSpendingInsights
    simp only [hs2, hc2, hdays, if_true]
    simp [jsDivide, mathMax]
    norm_num

theorem getCategoryAnalytics_lengths (toLowerCase : String → String)
    (transactions : List Transaction) (c : CategoryChartData)
    (h : getCategoryAnalytics toLowerCase transactions = .ok c) :
    c.data.length = c.labels.length ∧
    c.backgroundColor.length = min 7 c.labels.length := by
  unfold getCategoryAnalytics at h
  cases hb : getCategoryBreakdown toLowerCase transactions with
  | error e => rw [hb] at h; cases h
  | ok m =>
    rw [hb] at h
    have hc := Except.ok.inj h
    subst hc
    constructor
    · simp
    · simp only [List.length_take, List.length_map]
      have h7 : categoryColors.length = 7 := rfl
      rw [h7, min_comm]

/-- C30 fails when all 8 categories occur: `colors` has 7 entries, so with one expense in
each of Food, Transport, Entertainment, Shopping, Bills, Healthcare, Education and Other the
labels and data arrays have 8 entries and `backgroundColor` has 7; the last label, Other,
has no colour. -/
theorem getCategoryAnalytics_eight_categories :
    (getCategoryAnalytics (fun text => text)
      [⟨some "food", some (-1), none⟩, ⟨some "bus", some (-1), none⟩,
       ⟨some "movie", some (-1), none⟩, ⟨some "mall", some (-1), none⟩,
       ⟨some "rent", some (-1), none⟩, ⟨some "doctor", some (-1), none⟩,
       ⟨some "exam", some (-1), none⟩, ⟨some "gift", some (-1), none⟩]).map
      (fun c => (c.labels, c.data.length, c.backgroundColor.length)) =
      .ok (["Food", "Transport", "Entertainment", "Shopping", "Bills", "Healthcare",
        "Education", "Other"], 8, 7) ∧
    categoryColors.length = 7 := by
  constructor <;> rfl

/-! ## Double arithmetic: rounding -/

theorem roundHalfEven_eq (q : ℚ) (n : ℤ) (h1 : (n : ℚ) - 1 / 2 < q) (h2 : q < n + 1 / 2) :
    roundHalfEven q = n := by
  unfold roundHalfEven
  have hf1 := Int.floor_le q
  have hf2 := Int.lt_floor_add_one q
  have hcase : ⌊q⌋ = n ∨ ⌊q⌋ = n - 1 := by
    have a1 : ((n : ℚ) - 1) < (⌊q⌋ : ℚ) + 1 := by linarith
    have a2 : (⌊q⌋ : ℚ) < n + 1 := by linarith
    have b1 : n - 1 < ⌊q⌋ + 1 := by exact_mod_cast a1
    have b2 : ⌊q⌋ < n + 1 := by exact_mod_cast a2
    omega
  rcases hcase with h | h
  · rw [h]
    have : q - (n : ℚ) < 1 / 2 := by linarith
    rw [if_pos this]
  · rw [h]
    have hc : ((n - 1 : ℤ) : ℚ) = (n : ℚ) - 1 := by push_cast; ring
    have h3 : ¬ (q - ((n - 1 : ℤ) : ℚ) < 1 / 2) := by rw [hc]; linarith
    have h4 : 1 / 2 < q - ((n - 1 : ℤ) : ℚ) := by rw [hc]; linarith
    rw [if_neg h3, if_pos h4]
    ring

theorem doubleExponent_eq (x : ℚ) (e : ℤ) (he : -1022 ≤ e) (h1 : (2 : ℚ) ^ e ≤ |x|)
    (h2 : |x| < (2 : ℚ) ^ (e + 1)) : doubleExponent x = e := by
  unfold doubleExponent
  have hpos : 0 < |x| := lt_of_lt_of_le (by positivity) h1
  have a1 : e ≤ Int.log 2 |x| := (Int.zpow_le_iff_le_log (by norm_num) hpos).mp (by exact_mod_cast h1)
  have a2 : Int.log 2 |x| < e + 1 := (Int.lt_zpow_iff_log_lt (by norm_num) hpos).mp (by exact_mod_cast h2)
  have : Int.log 2 |x| = e := by omega
  rw [this]
  exact max_eq_left he

theorem roundToDouble_eq (x : ℚ) (e n : ℤ) (u : ℚ) (hu : u = 2 ^ (e - 52)) (he : -1022 ≤ e)
    (h1 : (2 : ℚ) ^ e ≤ |x|) (h2 : |x| < (2 : ℚ) ^ (e + 1))
    (hn1 : ((n : ℚ) - 1 / 2) * u < x) (hn2 : x < ((n : ℚ) + 1 / 2) * u) :
    roundToDouble x = n * u := by
  unfold roundToDouble
  rw [doubleExponent_eq x e he h1 h2, ← hu]
  have hupos : 0 < u := by rw [hu]; positivity
  rw [roundHalfEven_eq (x / u) n ((lt_div_iff₀ hupos).mpr hn1) ((div_lt_iff₀ hupos).mpr hn2)]

theorem roundToDouble_zero : roundToDouble 0 = 0 := by
  simp [roundToDouble, roundHalfEven]

theorem roundHalfEven_tie (q : ℚ) (n : ℤ) (hn : n % 2 = 0)
    (h : q = (n : ℚ) + 1 / 2 ∨ q = (n : ℚ) - 1 / 2) : roundHalfEven q = n := by
  unfold roundHalfEven
  rcases h with h | h
  · have hf : ⌊q⌋ = n := by
      rw [Int.floor_eq_iff, h]
      constructor <;> linarith
    rw [hf, h]
    have h3 : ¬ ((n : ℚ) + 1 / 2 - n < 1 / 2) := by linarith
    have h4 : ¬ (1 / 2 < (n : ℚ) + 1 / 2 - n) := by linarith
    rw [if_neg h3, if_neg h4, if_pos hn]
  · have hf : ⌊q⌋ = n - 1 := by
      rw [Int.floor_eq_iff, h]
      push_cast
      constructor <;> linarith
    rw [hf, h]
    have hc : ((n - 1 : ℤ) : ℚ) = (n : ℚ) - 1 := by push_cast; ring
    have h3 : ¬ ((n : ℚ) - 1 / 2 - ((n - 1 : ℤ) : ℚ) < 1 / 2) := by rw [hc]; linarith
    have h4 : ¬ (1 / 2 < (n : ℚ) - 1 / 2 - ((n - 1 : ℤ) : ℚ)) := by rw [hc]; linarith
    have h5 : ¬ ((n - 1) % 2 = 0) := by omega
    rw [if_neg h3, if_neg h4, if_neg h5]
    ring

theorem roundToDouble_eq_tie (x : ℚ) (e n : ℤ) (u : ℚ) (hu : u = 2 ^ (e - 52))
    (he : -1022 ≤ e) (h1 : (2 : ℚ) ^ e ≤ |x|) (h2 : |x| < (2 : ℚ) ^ (e + 1))
    (hn : n % 2 = 0) (hx : x = ((n : ℚ) + 1 / 2) * u ∨ x = ((n : ℚ) - 1 / 2) * u) :
    roundToDouble x = n * u := by
  unfold roundToDouble
  rw [doubleExponent_eq x e he h1 h2, ← hu]
  have hupos : 0 < u := by rw [hu]; positivity
  rw [roundHalfEven_tie (x / u) n hn
    (hx.imp (fun h => by rw [h, mul_div_assoc, div_self hupos.ne.symm, mul_one])
      (fun h => by rw [h, mul_div_assoc, div_self hupos.ne.symm, mul_one]))]

/-! ## Double arithmetic: evaluated operations -/

theorem roundToDouble_219_20 :
    roundToDouble (21920 / 100) =
      3856207180935987 / 17592186044416 := by
  rw [roundToDouble_eq
    (21920 / 100)
    7 7712414361871974 (1 / 35184372088832)
    (by norm_num) (by norm_num) (by norm_num [abs_of_pos]) (by norm_num [abs_of_pos])
    (by norm_num) (by norm_num)]
  norm_num

theorem roundToDouble_299_40 :
    roundToDouble (29940 / 100) =
      2633550250849075 / 8796093022208 := by
  rw [roundToDouble_eq
    (29940 / 100)
    8 5267100501698150 (1 / 17592186044416)
    (by norm_num) (by norm_num) (by norm_num [abs_of_pos]) (by norm_num [abs_of_pos])
    (by norm_num) (by norm_num)]
  norm_num

theorem roundToDouble_281_40 :
    roundToDouble (28140 / 100) =
      2475220576449331 / 8796093022208 := by
  rw [roundToDouble_eq
    (28140 / 100)
    8 4950441152898662 (1 / 17592186044416)
    (by norm_num) (by norm_num) (by norm_num [abs_of_pos]) (by norm_num [abs_of_pos])
    (by norm_num) (by norm_num)]
  norm_num

theorem doubleAdd_zero_219_20 :
    doubleAdd 0 (3856207180935987 / 17592186044416) =
      3856207180935987 / 17592186044416 := by
  unfold doubleAdd
  rw [roundToDouble_eq
    (0 + (3856207180935987 / 17592186044416))
    7 7712414361871974 (1 / 35184372088832)
    (by norm_num) (by norm_num) (by norm_num [abs_of_pos]) (by norm_num [abs_of_pos])
    (by norm_num) (by norm_num)]
  norm_num

theorem doubleAdd_219_20_299_40 :
    doubleAdd (3856207180935987 / 17592186044416) (2633550250849075 / 8796093022208) =
      1140413460329267 / 2199023255552 := by
  unfold doubleAdd
  rw [roundToDouble_eq_tie
    ((3856207180935987 / 17592186044416) + (2633550250849075 / 8796093022208))
    9 4561653841317068 (1 / 8796093022208)
    (by norm_num) (by norm_num) (by norm_num [abs_of_pos]) (by norm_num [abs_of_pos])
    (by decide) (by norm_num)]
  norm_num

theorem doubleAdd_518_60_281_40 :
    doubleAdd (1140413460329267 / 2199023255552) (2475220576449331 / 8796093022208) =
      7036874417766399 / 8796093022208 := by
  unfold doubleAdd
  rw [roundToDouble_eq
    ((1140413460329267 / 2199023255552) + (2475220576449331 / 8796093022208))
    9 7036874417766399 (1 / 8796093022208)
    (by norm_num) (by norm_num) (by norm_num [abs_of_pos]) (by norm_num [abs_of_pos])
    (by norm_num) (by norm_num)]
  norm_num

theorem doubleDiv_below_800_1000 :
    doubleDiv (7036874417766399 / 8796093022208) 1000 =
      7205759403792793 / 9007199254740992 := by
  unfold doubleDiv
  rw [roundToDouble_eq
    ((7036874417766399 / 8796093022208) / 1000)
    (-1) 7205759403792793 (1 / 9007199254740992)
    (by norm_num) (by norm_num) (by norm_num [abs_of_pos]) (by norm_num [abs_of_pos])
    (by norm_num) (by norm_num)]
  norm_num

theorem doubleMul_below_800_100 :
    doubleMul (7205759403792793 / 9007199254740992) 100 =
      80 := by
  unfold doubleMul
  rw [roundToDouble_eq
    ((7205759403792793 / 9007199254740992) * 100)
    6 5629499534213120 (1 / 70368744177664)
    (by norm_num) (by norm_num) (by norm_num [abs_of_pos]) (by norm_num [abs_of_pos])
    (by norm_num) (by norm_num)]
  norm_num

theorem doubleDiv_800_1000 :
    doubleDiv 800 1000 =
      3602879701896397 / 4503599627370496 := by
  unfold doubleDiv
  rw [roundToDouble_eq
    (800 / 1000)
    (-1) 7205759403792794 (1 / 9007199254740992)
    (by norm_num) (by norm_num) (by norm_num [abs_of_pos]) (by norm_num [abs_of_pos])
    (by norm_num) (by norm_num)]
  norm_num

theorem doubleMul_800_100 :
    doubleMul (3602879701896397 / 4503599627370496) 100 =
      80 := by
  unfold doubleMul
  rw [roundToDouble_eq
    ((3602879701896397 / 4503599627370496) * 100)
    6 5629499534213120 (1 / 70368744177664)
    (by norm_num) (by norm_num) (by norm_num [abs_of_pos]) (by norm_num [abs_of_pos])
    (by norm_num) (by norm_num)]
  norm_num

theorem doubleDiv_999_1000 :
    doubleDiv 999 1000 =
      8998192055486251 / 9007199254740992 := by
  unfold doubleDiv
  rw [roundToDouble_eq
    (999 / 1000)
    (-1) 8998192055486251 (1 / 9007199254740992)
    (by norm_num) (by norm_num) (by norm_num [abs_of_pos]) (by norm_num [abs_of_pos])
    (by norm_num) (by norm_num)]
  norm_num

theorem doubleMul_999_100 :
    doubleMul (8998192055486251 / 9007199254740992) 100 =
      3514918771674317 / 35184372088832 := by
  unfold doubleMul
  rw [roundToDouble_eq
    ((8998192055486251 / 9007199254740992) * 100)
    6 7029837543348634 (1 / 70368744177664)
    (by norm_num) (by norm_num) (by norm_num [abs_of_pos]) (by norm_num [abs_of_pos])
    (by norm_num) (by norm_num)]
  norm_num

theorem doubleDiv_1000_1000 :
    doubleDiv 1000 1000 =
      1 := by
  unfold doubleDiv
  rw [roundToDouble_eq
    (1000 / 1000)
    0 4503599627370496 (1 / 4503599627370496)
    (by norm_num) (by norm_num) (by norm_num [abs_of_pos]) (by norm_num [abs_of_pos])
    (by norm_num) (by norm_num)]
  norm_num

theorem doubleMul_1000_100 :
    doubleMul 1 100 =
      100 := by
  unfold doubleMul
  rw [roundToDouble_eq
    (1 * 100)
    6 7036874417766400 (1 / 70368744177664)
    (by norm_num) (by norm_num) (by norm_num [abs_of_pos]) (by norm_num [abs_of_pos])
    (by norm_num) (by norm_num)]
  norm_num

theorem roundToDouble_799_99 :
    roundToDouble (79999 / 100) =
      3518393228418089 / 4398046511104 := by
  rw [roundToDouble_eq
    (79999 / 100)
    9 7036786456836178 (1 / 8796093022208)
    (by norm_num) (by norm_num) (by norm_num [abs_of_pos]) (by norm_num [abs_of_pos])
    (by norm_num) (by norm_num)]
  norm_num

theorem doubleDiv_799_99_1000 :
    doubleDiv (3518393228418089 / 4398046511104) 1000 =
      3602834665900123 / 4503599627370496 := by
  unfold doubleDiv
  rw [roundToDouble_eq
    ((3518393228418089 / 4398046511104) / 1000)
    (-1) 7205669331800246 (1 / 9007199254740992)
    (by norm_num) (by norm_num) (by norm_num [abs_of_pos]) (by norm_num [abs_of_pos])
    (by norm_num) (by norm_num)]
  norm_num

theorem doubleMul_799_99_100 :
    doubleMul (3602834665900123 / 4503599627370496) 100 =
      2814714582734471 / 35184372088832 := by
  unfold doubleMul
  rw [roundToDouble_eq
    ((3602834665900123 / 4503599627370496) * 100)
    6 5629429165468942 (1 / 70368744177664)
    (by norm_num) (by norm_num) (by norm_num [abs_of_pos]) (by norm_num [abs_of_pos])
    (by norm_num) (by norm_num)]
  norm_num

theorem doubleAdd_zero_800 :
    doubleAdd 0 800 =
      800 := by
  unfold doubleAdd
  rw [roundToDouble_eq
    (0 + 800)
    9 7036874417766400 (1 / 8796093022208)
    (by norm_num) (by norm_num) (by norm_num [abs_of_pos]) (by norm_num [abs_of_pos])
    (by norm_num) (by norm_num)]
  norm_num

theorem doubleAdd_zero_23 :
    doubleAdd 0 23 =
      23 := by
  unfold doubleAdd
  rw [roundToDouble_eq
    (0 + 23)
    4 6473924464345088 (1 / 281474976710656)
    (by norm_num) (by norm_num) (by norm_num [abs_of_pos]) (by norm_num [abs_of_pos])
    (by norm_num) (by norm_num)]
  norm_num

theorem doubleDiv_23_160 :
    doubleDiv 23 160 =
      2589569785738035 / 18014398509481984 := by
  unfold doubleDiv
  rw [roundToDouble_eq
    (23 / 160)
    (-3) 5179139571476070 (1 / 36028797018963968)
    (by norm_num) (by norm_num) (by norm_num [abs_of_pos]) (by norm_num [abs_of_pos])
    (by norm_num) (by norm_num)]
  norm_num

theorem doubleMul_23_160_100 :
    doubleMul (2589569785738035 / 18014398509481984) 100 =
      8092405580431359 / 562949953421312 := by
  unfold doubleMul
  rw [roundToDouble_eq
    ((2589569785738035 / 18014398509481984) * 100)
    3 8092405580431359 (1 / 562949953421312)
    (by norm_num) (by norm_num) (by norm_num [abs_of_pos]) (by norm_num [abs_of_pos])
    (by norm_num) (by norm_num)]
  norm_num

theorem doubleMul_23_160_10000 :
    doubleMul (8092405580431359 / 562949953421312) 100 =
      6322191859711999 / 4398046511104 := by
  unfold doubleMul
  rw [roundToDouble_eq
    ((8092405580431359 / 562949953421312) * 100)
    10 6322191859711999 (1 / 4398046511104)
    (by norm_num) (by norm_num) (by norm_num [abs_of_pos]) (by norm_num [abs_of_pos])
    (by norm_num) (by norm_num)]
  norm_num

theorem roundToDouble_14_37 :
    roundToDouble (1437 / 100) =
      8089590830664253 / 562949953421312 := by
  rw [roundToDouble_eq
    (1437 / 100)
    3 8089590830664253 (1 / 562949953421312)
    (by norm_num) (by norm_num) (by norm_num [abs_of_pos]) (by norm_num [abs_of_pos])
    (by norm_num) (by norm_num)]
  norm_num

theorem doubleAdd_zero_1 :
    doubleAdd 0 1 =
      1 := by
  unfold doubleAdd
  rw [roundToDouble_eq
    (0 + 1)
    0 4503599627370496 (1 / 4503599627370496)
    (by norm_num) (by norm_num) (by norm_num [abs_of_pos]) (by norm_num [abs_of_pos])
    (by norm_num) (by norm_num)]
  norm_num

theorem doubleDiv_1_3 :
    doubleDiv 1 3 =
      6004799503160661 / 18014398509481984 := by
  unfold doubleDiv
  rw [roundToDouble_eq
    (1 / 3)
    (-2) 6004799503160661 (1 / 18014398509481984)
    (by norm_num) (by norm_num) (by norm_num [abs_of_pos]) (by norm_num [abs_of_pos])
    (by norm_num) (by norm_num)]
  norm_num

theorem doubleMul_1_3_100 :
    doubleMul (6004799503160661 / 18014398509481984) 100 =
      2345624805922133 / 70368744177664 := by
  unfold doubleMul
  rw [roundToDouble_eq
    ((6004799503160661 / 18014398509481984) * 100)
    5 4691249611844266 (1 / 140737488355328)
    (by norm_num) (by norm_num) (by norm_num [abs_of_pos]) (by norm_num [abs_of_pos])
    (by norm_num) (by norm_num)]
  norm_num

theorem doubleMul_1_3_10000 :
    doubleMul (2345624805922133 / 70368744177664) 100 =
      3665038759253333 / 1099511627776 := by
  unfold doubleMul
  rw [roundToDouble_eq
    ((2345624805922133 / 70368744177664) * 100)
    11 7330077518506666 (1 / 2199023255552)
    (by norm_num) (by norm_num) (by norm_num [abs_of_pos]) (by norm_num [abs_of_pos])
    (by norm_num) (by norm_num)]
  norm_num

theorem roundToDouble_33_33 :
    roundToDouble (3333 / 100) =
      2345390243441541 / 70368744177664 := by
  rw [roundToDouble_eq
    (3333 / 100)
    5 4690780486883082 (1 / 140737488355328)
    (by norm_num) (by norm_num) (by norm_num [abs_of_pos]) (by norm_num [abs_of_pos])
    (by norm_num) (by norm_num)]
  norm_num

theorem roundToDouble_0_1 :
    roundToDouble (1 / 10) =
      3602879701896397 / 36028797018963968 := by
  rw [roundToDouble_eq
    (1 / 10)
    (-4) 7205759403792794 (1 / 72057594037927936)
    (by norm_num) (by norm_num) (by norm_num [abs_of_pos]) (by norm_num [abs_of_pos])
    (by norm_num) (by norm_num)]
  norm_num

theorem roundToDouble_0_2 :
    roundToDouble (2 / 10) =
      3602879701896397 / 18014398509481984 := by
  rw [roundToDouble_eq
    (2 / 10)
    (-3) 7205759403792794 (1 / 36028797018963968)
    (by norm_num) (by norm_num) (by norm_num [abs_of_pos]) (by norm_num [abs_of_pos])
    (by norm_num) (by norm_num)]
  norm_num

theorem roundToDouble_0_3 :
    roundToDouble (3 / 10) =
      5404319552844595 / 18014398509481984 := by
  rw [roundToDouble_eq
    (3 / 10)
    (-2) 5404319552844595 (1 / 18014398509481984)
    (by norm_num) (by norm_num) (by norm_num [abs_of_pos]) (by norm_num [abs_of_pos])
    (by norm_num) (by norm_num)]
  norm_num

theorem doubleAdd_0_1_0_2 :
    doubleAdd (3602879701896397 / 36028797018963968) (3602879701896397 / 18014398509481984) =
      1351079888211149 / 4503599627370496 := by
  unfold doubleAdd
  rw [roundToDouble_eq_tie
    ((3602879701896397 / 36028797018963968) + (3602879701896397 / 18014398509481984))
    (-2) 5404319552844596 (1 / 18014398509481984)
    (by norm_num) (by norm_num) (by norm_num [abs_of_pos]) (by norm_num [abs_of_pos])
    (by decide) (by norm_num)]
  norm_num

theorem doubleAdd_0_1_0_2_0_3 :
    doubleAdd (1351079888211149 / 4503599627370496) (5404319552844595 / 18014398509481984) =
      1351079888211149 / 2251799813685248 := by
  unfold doubleAdd
  rw [roundToDouble_eq_tie
    ((1351079888211149 / 4503599627370496) + (5404319552844595 / 18014398509481984))
    (-1) 5404319552844596 (1 / 9007199254740992)
    (by norm_num) (by norm_num) (by norm_num [abs_of_pos]) (by norm_num [abs_of_pos])
    (by decide) (by norm_num)]
  norm_num

theorem doubleAdd_0_3_0_2 :
    doubleAdd (5404319552844595 / 18014398509481984) (3602879701896397 / 18014398509481984) =
      1 / 2 := by
  unfold doubleAdd
  rw [roundToDouble_eq
    ((5404319552844595 / 18014398509481984) + (3602879701896397 / 18014398509481984))
    (-1) 4503599627370496 (1 / 9007199254740992)
    (by norm_num) (by norm_num) (by norm_num [abs_of_pos]) (by norm_num [abs_of_pos])
    (by norm_num) (by norm_num)]
  norm_num

theorem doubleAdd_0_3_0_2_0_1 :
    doubleAdd (1 / 2) (3602879701896397 / 36028797018963968) =
      5404319552844595 / 9007199254740992 := by
  unfold doubleAdd
  rw [roundToDouble_eq
    ((1 / 2) + (3602879701896397 / 36028797018963968))
    (-1) 5404319552844595 (1 / 9007199254740992)
    (by norm_num) (by norm_num) (by norm_num [abs_of_pos]) (by norm_num [abs_of_pos])
    (by norm_num) (by norm_num)]
  norm_num

/-- The rounded addition is not associative: the doubles 0.1, 0.2 and 0.3 summed from the
left give 0.6000000000000001, and summed in the opposite order they give 0.6. -/
theorem doubleAdd_order_example :
    doubleAdd (doubleAdd (roundToDouble (1 / 10)) (roundToDouble (2 / 10)))
      (roundToDouble (3 / 10)) = 5404319552844596 / 9007199254740992 ∧
    doubleAdd (doubleAdd (roundToDouble (3 / 10)) (roundToDouble (2 / 10)))
      (roundToDouble (1 / 10)) = 5404319552844595 / 9007199254740992 := by
  rw [roundToDouble_0_1, roundToDouble_0_2, roundToDouble_0_3, doubleAdd_0_1_0_2,
    doubleAdd_0_1_0_2_0_3, doubleAdd_0_3_0_2, doubleAdd_0_3_0_2_0_1]
  constructor <;> norm_num

/-! ## Limit status in double arithmetic: theorems -/

theorem getLimitStatusDouble_of_limit (s : Storage) (transactions : List Transaction)
    (currentDate : JsDate) (L : ℚ) (hs : getExpenseLimit s = some L) (hL : L ≠ 0) :
    getLimitStatusDouble s transactions currentDate =
      { hasLimit := true
        status :=
          if doubleMul (doubleDiv (getCurrentMonthExpensesDouble transactions currentDate) L)
              100 ≥ 100 then "exceeded"
          else if doubleMul
              (doubleDiv (getCurrentMonthExpensesDouble transactions currentDate) L) 100 ≥
              (getNotificationSettings s).warningThreshold then "warning"
          else "safe"
        currentExpenses := getCurrentMonthExpensesDouble transactions currentDate
        limitAmount := some L
        percentage :=
          doubleDiv (mathRound (doubleMul (doubleMul
            (doubleDiv (getCurrentMonthExpensesDouble transactions currentDate) L) 100)
            100) : ℚ) 100
        remainingAmount :=
          mathMax 0 (doubleSub L (getCurrentMonthExpensesDouble transactions currentDate))
        exceededAmount :=
          mathMax 0 (doubleSub (getCurrentMonthExpensesDouble transactions currentDate) L) } := by
  unfold getLimitStatusDouble
  rw [hs]
  simp [hL]

theorem getLimitStatusDouble_of_no_limit (s : Storage) (transactions : List Transaction)
    (currentDate : JsDate) (hs : getExpenseLimit s = none) :
    getLimitStatusDouble s transactions currentDate =
      { hasLimit := false, status := "no_limit"
        currentExpenses := getCurrentMonthExpensesDouble transactions currentDate
        limitAmount := none, percentage := 0, remainingAmount := 0, exceededAmount := 0 } := by
  unfold getLimitStatusDouble
  rw [hs]

theorem getCurrentMonthExpensesDouble_single (text : Option String) (a : ℚ) (ha : 0 < a)
    (currentDate : JsDate) (day : Nat) :
    getCurrentMonthExpensesDouble
      [⟨text, some (-a), some ⟨currentDate.year, currentDate.month, day⟩⟩] currentDate =
      doubleAdd 0 a := by
  have hneg : -a < 0 := by linarith
  simp [getCurrentMonthExpensesDouble, isExpense, absAmount, mathAbs, hneg]

theorem getCurrentMonthExpensesDouble_three (t1 t2 t3 : Option String) (a b c : ℚ)
    (ha : 0 < a) (hb : 0 < b) (hc : 0 < c) (currentDate : JsDate) (d1 d2 d3 : Nat) :
    getCurrentMonthExpensesDouble
      [⟨t1, some (-a), some ⟨currentDate.year, currentDate.month, d1⟩⟩,
       ⟨t2, some (-b), some ⟨currentDate.year, currentDate.month, d2⟩⟩,
       ⟨t3, some (-c), some ⟨currentDate.year, currentDate.month, d3⟩⟩] currentDate =
      doubleAdd (doubleAdd (doubleAdd 0 a) b) c := by
  have h1 : -a < 0 := by linarith
  have h2 : -b < 0 := by linarith
  have h3 : -c < 0 := by linarith
  simp [getCurrentMonthExpensesDouble, isExpense, absAmount, mathAbs, h1, h2, h3]

/-- C1, as stated, fails: with limit 1000 and the three current-month expenses 219.20,
299.40 and 281.40 the total the code accumulates is the double 799.9999999999999
(`800 - 2 ^ (-43)`), for which `E / L * 100` is below 80, and the status is `warning`:
the quotient rounds to the double 0.7999999999999999 and its product with 100 rounds
to 80. -/
theorem getLimitStatusDouble_warning_below_eighty :
    getCurrentMonthExpensesDouble
      [⟨some "Groceries", some (-(roundToDouble (21920 / 100))), some ⟨2026, 10, 4⟩⟩,
       ⟨some "Rent share", some (-(roundToDouble (29940 / 100))), some ⟨2026, 10, 9⟩⟩,
       ⟨some "Fuel", some (-(roundToDouble (28140 / 100))), some ⟨2026, 10, 15⟩⟩]
      ⟨2026, 10, 20⟩ = 800 - 1 / 2 ^ 43 ∧
    (getLimitStatusDouble ⟨some 1000, none, none⟩
      [⟨some "Groceries", some (-(roundToDouble (21920 / 100))), some ⟨2026, 10, 4⟩⟩,
       ⟨some "Rent share", some (-(roundToDouble (29940 / 100))), some ⟨2026, 10, 9⟩⟩,
       ⟨some "Fuel", some (-(roundToDouble (28140 / 100))), some ⟨2026, 10, 15⟩⟩]
      ⟨2026, 10, 20⟩).status = "warning" ∧
    ¬ (80 ≤ ((800 : ℚ) - 1 / 2 ^ 43) / 1000 * 100) := by
  have hcur : getCurrentMonthExpensesDouble
      [⟨some "Groceries", some (-(roundToDouble (21920 / 100))), some ⟨2026, 10, 4⟩⟩,
       ⟨some "Rent share", some (-(roundToDouble (29940 / 100))), some ⟨2026, 10, 9⟩⟩,
       ⟨some "Fuel", some (-(roundToDouble (28140 / 100))), some ⟨2026, 10, 15⟩⟩]
      ⟨2026, 10, 20⟩ = 7036874417766399 / 8796093022208 := by
    rw [roundToDouble_219_20, roundToDouble_299_40, roundToDouble_281_40]
    rw [getCurrentMonthExpensesDouble_three _ _ _ _ _ _ (by norm_num) (by norm_num)
      (by norm_num) ⟨2026, 10, 20⟩ 4 9 15]
    rw [doubleAdd_zero_219_20, doubleAdd_219_20_299_40, doubleAdd_518_60_281_40]
  refine ⟨?_, ?_, ?_⟩
  · rw [hcur]
    norm_num
  · rw [getLimitStatusDouble_of_limit ⟨some 1000, none, none⟩ _ ⟨2026, 10, 20⟩ 1000 rfl
      (by norm_num), hcur, doubleDiv_below_800_1000, doubleMul_below_800_100]
    have hthr : (getNotificationSettings ⟨some 1000, none, none⟩).warningThreshold = 80 := rfl
    rw [hthr]
    norm_num
  · norm_num

/-- C1, amended: with a stored limit `L > 0`, a current-month expense total `E ≥ 0` and the
default notification settings, `getLimitStatus` reports `exceeded` exactly when `p ≥ 100`,
`warning` exactly when `80 ≤ p < 100` and `safe` otherwise, where `p` is the double that the
code computes as `(E / L) * 100`, the quotient and the product each rounded to the nearest
double; with `L = 1000` the totals 800 and 999 give `warning`, 1000 gives `exceeded` and
799.99 gives `safe`. -/
theorem getLimitStatusDouble_status_thresholds (s : Storage)
    (transactions : List Transaction) (currentDate : JsDate) (L E : ℚ)
    (hL : 0 < L) (hE : 0 ≤ E)
    (hs : getExpenseLimit s = some L)
    (hcur : getCurrentMonthExpensesDouble transactions currentDate = E)
    (hset : getNotificationSettings s = DEFAULT_NOTIFICATION_SETTINGS) :
    ((getLimitStatusDouble s transactions currentDate).status = "exceeded" ↔
      doubleMul (doubleDiv E L) 100 ≥ 100) ∧
    ((getLimitStatusDouble s transactions currentDate).status = "warning" ↔
      (80 ≤ doubleMul (doubleDiv E L) 100 ∧ doubleMul (doubleDiv E L) 100 < 100)) ∧
    ((getLimitStatusDouble s transactions currentDate).status = "safe" ↔
      ¬ (doubleMul (doubleDiv E L) 100 ≥ 100) ∧
      ¬ (80 ≤ doubleMul (doubleDiv E L) 100 ∧ doubleMul (doubleDiv E L) 100 < 100)) ∧
    (L = 1000 → E = 800 →
      (getLimitStatusDouble s transactions currentDate).status = "warning") ∧
    (L = 1000 → E = 999 →
      (getLimitStatusDouble s transactions currentDate).status = "warning") ∧
    (L = 1000 → E = 1000 →
      (getLimitStatusDouble s transactions currentDate).status = "exceeded") ∧
    (L = 1000 → E = roundToDouble (79999 / 100) →
      (getLimitStatusDouble s transactions currentDate).status = "safe") := by
  have _hE := hE
  rw [getLimitStatusDouble_of_limit s transactions currentDate L hs hL.ne.symm, hcur, hset]
  have hthr : DEFAULT_NOTIFICATION_SETTINGS.warningThreshold = 80 := rfl
  simp only [hthr]
  have key : ∀ p : ℚ,
      ((if p ≥ 100 then "exceeded" else if p ≥ 80 then "warning" else "safe") = "exceeded" ↔
        p ≥ 100) ∧
      ((if p ≥ 100 then "exceeded" else if p ≥ 80 then "warning" else "safe") = "warning" ↔
        (80 ≤ p ∧ p < 100)) ∧
      ((if p ≥ 100 then "exceeded" else if p ≥ 80 then "warning" else "safe") = "safe" ↔
        ¬ (p ≥ 100) ∧ ¬ (80 ≤ p ∧ p < 100)) := by
    intro p
    by_cases h1 : p ≥ 100
    · have h3 : ¬ (p < 100) := not_lt.mpr h1
      simp [h1, h3]
    · by_cases h2 : p ≥ 80
      · have h3 : p < 100 := not_le.mp h1
        simp [h1, h2, h3]
      · simp [h1, h2]
  refine ⟨(key _).1, (key _).2.1, (key _).2.2, ?_, ?_, ?_, ?_⟩
  · rintro rfl rfl
    rw [doubleDiv_800_1000, doubleMul_800_100]
    norm_num
  · rintro rfl rfl
    rw [doubleDiv_999_1000, doubleMul_999_100]
    norm_num
  · rintro rfl rfl
    rw [doubleDiv_1000_1000, doubleMul_1000_100]
    norm_num
  · rintro rfl rfl
    rw [roundToDouble_799_99, doubleDiv_799_99_1000, doubleMul_799_99_100]
    norm_num

theorem getLimitStatusDouble_status_thresholds_witness :
    (getLimitStatusDouble ⟨some 1000, none, none⟩
      [⟨some "Rent", some (-800), some ⟨2026, 10, 4⟩⟩] ⟨2026, 10, 20⟩).status = "warning" :=
  (getLimitStatusDouble_status_thresholds ⟨some 1000, none, none⟩
    [⟨some "Rent", some (-800), some ⟨2026, 10, 4⟩⟩] ⟨2026, 10, 20⟩ 1000 800
    (by norm_num) (by norm_num) rfl
    ((getCurrentMonthExpensesDouble_single (some "Rent") 800 (by norm_num)
      ⟨2026, 10, 20⟩ 4).trans doubleAdd_zero_800) rfl).2.2.2.1 rfl rfl

/-! ## Percentage field: theorems -/

theorem mathRound_23_160 :
    mathRound (6322191859711999 / 4398046511104) = 1437 := by
  rw [mathRound_eq_floor, Int.floor_eq_iff]
  norm_num

theorem mathRound_1_3 :
    mathRound (3665038759253333 / 1099511627776) = 3333 := by
  rw [mathRound_eq_floor, Int.floor_eq_iff]
  norm_num

/-- C3, as stated, fails: with limit 3 and a current-month total of 1 the `percentage`
field is 33.33, not `1 / 3 * 100`.  This holds in exact arithmetic, and also in the double
arithmetic of the engine, where the field is the double nearest to 33.33. -/
theorem getLimitStatus_percentage_rounded_example :
    (getLimitStatus ⟨some 3, none, none⟩
      [⟨some "Tea", some (-1), some ⟨2026, 10, 4⟩⟩] ⟨2026, 10, 20⟩).percentage = 3333 / 100 ∧
    (getLimitStatus ⟨some 3, none, none⟩
      [⟨some "Tea", some (-1), some ⟨2026, 10, 4⟩⟩] ⟨2026, 10, 20⟩).percentage
        ≠ (1 : ℚ) / 3 * 100 ∧
    (getLimitStatusDouble ⟨some 3, none, none⟩
      [⟨some "Tea", some (-1), some ⟨2026, 10, 4⟩⟩] ⟨2026, 10, 20⟩).percentage =
        roundToDouble (3333 / 100) ∧
    (getLimitStatusDouble ⟨some 3, none, none⟩
      [⟨some "Tea", some (-1), some ⟨2026, 10, 4⟩⟩] ⟨2026, 10, 20⟩).percentage
        ≠ (1 : ℚ) / 3 * 100 := by
  have hcur : getCurrentMonthExpenses
      [⟨some "Tea", some (-1), some ⟨2026, 10, 4⟩⟩] ⟨2026, 10, 20⟩ = 1 := by
    simp [getCurrentMonthExpenses, isExpense, absAmount, mathAbs]
  have hr : mathRound ((1 : ℚ) / 3 * 100 * 100) = 3333 := by
    rw [mathRound_eq_floor, Int.floor_eq_iff]
    norm_num
  have hcurD : getCurrentMonthExpensesDouble
      [⟨some "Tea", some (-1), some ⟨2026, 10, 4⟩⟩] ⟨2026, 10, 20⟩ = 1 :=
    (getCurrentMonthExpensesDouble_single (some "Tea") 1 (by norm_num)
      ⟨2026, 10, 20⟩ 4).trans doubleAdd_zero_1
  have hD : (getLimitStatusDouble ⟨some 3, none, none⟩
      [⟨some "Tea", some (-1), some ⟨2026, 10, 4⟩⟩] ⟨2026, 10, 20⟩).percentage =
        roundToDouble (3333 / 100) := by
    rw [getLimitStatusDouble_of_limit ⟨some 3, none, none⟩
      [⟨some "Tea", some (-1), some ⟨2026, 10, 4⟩⟩] ⟨2026, 10, 20⟩ 3 rfl (by norm_num)]
    simp only [hcurD, doubleDiv_1_3, doubleMul_1_3_100, doubleMul_1_3_10000, mathRound_1_3]
    unfold doubleDiv
    norm_num
  refine ⟨?_, ?_, hD, ?_⟩
  · rw [getLimitStatus_of_limit ⟨some 3, none, none⟩
      [⟨some "Tea", some (-1), some ⟨2026, 10, 4⟩⟩] ⟨2026, 10, 20⟩ 3 rfl (by norm_num)]
    simp only [hcur, hr]
    norm_num
  · rw [getLimitStatus_of_limit ⟨some 3, none, none⟩
      [⟨some "Tea", some (-1), some ⟨2026, 10, 4⟩⟩] ⟨2026, 10, 20⟩ 3 rfl (by norm_num)]
    simp only [hcur, hr]
    norm_num
  · rw [hD, roundToDouble_33_33]
    norm_num

/-- C3, amended: with a stored limit `L > 0` and a current-month total `E ≥ 0`, the
`percentage` field is, in exact arithmetic, `E / L * 100` rounded to two decimal places,
that is `Math.round (E / L * 100 * 100) / 100` with ties rounded up, within 0.005 of
`E / L * 100`.  In the double arithmetic of the engine the field is
`Math.round (p * 100) / 100` for the double `p = (E / L) * 100`, every operation rounded
to the nearest double, which can differ from the exact rounding in the second decimal:
with `L = 160` and `E = 23` the exact value is 14.38 and the code returns 14.37.  The
field is 0 when no limit is stored. -/
theorem getLimitStatus_percentage (s : Storage) (transactions : List Transaction)
    (currentDate : JsDate) :
    (∀ L E : ℚ, 0 < L → 0 ≤ E → getExpenseLimit s = some L →
      getCurrentMonthExpenses transactions currentDate = E →
      (getLimitStatus s transactions currentDate).percentage =
        ((⌊E / L * 100 * 100 + 1 / 2⌋ : ℤ) : ℚ) / 100 ∧
      |(getLimitStatus s transactions currentDate).percentage - E / L * 100| ≤ 1 / 200) ∧
    (getExpenseLimit s = none → (getLimitStatus s transactions currentDate).percentage = 0) ∧
    (∀ L E : ℚ, 0 < L → 0 ≤ E → getExpenseLimit s = some L →
      getCurrentMonthExpensesDouble transactions currentDate = E →
      (getLimitStatusDouble s transactions currentDate).percentage =
        doubleDiv ((⌊doubleMul (doubleMul (doubleDiv E L) 100) 100 + 1 / 2⌋ : ℤ) : ℚ) 100) ∧
    (getExpenseLimit s = some 160 →
      getCurrentMonthExpenses transactions currentDate = 23 →
      getCurrentMonthExpensesDouble transactions currentDate = 23 →
      (getLimitStatus s transactions currentDate).percentage = 1438 / 100 ∧
      (getLimitStatusDouble s transactions currentDate).percentage =
        roundToDouble (1437 / 100)) ∧
    (getExpenseLimit s = none →
      (getLimitStatusDouble s transactions currentDate).percentage = 0) := by
  refine ⟨?_, ?_, ?_, ?_, ?_⟩
  · intro L E hL _ hs hcur
    rw [getLimitStatus_of_limit s transactions currentDate L hs hL.ne.symm, hcur]
    refine ⟨rfl, ?_⟩
    have h := mathRound_close (E / L * 100 * 100)
    rw [abs_le] at h ⊢
    simp only
    constructor <;> linarith [h.1, h.2]
  · intro hs
    rw [getLimitStatus_of_no_limit s transactions currentDate hs]
  · intro L E hL _ hs hcur
    rw [getLimitStatusDouble_of_limit s transactions currentDate L hs hL.ne.symm, hcur]
    rfl
  · intro hs hcur hcurD
    constructor
    · rw [getLimitStatus_of_limit s transactions currentDate 160 hs (by norm_num), hcur]
      have hr : mathRound ((23 : ℚ) / 160 * 100 * 100) = 1438 := by
        rw [mathRound_eq_floor, Int.floor_eq_iff]
        norm_num
      simp only [hr]
      norm_num
    · rw [getLimitStatusDouble_of_limit s transactions currentDate 160 hs (by norm_num),
        hcurD]
      simp only [doubleDiv_23_160, doubleMul_23_160_100, doubleMul_23_160_10000,
        mathRound_23_160]
      unfold doubleDiv
      norm_num
  · intro hs
    rw [getLimitStatusDouble_of_no_limit s transactions currentDate hs]

theorem getLimitStatus_percentage_witness :
    |(getLimitStatus ⟨some 3, none, none⟩
      [⟨some "Tea", some (-1), some ⟨2026, 10, 4⟩⟩] ⟨2026, 10, 20⟩).percentage
        - (1 : ℚ) / 3 * 100| ≤ 1 / 200 ∧
    (getLimitStatus ⟨none, none, none⟩
      [⟨some "Tea", some (-1), some ⟨2026, 10, 4⟩⟩] ⟨2026, 10, 20⟩).percentage = 0 ∧
    (getLimitStatusDouble ⟨some 160, none, none⟩
      [⟨some "Tea", some (-23), some ⟨2026, 10, 4⟩⟩] ⟨2026, 10, 20⟩).percentage =
        roundToDouble (1437 / 100) :=
  ⟨((getLimitStatus_percentage ⟨some 3, none, none⟩
      [⟨some "Tea", some (-1), some ⟨2026, 10, 4⟩⟩] ⟨2026, 10, 20⟩).1 3 1
      (by norm_num) (by norm_num) rfl
      (by simp [getCurrentMonthExpenses, isExpense, absAmount, mathAbs])).2,
   (getLimitStatus_percentage ⟨none, none, none⟩
      [⟨some "Tea", some (-1), some ⟨2026, 10, 4⟩⟩] ⟨2026, 10, 20⟩).2.1 rfl,
   ((getLimitStatus_percentage ⟨some 160, none, none⟩
      [⟨some "Tea", some (-23), some ⟨2026, 10, 4⟩⟩] ⟨2026, 10, 20⟩).2.2.2.1 rfl
      (by simp [getCurrentMonthExpenses, isExpense, absAmount, mathAbs])
      ((getCurrentMonthExpensesDouble_single (some "Tea") 23 (by norm_num)
        ⟨2026, 10, 20⟩ 4).trans doubleAdd_zero_23)).2⟩

end MSD
